import Mathlib

/-!
A shallow embedding of the core of the `brick` compiler (type checker,
memory layout, and linear-IR lowering), with theorems checking the
natural-language specification against the code.

Identifier families (TypeID, FunctionID, VariableID, RegisterID) are
embedded as natural numbers.  Hash maps are embedded as association
lists.  Functions that can panic in the source (`unwrap`, indexing,
`todo!`, `unreachable!`) are embedded as `Option`-returning functions,
with `none` standing for a panic.
-/

namespace Brick

/-- Kinds of pointers: `shared` (read-only, aliasable) and `unique`. -/
inductive PointerKind where
  | Shared
  | Unique
deriving DecidableEq

/-- Primitive value types of the language (`PrimitiveType`). -/
inductive PrimitiveType where
  | Char
  | Int32
  | Float32
  | Int64
  | Float64
  | Bool
  | PointerSize
deriving DecidableEq

mutual

/-- The central semantic type of the language (`ExpressionType`). -/
inductive ExpressionType where
  | Void
  | Unreachable
  | Null
  | Primitive (p : PrimitiveType)
  | InstanceOf (id : Nat)
  | ReferenceToType (id : Nat)
  | ReferenceToFunction (id : Nat)
  | FunctionReference (parameters : List ExpressionType) (returns : ExpressionType)
  | Pointer (kind : PointerKind) (inner : ExpressionType)
  | Collection (c : CollectionType)
  | Nullable (inner : ExpressionType)
  | Generator (yield_ty : ExpressionType) (param_ty : ExpressionType)
  | TypeParameterReference (idx : Nat)

/-- Built-in collection types (`CollectionType`). -/
inductive CollectionType where
  | Array (inner : ExpressionType)
  | Dict (key : ExpressionType) (value : ExpressionType)
  | String
  | ReferenceCounter (inner : ExpressionType)
  | Cell (inner : ExpressionType)

end

mutual

/-- Structural equality on `ExpressionType` (the `PartialEq` derive of the
source). -/
def ExpressionType.beq : ExpressionType → ExpressionType → Bool
  | .Void, .Void => true
  | .Unreachable, .Unreachable => true
  | .Null, .Null => true
  | .Primitive p, .Primitive q => p == q
  | .InstanceOf a, .InstanceOf b => a == b
  | .ReferenceToType a, .ReferenceToType b => a == b
  | .ReferenceToFunction a, .ReferenceToFunction b => a == b
  | .FunctionReference ps r, .FunctionReference qs s =>
      ExpressionType.beqList ps qs && ExpressionType.beq r s
  | .Pointer k a, .Pointer l b => k == l && ExpressionType.beq a b
  | .Collection c, .Collection d => CollectionType.beq c d
  | .Nullable a, .Nullable b => ExpressionType.beq a b
  | .Generator y p, .Generator z q => ExpressionType.beq y z && ExpressionType.beq p q
  | .TypeParameterReference i, .TypeParameterReference j => i == j
  | _, _ => false

/-- Structural equality on `CollectionType`. -/
def CollectionType.beq : CollectionType → CollectionType → Bool
  | .Array a, .Array b => ExpressionType.beq a b
  | .Dict k v, .Dict l w => ExpressionType.beq k l && ExpressionType.beq v w
  | .String, .String => true
  | .ReferenceCounter a, .ReferenceCounter b => ExpressionType.beq a b
  | .Cell a, .Cell b => ExpressionType.beq a b
  | _, _ => false

/-- Structural equality on lists of `ExpressionType`. -/
def ExpressionType.beqList : List ExpressionType → List ExpressionType → Bool
  | [], [] => true
  | a :: la, b :: lb => ExpressionType.beq a b && ExpressionType.beqList la lb
  | _, _ => false

end

set_option maxHeartbeats 3200000 in
theorem ExpressionType.beq_spec :
    ∀ n : Nat,
      (∀ a b : ExpressionType, sizeOf a ≤ n → (ExpressionType.beq a b = true ↔ a = b))
      ∧ (∀ c d : CollectionType, sizeOf c ≤ n → (CollectionType.beq c d = true ↔ c = d))
      ∧ (∀ l m : List ExpressionType, sizeOf l ≤ n →
          (ExpressionType.beqList l m = true ↔ l = m)) := by
  intro n
  induction n with
  | zero =>
    refine ⟨?_, ?_, ?_⟩
    · intro a _ ha; exact absurd ha (by cases a <;> simp <;> omega)
    · intro c _ hc; exact absurd hc (by cases c <;> simp <;> omega)
    · intro l _ hl; exact absurd hl (by cases l <;> simp <;> omega)
  | succ n ih =>
    obtain ⟨ihE, ihC, ihL⟩ := ih
    refine ⟨?_, ?_, ?_⟩
    · intro a b ha
      cases a <;> cases b
      all_goals try (refine iff_of_false ?_ ?_ <;> solve | simp [ExpressionType.beq])
      all_goals simp only [ExpressionType.beq, Bool.and_eq_true, beq_iff_eq,
        ExpressionType.Primitive.injEq, ExpressionType.InstanceOf.injEq,
        ExpressionType.ReferenceToType.injEq, ExpressionType.ReferenceToFunction.injEq,
        ExpressionType.FunctionReference.injEq, ExpressionType.Pointer.injEq,
        ExpressionType.Collection.injEq, ExpressionType.Nullable.injEq,
        ExpressionType.Generator.injEq, ExpressionType.TypeParameterReference.injEq]
      case FunctionReference.FunctionReference ps r qs s =>
        rw [ihL ps qs (by simp at ha; omega), ihE r s (by simp at ha; omega)]
      case Pointer.Pointer k a l b =>
        rw [ihE a b (by simp at ha; omega)]
      case Collection.Collection c d =>
        exact ihC c d (by simp at ha; omega)
      case Nullable.Nullable a b =>
        exact ihE a b (by simp at ha; omega)
      case Generator.Generator y p z q =>
        rw [ihE y z (by simp at ha; omega), ihE p q (by simp at ha; omega)]
    · intro c d hc
      cases c <;> cases d
      all_goals try (refine iff_of_false ?_ ?_ <;> solve | simp [CollectionType.beq])
      all_goals simp only [CollectionType.beq, Bool.and_eq_true,
        CollectionType.Array.injEq, CollectionType.Dict.injEq,
        CollectionType.ReferenceCounter.injEq, CollectionType.Cell.injEq]
      case Array.Array a b =>
        exact ihE a b (by simp at hc; omega)
      case Dict.Dict k v l w =>
        rw [ihE k l (by simp at hc; omega), ihE v w (by simp at hc; omega)]
      case ReferenceCounter.ReferenceCounter a b =>
        exact ihE a b (by simp at hc; omega)
      case Cell.Cell a b =>
        exact ihE a b (by simp at hc; omega)
    · intro l m hl
      cases l <;> cases m
      all_goals try (refine iff_of_false ?_ ?_ <;> solve | simp [ExpressionType.beqList])
      all_goals simp only [ExpressionType.beqList, Bool.and_eq_true, List.cons.injEq]
      case cons.cons a la b lb =>
        rw [ihE a b (by simp at hl; omega), ihL la lb (by simp at hl; omega)]

theorem ExpressionType.beq_iff (a b : ExpressionType) :
    ExpressionType.beq a b = true ↔ a = b :=
  (ExpressionType.beq_spec (sizeOf a)).1 a b le_rfl

theorem CollectionType.beq_eq_true_iff (c d : CollectionType) :
    CollectionType.beq c d = true ↔ c = d :=
  (ExpressionType.beq_spec (sizeOf c)).2.1 c d le_rfl

instance : DecidableEq ExpressionType := fun a b =>
  decidable_of_iff _ (ExpressionType.beq_iff a b)

instance : DecidableEq CollectionType := fun c d =>
  decidable_of_iff _ (CollectionType.beq_eq_true_iff c d)

instance : BEq ExpressionType := ⟨ExpressionType.beq⟩

instance : LawfulBEq ExpressionType where
  eq_of_beq h := (ExpressionType.beq_iff _ _).mp h
  rfl := (ExpressionType.beq_iff _ _).mpr rfl

/-- A function signature (`FuncType`); `id`, `params` and `returns` are the
fields consulted by `is_assignable_to`. -/
structure FuncType where
  id : Nat
  params : List ExpressionType
  returns : ExpressionType
deriving DecidableEq

/-- A struct declaration (`StructType`): fields and associated functions
(by name, mapping to FunctionIDs); `is_affine` marks `Resource` types. -/
structure StructType where
  id : Nat
  fields : List (String × ExpressionType)
  associated_functions : List (String × Nat)
  is_affine : Bool
deriving DecidableEq

/-- A union declaration (`UnionType`). -/
structure UnionType where
  id : Nat
  variant_order : List String
  variants : List (String × Option ExpressionType)
  is_affine : Bool
deriving DecidableEq

/-- An interface declaration (`InterfaceType`). -/
structure InterfaceType where
  id : Nat
  associated_functions : List (String × Nat)
deriving DecidableEq

/-- A module declaration (`ModuleType`); its exports play no role in the
claims under study. -/
structure ModuleType where
  id : Nat
deriving DecidableEq

/-- A user type declaration (`TypeDeclaration`). -/
inductive TypeDeclaration where
  | Struct (s : StructType)
  | Union (u : UnionType)
  | Interface (i : InterfaceType)
  | Module (m : ModuleType)
deriving DecidableEq

/-- The declaration context: maps from TypeID to declaration and from
FunctionID to signature (the two maps `is_assignable_to` consults). -/
structure DeclarationContext where
  id_to_decl : List (Nat × TypeDeclaration)
  id_to_func : List (Nat × FuncType)

/-- The loop of `is_assignable_to`'s Interface-accepts-Struct arm: for
every associated function of the interface, the struct must supply a
same-named function; the two signatures are compared by zipping the
parameter lists after the `self` parameter (`params[1..]`) and comparing
the return types.  Slicing `params[1..]` panics in the source when a
parameter list is empty, hence the `none` result in that case. -/
def interface_accepts_struct (context : DeclarationContext)
    (lhs_assoc rhs_assoc : List (String × Nat)) : Option Bool :=
  match lhs_assoc with
  | [] => some true
  | (name, lhs_ty) :: rest =>
    match rhs_assoc.lookup name with
    | none => some false
    | some rhs_ty =>
      (context.id_to_func.lookup lhs_ty).bind fun lhs =>
        (context.id_to_func.lookup rhs_ty).bind fun rhs =>
          if lhs.params.isEmpty || rhs.params.isEmpty then none
          else if ((lhs.params.drop 1).zip (rhs.params.drop 1)).all
                    (fun pair => pair.1 == pair.2)
                  && (lhs.returns == rhs.returns)
          then interface_accepts_struct context rest rhs_assoc
          else some false

/-- The body of `is_assignable_to`'s `(InstanceOf, InstanceOf)` arm, after
the two declarations have been looked up. -/
def decl_assignable (context : DeclarationContext)
    (ld rd : TypeDeclaration) : Option Bool :=
  match ld, rd with
  | .Struct _, .Struct _ => some (decide (ld = rd))
  | .Struct _, _ => some false
  | .Union _, .Union _ => some (decide (ld = rd))
  | .Union _, _ => some false
  | .Interface i, .Struct s =>
    interface_accepts_struct context i.associated_functions s.associated_functions
  | .Interface _, .Interface _ => some (decide (ld = rd))
  | .Interface _, .Union _ => none
  | _, .Module _ => some false
  | .Module _, _ => some false

/-- `is_assignable_to(context, generic_args, left, right)`: whether a value
of type `right` is assignable to a location of type `left`.  The `fuel`
argument makes the (in the source, unbounded) recursion well-founded; it is
irrelevant whenever it exceeds the recursion depth.  `none` models a panic
(`todo!`, `unwrap` of `None`, missing map keys). -/
def is_assignable_to (context : DeclarationContext) :
    Nat → Option (List ExpressionType) → ExpressionType → ExpressionType → Option Bool
  | 0, _, _, _ => none
  | fuel + 1, generic_args, left, right =>
  match left, right with
  | .TypeParameterReference idx, _ =>
    match generic_args with
    | none => none
    | some ga =>
      match ga[idx]? with
      | none => none
      | some bound => is_assignable_to context fuel generic_args bound right
  | _, .TypeParameterReference _ => none
  | .Unreachable, .Unreachable => some true
  | .Unreachable, _ => some false
  | _, .Unreachable => some true
  | .Void, .Void => some true
  | .Void, _ | _, .Void | .Null, _ => some false
  | .Pointer left_ty left_inner, .Pointer right_ty right_inner =>
    if left_ty = right_ty ∨ (left_ty = .Shared ∧ right_ty = .Unique)
    then is_assignable_to context fuel generic_args left_inner right_inner
    else some false
  | l, .Pointer _ right_inner => is_assignable_to context fuel generic_args l right_inner
  | .Pointer _ _, _ => some false
  | .Nullable _, .Null => some true
  | _, .Null => some false
  | .Nullable l, .Nullable r => is_assignable_to context fuel generic_args l r
  | .Nullable l, r => is_assignable_to context fuel generic_args l r
  | _, .Nullable _ => some false
  | .Primitive .Float32, .Primitive .Int32 => some true
  | .Primitive .Float64, .Primitive .Int32 => some true
  | .Primitive .Float64, .Primitive .Int64 => some true
  | .Primitive .Int64, .Primitive .Int32 => some true
  | .Primitive .Float64, .Primitive .Float32 => some true
  | .Primitive .PointerSize, .Primitive .Int32 => some true
  | .Primitive l, .Primitive r => some (l == r)
  | .Primitive _, _ => some false
  | .InstanceOf l, .InstanceOf r =>
    (context.id_to_decl.lookup l).bind fun ld =>
      (context.id_to_decl.lookup r).bind fun rd =>
        decl_assignable context ld rd
  | .Generator ly lp, .Generator ry rp => some ((ly == ry) && (lp == rp))
  | .Generator _ _, _ | _, .Generator _ _ => some false
  | .InstanceOf _, .Primitive _ | .InstanceOf _, .Collection _
  | .Collection _, .Primitive _ | .Collection _, .InstanceOf _ => some false
  | .Collection (.Array l), .Collection (.Array r) => some (l == r)
  | .Collection (.ReferenceCounter l), .Collection (.ReferenceCounter r) => some (l == r)
  | .Collection (.Cell l), .Collection (.Cell r) => some (l == r)
  | .Collection (.Dict lk lv), .Collection (.Dict rk rv) => some ((lk == rk) && (lv == rv))
  | .Collection .String, .Collection .String => some true
  | .Collection _, .Collection _ => some false
  | .FunctionReference _ _, _ | _, .FunctionReference _ _ => none
  | .ReferenceToFunction _, _ | _, .ReferenceToFunction _ => none
  | .ReferenceToType _, _ | _, .ReferenceToType _ => none

/-- `fully_dereference`: strip all `Pointer` wrappers from a type. -/
def fully_dereference (ty : ExpressionType) : ExpressionType :=
  match ty with
  | .Pointer _ inner => fully_dereference inner
  | _ => ty

/-- `shallow_dereference`: strip at most one `Pointer` wrapper. -/
def shallow_dereference (ty : ExpressionType) : ExpressionType :=
  match ty with
  | .Pointer _ inner => inner
  | _ => ty

/-- The typing rule for integer literals in `typecheck_expression`: `Int32`
when the value fits in `i32` (the source uses `i32::try_from`), else
`Int64`. -/
def typecheck_int_literal (constant : Int) : ExpressionType :=
  if -(2 ^ 31) ≤ constant ∧ constant < 2 ^ 31
  then .Primitive .Int32
  else .Primitive .Int64

/-- The typing rule for float literals in `typecheck_expression`.  The
floating-point values are modelled as exact rationals and the
`as f32 as f64` round trip as a parameter, so the embedded rule is the
source's conditional `(constant as f32 as f64 - constant).abs() <=
0.0000001`. -/
def typecheck_float_literal (f32_round_trip : ℚ → ℚ) (constant : ℚ) : ExpressionType :=
  if |f32_round_trip constant - constant| ≤ 1 / 10 ^ 7
  then .Primitive .Float32
  else .Primitive .Float64

/-! ## Theorems for the type-checker claims -/

theorem fully_dereference_ne_pointer :
    ∀ (t : ExpressionType) (k : PointerKind) (inner : ExpressionType),
      fully_dereference t ≠ ExpressionType.Pointer k inner
  | .Pointer k i, k', i' => by
      rw [show fully_dereference (.Pointer k i) = fully_dereference i from by
        rw [fully_dereference]]
      exact fully_dereference_ne_pointer i k' i'
  | .Void, _, _ => by simp [fully_dereference]
  | .Unreachable, _, _ => by simp [fully_dereference]
  | .Null, _, _ => by simp [fully_dereference]
  | .Primitive _, _, _ => by simp [fully_dereference]
  | .InstanceOf _, _, _ => by simp [fully_dereference]
  | .ReferenceToType _, _, _ => by simp [fully_dereference]
  | .ReferenceToFunction _, _, _ => by simp [fully_dereference]
  | .FunctionReference _ _, _, _ => by simp [fully_dereference]
  | .Collection _, _, _ => by simp [fully_dereference]
  | .Nullable _, _, _ => by simp [fully_dereference]
  | .Generator _ _, _, _ => by simp [fully_dereference]
  | .TypeParameterReference _, _, _ => by simp [fully_dereference]

theorem fully_dereference_of_not_pointer (t : ExpressionType)
    (h : ∀ k inner, t ≠ ExpressionType.Pointer k inner) :
    fully_dereference t = t := by
  cases t <;> simp [fully_dereference]
  case Pointer k inner => exact absurd rfl (h k inner)

/-- C10: for every `ExpressionType` `t`, `fully_dereference t` is never a
`Pointer` type; `fully_dereference` is idempotent; and it is the identity on
every non-pointer type. -/
theorem fully_dereference_never_pointer_idempotent (t : ExpressionType) :
    (∀ k inner, fully_dereference t ≠ ExpressionType.Pointer k inner)
    ∧ fully_dereference (fully_dereference t) = fully_dereference t
    ∧ ((∀ k inner, t ≠ ExpressionType.Pointer k inner) → fully_dereference t = t) :=
  ⟨fully_dereference_ne_pointer t,
   fully_dereference_of_not_pointer _ (fully_dereference_ne_pointer t),
   fully_dereference_of_not_pointer t⟩

/-- Witness for C10's theorem at concrete inputs. -/
theorem fully_dereference_never_pointer_idempotent_witness :
    fully_dereference .Void = .Void
    ∧ (∀ k inner,
        fully_dereference (.Pointer .Shared .Void) ≠ ExpressionType.Pointer k inner) :=
  ⟨(fully_dereference_never_pointer_idempotent .Void).2.2 (by intro k inner h; cases h),
   (fully_dereference_never_pointer_idempotent (.Pointer .Shared .Void)).1⟩

/-- An empty declaration context, for concrete checks. -/
def ctx0 : DeclarationContext := ⟨[], []⟩

/-- C1 counterexample: the claim says nothing except `Unreachable` is
assignable to `Void`, but the code has a dedicated `(Void, Void) => true`
arm, so `Void` (which differs from `Unreachable`) is assignable to `Void`;
moreover for a type-parameter reference on the right the function hits a
`todo!()` panic rather than returning `false`. -/
theorem void_assignable_to_void_counterexample :
    ExpressionType.Void ≠ ExpressionType.Unreachable
    ∧ is_assignable_to ctx0 1 none .Void .Void = some true
    ∧ is_assignable_to ctx0 1 none .Void (.TypeParameterReference 0) = none :=
  ⟨by simp, rfl, rfl⟩

/-- C1 (amended): `Unreachable` as the right-hand side is assignable to
every type that is not a type-parameter reference; and for every `t` other
than `Unreachable`, `Void` itself, and type-parameter references (where the
code panics), `is_assignable_to(Void, t)` is `false`. -/
theorem unreachable_rhs_any_and_void_lhs_rejects (context : DeclarationContext)
    (fuel : Nat) (generic_args : Option (List ExpressionType)) (t : ExpressionType) :
    ((∀ idx, t ≠ .TypeParameterReference idx) →
      is_assignable_to context (fuel + 1) generic_args t .Unreachable = some true)
    ∧ (t ≠ .Unreachable → t ≠ .Void → (∀ idx, t ≠ .TypeParameterReference idx) →
      is_assignable_to context (fuel + 1) generic_args .Void t = some false) := by
  constructor
  · intro h
    cases t <;> first
      | exact absurd rfl (h _)
      | rfl
      | (rename_i inner; cases inner <;> rfl)
  · intro h1 h2 h3
    cases t <;> first
      | exact absurd rfl h1
      | exact absurd rfl h2
      | exact absurd rfl (h3 _)
      | rfl
      | (rename_i inner; cases inner <;> rfl)

/-- Witness for C1's amended theorem at a concrete type. -/
theorem unreachable_rhs_any_and_void_lhs_rejects_witness :
    is_assignable_to ctx0 1 none (.Primitive .Int32) .Unreachable = some true
    ∧ is_assignable_to ctx0 1 none .Void (.Primitive .Int32) = some false :=
  ⟨(unreachable_rhs_any_and_void_lhs_rejects ctx0 0 none (.Primitive .Int32)).1
      (by intro idx h; simp at h),
   (unreachable_rhs_any_and_void_lhs_rejects ctx0 0 none (.Primitive .Int32)).2
      (by intro h; simp at h) (by intro h; simp at h) (by intro idx h; simp at h)⟩

/-- The C2 claim rendered from the spec's words: the struct supplies, for
each interface method, a same-named associated function whose parameter
list after the `self` parameter EQUALS the interface method's, with equal
return types. -/
def interface_accepts_struct_spec (context : DeclarationContext)
    (lhs_assoc rhs_assoc : List (String × Nat)) : Prop :=
  ∀ name lhs_id, (name, lhs_id) ∈ lhs_assoc →
    ∃ rhs_id lf rf, rhs_assoc.lookup name = some rhs_id
      ∧ context.id_to_func.lookup lhs_id = some lf
      ∧ context.id_to_func.lookup rhs_id = some rf
      ∧ lf.params.drop 1 = rf.params.drop 1
      ∧ lf.returns = rf.returns

/-- C2 (amended) rendered as a predicate: as the spec says, except that the
parameter tails are only compared pairwise up to the length of the shorter
tail (the code zips without checking lengths), and both functions must have
at least one parameter (the code slices `params[1..]`, which panics on an
empty list). -/
def interface_accepts_struct_amended (context : DeclarationContext)
    (lhs_assoc rhs_assoc : List (String × Nat)) : Prop :=
  ∀ name lhs_id, (name, lhs_id) ∈ lhs_assoc →
    ∃ rhs_id lf rf, rhs_assoc.lookup name = some rhs_id
      ∧ context.id_to_func.lookup lhs_id = some lf
      ∧ context.id_to_func.lookup rhs_id = some rf
      ∧ lf.params ≠ [] ∧ rf.params ≠ []
      ∧ (∀ p ∈ (lf.params.drop 1).zip (rf.params.drop 1), p.1 = p.2)
      ∧ lf.returns = rf.returns

/-- A declaration context exhibiting the C2 counterexample: interface
method `m` (id 10) has parameter tail `[Int32, Int64]`, the struct's `m`
(id 11) has parameter tail `[Int32]`. -/
def ctx2 : DeclarationContext :=
  { id_to_decl :=
      [(0, .Interface ⟨0, [("m", 10)]⟩),
       (1, .Struct ⟨1, [], [("m", 11)], false⟩)],
    id_to_func :=
      [(10, ⟨10, [.Pointer .Shared (.InstanceOf 0), .Primitive .Int32,
                  .Primitive .Int64], .Void⟩),
       (11, ⟨11, [.Pointer .Shared (.InstanceOf 1), .Primitive .Int32], .Void⟩)] }

/-- C2 counterexample: the interface's method has a longer parameter tail
than the struct's, so the tails are not equal, yet `is_assignable_to`
accepts the struct (the zip only compares the common prefix). -/
theorem interface_param_tail_counterexample :
    is_assignable_to ctx2 1 none (.InstanceOf 0) (.InstanceOf 1) = some true
    ∧ ¬ interface_accepts_struct_spec ctx2 [("m", 10)] [("m", 11)] := by
  constructor
  · show interface_accepts_struct ctx2 [("m", 10)] [("m", 11)] = some true
    simp [interface_accepts_struct, ctx2, List.lookup]
  · intro h
    obtain ⟨rhs_id, lf, rf, hrid, hlf, hrf, htails, -⟩ :=
      h "m" 10 (by simp)
    rw [show (([("m", 11)] : List (String × Nat)).lookup "m") = some 11 from rfl] at hrid
    cases hrid
    rw [show ctx2.id_to_func.lookup 10
        = some ⟨10, [.Pointer .Shared (.InstanceOf 0), .Primitive .Int32,
                     .Primitive .Int64], .Void⟩ from rfl] at hlf
    cases hlf
    rw [show ctx2.id_to_func.lookup 11
        = some ⟨11, [.Pointer .Shared (.InstanceOf 1), .Primitive .Int32], .Void⟩
        from rfl] at hrf
    cases hrf
    simp at htails

theorem interface_accepts_struct_iff (context : DeclarationContext) :
    ∀ lhs_assoc rhs_assoc,
      (interface_accepts_struct context lhs_assoc rhs_assoc = some true
        ↔ interface_accepts_struct_amended context lhs_assoc rhs_assoc)
  | [], rhs_assoc => by
      simp [interface_accepts_struct, interface_accepts_struct_amended]
  | (name, lhs_ty) :: rest, rhs_assoc => by
      rw [interface_accepts_struct]
      cases hlook : rhs_assoc.lookup name with
      | none =>
        constructor
        · intro h; cases h
        · intro h
          obtain ⟨rhs_id, _, _, hrid, -⟩ := h name lhs_ty (by simp)
          rw [hlook] at hrid; cases hrid
      | some rhs_ty =>
        simp only []
        cases hlf : context.id_to_func.lookup lhs_ty with
        | none =>
          simp only [Option.none_bind]
          constructor
          · intro h; cases h
          · intro h
            obtain ⟨rhs_id, lf, rf, hrid, hlf2, -⟩ := h name lhs_ty (by simp)
            rw [hlf] at hlf2; cases hlf2
        | some lf =>
          simp only [Option.some_bind]
          cases hrf : context.id_to_func.lookup rhs_ty with
          | none =>
            simp only [Option.none_bind]
            constructor
            · intro h; cases h
            · intro h
              obtain ⟨rhs_id, lf2, rf, hrid, hlf2, hrf2, -⟩ := h name lhs_ty (by simp)
              rw [hlook] at hrid; cases hrid
              rw [hrf] at hrf2; cases hrf2
          | some rf =>
            simp only [Option.some_bind]
            by_cases hempty : (lf.params.isEmpty || rf.params.isEmpty) = true
            · rw [if_pos hempty]
              constructor
              · intro h; cases h
              · intro h
                obtain ⟨rhs_id, lf2, rf2, hrid, hlf2, hrf2, hne1, hne2, -⟩ :=
                  h name lhs_ty (by simp)
                rw [hlook] at hrid; cases hrid
                rw [hlf] at hlf2; cases hlf2
                rw [hrf] at hrf2; cases hrf2
                simp only [Bool.or_eq_true, List.isEmpty_iff] at hempty
                tauto
            · rw [if_neg hempty]
              by_cases hcmp : (((lf.params.drop 1).zip (rf.params.drop 1)).all
                    (fun pair => pair.1 == pair.2)
                  && (lf.returns == rf.returns)) = true
              · rw [if_pos hcmp]
                rw [interface_accepts_struct_iff context rest rhs_assoc]
                simp only [Bool.and_eq_true, List.all_eq_true, beq_iff_eq] at hcmp
                simp only [Bool.or_eq_true, List.isEmpty_iff] at hempty
                push_neg at hempty
                constructor
                · intro h name2 lhs2 hmem
                  rcases List.mem_cons.mp hmem with heq | hmem2
                  · cases heq
                    exact ⟨rhs_ty, lf, rf, hlook, hlf, hrf, hempty.1, hempty.2,
                      hcmp.1, hcmp.2⟩
                  · exact h name2 lhs2 hmem2
                · intro h name2 lhs2 hmem
                  exact h name2 lhs2 (List.mem_cons_of_mem _ hmem)
              · rw [if_neg hcmp]
                constructor
                · intro h; cases h
                · intro h
                  obtain ⟨rhs_id, lf2, rf2, hrid, hlf2, hrf2, -, -, hzip, hret⟩ :=
                    h name lhs_ty (by simp)
                  rw [hlook] at hrid; cases hrid
                  rw [hlf] at hlf2; cases hlf2
                  rw [hrf] at hrf2; cases hrf2
                  refine absurd ?_ hcmp
                  simp only [Bool.and_eq_true, List.all_eq_true, beq_iff_eq]
                  exact ⟨fun p hp => hzip p hp, hret⟩

/-- C2 (amended): an interface instance accepts a struct instance iff, for
each of the interface's associated function names, the struct supplies a
same-named associated function whose parameter tail (after `self`) agrees
with the interface method's pairwise up to the shorter tail's length, and
whose return type is equal; both parameter lists must be nonempty (the
source panics otherwise). -/
theorem interface_struct_assignability (context : DeclarationContext)
    (fuel : Nat) (iid sid : Nat) (I : InterfaceType) (S : StructType)
    (hI : context.id_to_decl.lookup iid = some (.Interface I))
    (hS : context.id_to_decl.lookup sid = some (.Struct S)) :
    is_assignable_to context (fuel + 1) none (.InstanceOf iid) (.InstanceOf sid) = some true
      ↔ interface_accepts_struct_amended context
          I.associated_functions S.associated_functions := by
  rw [show is_assignable_to context (fuel + 1) none (.InstanceOf iid) (.InstanceOf sid)
      = (context.id_to_decl.lookup iid).bind fun ld =>
          (context.id_to_decl.lookup sid).bind fun rd =>
            decl_assignable context ld rd from rfl]
  rw [hI, hS]
  exact interface_accepts_struct_iff context _ _

/-- A declaration context where interface 2's single method and struct 3's
matching method have equal parameter tails and return types. -/
def ctx2w : DeclarationContext :=
  { id_to_decl :=
      [(2, .Interface ⟨2, [("m", 20)]⟩),
       (3, .Struct ⟨3, [], [("m", 21)], false⟩)],
    id_to_func :=
      [(20, ⟨20, [.Pointer .Shared (.InstanceOf 2), .Primitive .Int32], .Void⟩),
       (21, ⟨21, [.Pointer .Shared (.InstanceOf 3), .Primitive .Int32], .Void⟩)] }

/-- Witness for C2's amended theorem on a concrete context. -/
theorem interface_struct_assignability_witness :
    is_assignable_to ctx2w 1 none (.InstanceOf 2) (.InstanceOf 3) = some true :=
  (interface_struct_assignability ctx2w 0 2 3 ⟨2, [("m", 20)]⟩ ⟨3, [], [("m", 21)], false⟩
      rfl rfl).mpr
    (by
      intro name lhs_id hmem
      simp only [List.mem_singleton, Prod.mk.injEq] at hmem
      obtain ⟨rfl, rfl⟩ := hmem
      refine ⟨21,
        ⟨20, [.Pointer .Shared (.InstanceOf 2), .Primitive .Int32], .Void⟩,
        ⟨21, [.Pointer .Shared (.InstanceOf 3), .Primitive .Int32], .Void⟩,
        rfl, rfl, rfl, by simp, by simp, ?_, rfl⟩
      intro p hp
      simp at hp
      simp [hp])

/-! ## Memory layout (`linear_ir.rs`)

The layout pass consumes `StaticDeclaration`s (the declaration view used by
`linear_ir.rs`).  Its `Interface` and `Module` variants contain further
`StaticDeclaration`s, so their struct fields are inlined into the
constructors here. -/

/-- A struct declaration as seen by the layout pass. -/
structure StructTypeS where
  id : Nat
  fields : List (String × ExpressionType)

/-- A union declaration as seen by the layout pass. -/
structure UnionTypeS where
  id : Nat
  variant_order : List String
  variants : List (String × Option ExpressionType)

/-- A declaration as seen by the layout pass (`StaticDeclaration`). -/
inductive StaticDeclaration where
  | Func (func_id : Nat)
  | Struct (s : StructTypeS)
  | Interface (id : Nat) (associated_functions : List (String × StaticDeclaration))
  | Union (u : UnionTypeS)
  | Module (id : Nat) (exports : List (String × StaticDeclaration))

/-- `StaticDeclaration::id`. -/
def StaticDeclaration.declId : StaticDeclaration → Nat
  | .Func fid => fid
  | .Struct s => s.id
  | .Interface iid _ => iid
  | .Union u => u.id
  | .Module mid _ => mid

/-- Physical machine primitives (`PhysicalPrimitive`). -/
inductive PhysicalPrimitive where
  | Byte
  | Int32
  | Float32
  | Int64
  | Float64
  | PointerSize
deriving DecidableEq

/-- Physical collection kinds (`PhysicalCollection`). -/
inductive PhysicalCollection where
  | Array
  | Dict
  | String
deriving DecidableEq

/-- Physical types (`PhysicalType`). -/
inductive PhysicalType where
  | Primitive (p : PhysicalPrimitive)
  | Referenced (id : Nat)
  | Nullable (inner : PhysicalType)
  | FunctionPointer
  | Collection (c : PhysicalCollection)
  | Generator
deriving DecidableEq

/-- The value part of a computed layout (`TypeLayoutValue`); the union map
name to (variant index, optional payload type). -/
inductive TypeLayoutValue where
  | Structure (fields : List (String × Nat × PhysicalType))
  | Interface (fields : List Nat)
  | Union (variants : List (String × Nat × Option PhysicalType))
deriving DecidableEq

/-- A computed layout (`DeclaredTypeLayout`). -/
structure DeclaredTypeLayout where
  value : TypeLayoutValue
  size : Nat
deriving DecidableEq

/-- A size expressed in units of pointers (`SizeInPointers`). -/
structure SizeInPointers where
  val : Nat

/-- `SizeInPointers::size`. -/
def SizeInPointers.size (s : SizeInPointers) (pointer_size : Nat) : Nat :=
  s.val * pointer_size

/-- `UNION_TAG_SIZE`: one pointer. -/
def UNION_TAG_SIZE : SizeInPointers := ⟨1⟩

/-- `NULL_TAG_SIZE`: one pointer. -/
def NULL_TAG_SIZE : SizeInPointers := ⟨1⟩

/-- `FUNCTION_ID_SIZE`: four bytes. -/
def FUNCTION_ID_SIZE : Nat := 4

/-- `primitive_to_physical`. -/
def primitive_to_physical : PrimitiveType → PhysicalPrimitive
  | .Char => .Byte
  | .Int32 => .Int32
  | .Float32 => .Float32
  | .Int64 => .Int64
  | .Float64 => .Float64
  | .Bool => .Byte
  | .PointerSize => .PointerSize

/-- `primitive_type_size`. -/
def primitive_type_size (prim : PhysicalPrimitive) (byte_size pointer_size : Nat) : Nat :=
  match prim with
  | .Int32 => 4
  | .Float32 => 4
  | .Int64 => 8
  | .Float64 => 8
  | .Byte => byte_size
  | .PointerSize => pointer_size

/-- `PhysicalType::size_from_decls`; `none` models the panic on a missing
layout entry. -/
def size_from_decls (layouts : List (Nat × DeclaredTypeLayout))
    (byte_size pointer_size : Nat) : PhysicalType → Option Nat
  | .Primitive p => some (primitive_type_size p byte_size pointer_size)
  | .Referenced id => (layouts.lookup id).map (fun layout => layout.size)
  | .Nullable ty =>
    (size_from_decls layouts byte_size pointer_size ty).map
      (fun inner => NULL_TAG_SIZE.size pointer_size + inner)
  | .FunctionPointer => some FUNCTION_ID_SIZE
  | .Collection .Array => some (pointer_size * 3)
  | .Collection .Dict => some (pointer_size * 3)
  | .Collection .String => some (pointer_size * 2)
  | .Generator => some (pointer_size * 3)

/-- `expr_ty_to_physical`; `none` models the `unreachable!()` and `todo!()`
arms.  (The source file predates the `ReferenceCounter`/`Cell` collections,
which therefore also map to `none`.) -/
def expr_ty_to_physical : ExpressionType → Option PhysicalType
  | .Void | .Unreachable | .Null => none
  | .Primitive p => some (.Primitive (primitive_to_physical p))
  | .InstanceOf id => some (.Referenced id)
  | .Collection (.Array _) => some (.Collection .Array)
  | .Collection (.Dict _ _) => some (.Collection .Dict)
  | .Collection .String => some (.Collection .String)
  | .Collection (.ReferenceCounter _) => none
  | .Collection (.Cell _) => none
  | .Pointer _ _ => some (.Primitive .PointerSize)
  | .Nullable inner => (expr_ty_to_physical inner).map (fun ty => .Nullable ty)
  | .ReferenceToType _ | .ReferenceToFunction _ => none
  | .TypeParameterReference _ => none
  | .Generator _ _ => some .Generator
  | .FunctionReference _ _ => some .FunctionPointer

/-- The vtable of `layout_static_decl`'s `Interface` arm: the function ids
of the associated functions, in declaration order; non-`Func` entries hit
an `unreachable!()`. -/
def interface_fn_ids : List (String × StaticDeclaration) → Option (List Nat)
  | [] => some []
  | (_, .Func fid) :: rest => (interface_fn_ids rest).map (fun ids => fid :: ids)
  | _ => none

mutual

/-- `layout_static_decl`: compute (and cache) one declaration's layout,
returning its size and the extended layout table.  `fuel` makes the (in the
source, unbounded) recursion through referenced types well-founded. -/
def layout_static_decl :
    Nat → List (Nat × StaticDeclaration) → List (Nat × DeclaredTypeLayout) →
    StaticDeclaration → Nat → Nat → Option (Nat × List (Nat × DeclaredTypeLayout))
  | 0, _, _, _, _, _ => none
  | fuel + 1, declarations, layouts, decl, byte_size, pointer_size =>
    match layouts.lookup decl.declId with
    | some layout => some (layout.size, layouts)
    | none =>
      match decl with
      | .Struct struct_ty =>
        (layout_struct_fields fuel declarations layouts struct_ty.fields 0
            byte_size pointer_size).map
          (fun out =>
            let layout : DeclaredTypeLayout := ⟨.Structure out.1, out.2.1⟩
            (layout.size, (struct_ty.id, layout) :: out.2.2))
      | .Func _ => some (pointer_size, layouts)
      | .Interface iid assoc =>
        (interface_fn_ids assoc).map
          (fun fields =>
            let layout : DeclaredTypeLayout :=
              ⟨.Interface fields, pointer_size + FUNCTION_ID_SIZE * assoc.length⟩
            (layout.size, (iid, layout) :: layouts))
      | .Union union_ty =>
        (layout_union_variants fuel declarations layouts union_ty.variant_order
            union_ty.variants 0 0 byte_size pointer_size).map
          (fun out =>
            let layout : DeclaredTypeLayout :=
              ⟨.Union out.1, UNION_TAG_SIZE.size pointer_size + out.2.1⟩
            (layout.size, (union_ty.id, layout) :: out.2.2))
      | .Module _ exports =>
        (layout_module_exports fuel declarations layouts exports
            byte_size pointer_size).map
          (fun layouts => (0, layouts))
termination_by structural fuel d l de b p => fuel

/-- The field fold of `layout_static_decl`'s `Struct` arm: offsets are the
running size, in declaration order. -/
def layout_struct_fields :
    Nat → List (Nat × StaticDeclaration) → List (Nat × DeclaredTypeLayout) →
    List (String × ExpressionType) → Nat → Nat → Nat →
    Option (List (String × Nat × PhysicalType) × Nat × List (Nat × DeclaredTypeLayout))
  | 0, _, _, _, _, _, _ => none
  | _ + 1, _, layouts, [], size, _, _ => some ([], size, layouts)
  | fuel + 1, declarations, layouts, (name, field) :: rest, size, byte_size, pointer_size =>
    (layout_type fuel declarations layouts field byte_size pointer_size).bind
      (fun (field_ty, layouts1) =>
        (size_from_decls layouts1 byte_size pointer_size field_ty).bind
          (fun field_size =>
            (layout_struct_fields fuel declarations layouts1 rest (size + field_size)
                byte_size pointer_size).map
              (fun (entries, final_size, layouts2) =>
                ((name, size, field_ty) :: entries, final_size, layouts2))))
termination_by structural fuel d l f sz b p => fuel

/-- The variant fold of `layout_static_decl`'s `Union` arm: each variant is
recorded under its position index, and the largest payload size is
accumulated (payload-less variants count as 0). -/
def layout_union_variants :
    Nat → List (Nat × StaticDeclaration) → List (Nat × DeclaredTypeLayout) →
    List String → List (String × Option ExpressionType) → Nat → Nat → Nat → Nat →
    Option (List (String × Nat × Option PhysicalType) × Nat × List (Nat × DeclaredTypeLayout))
  | 0, _, _, _, _, _, _, _, _ => none
  | _ + 1, _, layouts, [], _, _, largest, _, _ => some ([], largest, layouts)
  | fuel + 1, declarations, layouts, name :: rest, variants, idx, largest,
      byte_size, pointer_size =>
    (variants.lookup name).bind
      (fun ty =>
        (match ty with
          | none => some (none, layouts)
          | some payload_ty =>
            (layout_type fuel declarations layouts payload_ty byte_size
                pointer_size).map
              (fun (out : PhysicalType × List (Nat × DeclaredTypeLayout)) =>
                (some out.1, out.2))).bind
          (fun (variant, layouts1) =>
            (match variant with
              | none => some 0
              | some payload =>
                size_from_decls layouts1 byte_size pointer_size payload).bind
              (fun variant_size =>
                (layout_union_variants fuel declarations layouts1 rest variants
                    (idx + 1) (Nat.max largest variant_size) byte_size
                    pointer_size).map
                  (fun (entries, final_largest, layouts2) =>
                    ((name, idx, variant) :: entries, final_largest, layouts2)))))
termination_by structural fuel d l n v i lg b p => fuel

/-- The export iteration of `layout_static_decl`'s `Module` arm
(`layout_types` over the module's exports). -/
def layout_module_exports :
    Nat → List (Nat × StaticDeclaration) → List (Nat × DeclaredTypeLayout) →
    List (String × StaticDeclaration) → Nat → Nat →
    Option (List (Nat × DeclaredTypeLayout))
  | 0, _, _, _, _, _ => none
  | _ + 1, _, layouts, [], _, _ => some layouts
  | fuel + 1, declarations, layouts, (_, decl) :: rest, byte_size, pointer_size =>
    (layout_static_decl fuel declarations layouts decl byte_size pointer_size).bind
      (fun out =>
        layout_module_exports fuel declarations out.2 rest byte_size pointer_size)
termination_by structural fuel d l e b p => fuel

/-- `layout_type`: the physical type of an `ExpressionType`, laying out any
referenced declaration along the way. -/
def layout_type :
    Nat → List (Nat × StaticDeclaration) → List (Nat × DeclaredTypeLayout) →
    ExpressionType → Nat → Nat → Option (PhysicalType × List (Nat × DeclaredTypeLayout))
  | 0, _, _, _, _, _ => none
  | fuel + 1, declarations, layouts, ty, byte_size, pointer_size =>
    match ty with
    | .Void | .Unreachable | .Null => none
    | .Primitive p => some (.Primitive (primitive_to_physical p), layouts)
    | .InstanceOf id =>
      (declarations.lookup id).bind fun decl =>
        (layout_static_decl fuel declarations layouts decl byte_size
            pointer_size).map
          (fun out => (.Referenced id, out.2))
    | .Pointer _ _ => some (.Primitive .PointerSize, layouts)
    | .Collection (.Array _) => some (.Collection .Array, layouts)
    | .Collection (.Dict _ _) => some (.Collection .Dict, layouts)
    | .Collection .String => some (.Collection .String, layouts)
    | .Collection (.ReferenceCounter _) => none
    | .Collection (.Cell _) => none
    | .Nullable inner =>
      (layout_type fuel declarations layouts inner byte_size pointer_size).map
        (fun out => (.Nullable out.1, out.2))
    | .ReferenceToType _ | .ReferenceToFunction _ => none
    | .TypeParameterReference _ => none
    | .Generator _ _ => some (.Generator, layouts)
    | .FunctionReference _ _ => some (.FunctionPointer, layouts)
termination_by structural fuel d l t b p => fuel

end

/-! ## The linear IR (`linear_ir.rs`)

`LinearNode` in the source is a struct holding a `LinearNodeValue` and an
optional provenance; the provenance carries no meaning, so the embedding
collapses the pair into one inductive whose constructors are the
`LinearNodeValue` variants used by the claims (`Parameter`, `Call`,
`Return`, `Switch`, `Cast`, the logical operators, `Float`, `CharLiteral`,
`ConstantDataAddress` and `Debug` appear in no claim and are omitted).
`RegisterID`s and `VariableID`s are freshly generated by a global counter
in the source; lowering functions here take the counter's current value
`c : Nat` and use `c`, `c + 1`, ... for the ids they create, in the order
the source calls `RegisterID::new()`. -/

/-- `ArithmeticOp` (from `hir.rs`). -/
inductive ArithmeticOp where
  | Add
  | Subtract
  | Multiply
  | Divide
deriving DecidableEq

/-- `ComparisonOp` (from `hir.rs`). -/
inductive ComparisonOp where
  | LessThan
  | GreaterThan
  | LessEqualThan
  | GreaterEqualThan
  | EqualTo
  | NotEquals
deriving DecidableEq

/-- `RuntimeFunction`. -/
inductive RuntimeFunction where
  | Alloc
  | StringConcat
  | Memcpy
deriving DecidableEq

/-- `LinearNode` / `LinearNodeValue` (provenance dropped, claim-relevant
variants only; `Int` is renamed `IntLit` so that the payload types of the
other constructors can refer to Lean's `Int`). -/
inductive LinearNode where
  | VariableInit (id : Nat) (ty : PhysicalType)
  | VariableDestroy (id : Nat)
  | VariableLocation (id : Nat)
  | ReadMemory (location : LinearNode) (offset : Nat) (ty : PhysicalType)
  | WriteMemory (location : LinearNode) (offset : Nat) (ty : PhysicalType)
      (value : LinearNode)
  | RuntimeCall (func : RuntimeFunction) (args : List LinearNode)
  | If (cond : LinearNode) (then_branch : List LinearNode)
      (else_branch : Option (List LinearNode))
  | Break
  | Loop (body : List LinearNode)
  | Abort
  | Goto (label : LinearNode)
  | GotoLabel (label : Nat)
  | Sequence (nodes : List LinearNode)
  | WriteRegister (id : Nat) (value : LinearNode)
  | WriteRegistersSplitting (value : LinearNode) (ids : List (Option Nat))
  | ReadRegister (id : Nat)
  | KillRegister (id : Nat)
  | Arithmetic (op : ArithmeticOp) (ty : PhysicalPrimitive)
      (lhs rhs : LinearNode)
  | Comparison (op : ComparisonOp) (ty : PhysicalPrimitive)
      (lhs rhs : LinearNode)
  | Size (size : Nat)
  | IntLit (value : Int)
  | Byte (value : Nat)
  | FunctionID (id : Nat)

/-- `LinearNode::if_node` (provenance dropped). -/
def LinearNode.if_node (cond : LinearNode) (if_block : List LinearNode)
    (else_block : Option (List LinearNode)) : LinearNode :=
  .If cond if_block else_block

/-- `LinearNode::ptr_arithmetic`. -/
def LinearNode.ptr_arithmetic (op : ArithmeticOp) (lhs rhs : LinearNode) :
    LinearNode :=
  .Arithmetic op .PointerSize lhs rhs

/-- `LinearNode::ptr_comparison`. -/
def LinearNode.ptr_comparison (op : ComparisonOp) (lhs rhs : LinearNode) :
    LinearNode :=
  .Comparison op .PointerSize lhs rhs

/-- `LinearNode::size`. -/
def LinearNode.size (size : Nat) : LinearNode := .Size size

/-- `LinearNode::heap_alloc_const`. -/
def LinearNode.heap_alloc_const (size : Nat) : LinearNode :=
  .RuntimeCall .Alloc [LinearNode.size size]

/-- `LinearNode::heap_alloc_var`. -/
def LinearNode.heap_alloc_var (size : LinearNode) : LinearNode :=
  .RuntimeCall .Alloc [size]

/-- `LinearNode::write_register`. -/
def LinearNode.write_register (id : Nat) (value : LinearNode) : LinearNode :=
  .WriteRegister id value

/-- `LinearNode::write_multi_register`. -/
def LinearNode.write_multi_register (value : LinearNode)
    (ids : List (Option Nat)) : LinearNode :=
  .WriteRegistersSplitting value ids

/-- `LinearNode::read_register`. -/
def LinearNode.read_register (id : Nat) : LinearNode := .ReadRegister id

/-- `LinearNode::kill_register`. -/
def LinearNode.kill_register (id : Nat) : LinearNode := .KillRegister id

/-- `LinearNode::read_memory`. -/
def LinearNode.read_memory (location : LinearNode) (offset : Nat)
    (ty : PhysicalType) : LinearNode :=
  .ReadMemory location offset ty

/-- `LinearNode::write_memory`. -/
def LinearNode.write_memory (location : LinearNode) (offset : Nat)
    (ty : PhysicalType) (value : LinearNode) : LinearNode :=
  .WriteMemory location offset ty value

/-- `LinearNode::abort`. -/
def LinearNode.abort : LinearNode := .Abort

/-- `LinearNode::bool_value`. -/
def LinearNode.bool_value (val : Bool) : LinearNode :=
  .Byte (if val then 1 else 0)

/-! ### Lowering functions under test

Each is translated from `lower_expression` / the named helper in
`linear_ir.rs`.  Sub-expressions that the source lowers recursively
(`lower_expression(ctx, ...)` / `lower_lvalue(ctx, ...)`) enter as
already-lowered `LinearNode` arguments; sizes that the source computes
via `ctx` (`.size(ctx)`) enter as `Nat` arguments. -/

/-- The union arm of `HirNodeValue::Access` lowering (`lower_expression`,
lines 556-588): compare the stored tag with the variant's index; on
mismatch push a false flag, on match read the payload one tag-size past
the union's location and push a true flag. -/
def lower_union_access (location : LinearNode) (offset : Nat)
    (variant_idx : Nat) (variant_ty : PhysicalType) (pointer_size : Nat) :
    LinearNode :=
  .Sequence [LinearNode.if_node
    (LinearNode.ptr_comparison .NotEquals
      (LinearNode.size variant_idx)
      (LinearNode.read_memory location offset (.Primitive .PointerSize)))
    [LinearNode.bool_value false]
    (some [LinearNode.read_memory location
        (offset + UNION_TAG_SIZE.size pointer_size) variant_ty,
      LinearNode.bool_value true])]

/-- `array_alloc_space_to_push`: grow the array if needed, bump the
length, and return a pointer to the slot for the new element.  Registers:
`arr_ptr = c`, `length = c + 1`, `new_capacity = c + 2`, `buffer = c + 3`. -/
def array_alloc_space_to_push (array_location : LinearNode)
    (array_offset elem_size pointer_size c : Nat) : LinearNode :=
  .Sequence [
    LinearNode.write_register c array_location,
    LinearNode.write_register (c + 1)
      (LinearNode.read_memory (LinearNode.read_register c)
        (array_offset + pointer_size) (.Primitive .PointerSize)),
    LinearNode.if_node
      (LinearNode.ptr_comparison .GreaterThan
        (LinearNode.ptr_arithmetic .Multiply
          (LinearNode.ptr_arithmetic .Add
            (LinearNode.read_register (c + 1)) (LinearNode.size 1))
          (LinearNode.size 2))
        (LinearNode.read_memory (LinearNode.read_register c)
          (array_offset + pointer_size + pointer_size)
          (.Primitive .PointerSize)))
      [
        LinearNode.write_register (c + 2)
          (LinearNode.ptr_arithmetic .Multiply
            (LinearNode.ptr_arithmetic .Add
              (LinearNode.read_register (c + 1)) (LinearNode.size 1))
            (LinearNode.size 2)),
        LinearNode.write_register (c + 3)
          (LinearNode.heap_alloc_var (LinearNode.ptr_arithmetic .Multiply
            (LinearNode.read_register (c + 2)) (LinearNode.size elem_size))),
        .RuntimeCall .Memcpy [
          LinearNode.read_register (c + 3),
          LinearNode.read_memory (LinearNode.read_register c) array_offset
            (.Primitive .PointerSize),
          LinearNode.ptr_arithmetic .Multiply
            (LinearNode.read_register (c + 1)) (LinearNode.size elem_size)],
        LinearNode.write_memory (LinearNode.read_register c)
          (array_offset + pointer_size + pointer_size)
          (.Primitive .PointerSize) (LinearNode.read_register (c + 2))
      ]
      none,
    LinearNode.write_memory (LinearNode.read_register c)
      (array_offset + pointer_size) (.Primitive .PointerSize)
      (LinearNode.ptr_arithmetic .Add
        (LinearNode.read_register (c + 1)) (LinearNode.size 1)),
    LinearNode.ptr_arithmetic .Add
      (LinearNode.read_memory (LinearNode.read_register c) array_offset
        (.Primitive .PointerSize))
      (LinearNode.ptr_arithmetic .Multiply
        (LinearNode.read_register (c + 1)) (LinearNode.size elem_size)),
    LinearNode.kill_register c,
    LinearNode.kill_register (c + 1),
    LinearNode.kill_register (c + 2),
    LinearNode.kill_register (c + 3)
  ]

/-- The `IntrinsicCall(ArrayPush, ..)` arm of `lower_expression` (lines
1048-1073): write the pushed value through the pointer returned by
`array_alloc_space_to_push`. -/
def lower_array_push (location : LinearNode) (offset : Nat)
    (array_inner_ty : PhysicalType) (elem_size : Nat)
    (inserted : LinearNode) (pointer_size c : Nat) : LinearNode :=
  .WriteMemory
    (array_alloc_space_to_push location offset elem_size pointer_size c)
    0 array_inner_ty inserted

/-- `array_index_location`: bounds-checked address of `arr[idx]`.
Registers: `idx_register = c`, `arr_ptr_register = c + 1`,
`length_register = c + 2`.  Returns (node, offset 0) as the source does. -/
def array_index_location (idx arr : LinearNode) (size c : Nat) :
    LinearNode × Nat :=
  (.Sequence [
    LinearNode.write_register c idx,
    LinearNode.write_multi_register arr [some (c + 1), some (c + 2), none],
    LinearNode.if_node
      (LinearNode.ptr_comparison .GreaterEqualThan
        (LinearNode.read_register c) (LinearNode.read_register (c + 2)))
      [LinearNode.abort]
      none,
    LinearNode.kill_register (c + 2),
    LinearNode.ptr_arithmetic .Add
      (LinearNode.ptr_arithmetic .Multiply
        (LinearNode.size size) (LinearNode.read_register c))
      (LinearNode.read_register (c + 1)),
    LinearNode.kill_register c,
    LinearNode.kill_register (c + 1)
  ], 0)

/-- `dict_get_entry_for_key`: linear probe; pushes a found flag and leaves
a pointer to the matching entry in `entry_pointer_output`.  Registers:
`key_ptr = c`, `dict_length = c + 1`, `index = c + 2`. -/
def dict_get_entry_for_key (dict_pointer key_location : LinearNode)
    (key_offset : Nat) (key_ty : PhysicalPrimitive) (entry_size : Nat)
    (entry_pointer_output c : Nat) : LinearNode :=
  .Sequence [
    LinearNode.write_register c key_location,
    LinearNode.write_multi_register dict_pointer
      [some entry_pointer_output, some (c + 1), none],
    LinearNode.write_register (c + 2) (LinearNode.size 0),
    .Loop [
      LinearNode.if_node
        (.Comparison .EqualTo key_ty
          (LinearNode.read_memory
            (LinearNode.read_register entry_pointer_output) 0
            (.Primitive key_ty))
          (LinearNode.read_memory (LinearNode.read_register c) key_offset
            (.Primitive key_ty)))
        [.Byte 1, .Break]
        none,
      LinearNode.write_register (c + 2)
        (LinearNode.ptr_arithmetic .Add
          (LinearNode.read_register (c + 2)) (LinearNode.size 1)),
      LinearNode.write_register entry_pointer_output
        (LinearNode.ptr_arithmetic .Add
          (LinearNode.read_register entry_pointer_output)
          (LinearNode.size entry_size)),
      LinearNode.if_node
        (LinearNode.ptr_comparison .EqualTo
          (LinearNode.read_register (c + 1))
          (LinearNode.read_register (c + 2)))
        [.Byte 0, .Break]
        none
    ],
    LinearNode.kill_register c,
    LinearNode.kill_register (c + 1),
    LinearNode.kill_register (c + 2)
  ]

/-- The `IntrinsicCall(DictionaryInsert, ..)` arm of `lower_expression`
(lines 1074-1169).  `temp_key_id` is the fresh `VariableID`; registers:
`ptr = c`, `entry_register = c + 1`; `dict_get_entry_for_key` then draws
`c + 2 .. c + 4` and the else-branch's `array_alloc_space_to_push` draws
`c + 5 .. c + 8`, following the order of the source's `RegisterID::new()`
calls. -/
def lower_dict_insert (dict_location : LinearNode) (dict_offset : Nat)
    (key value : LinearNode) (key_ty : PhysicalPrimitive)
    (value_ty : PhysicalType) (key_size entry_size : Nat)
    (temp_key_id : Nat) (pointer_size c : Nat) : LinearNode :=
  .Sequence [
    .VariableInit temp_key_id (.Primitive key_ty),
    LinearNode.write_register c dict_location,
    LinearNode.write_memory (.VariableLocation temp_key_id) 0
      (.Primitive key_ty) key,
    LinearNode.if_node
      (dict_get_entry_for_key
        (LinearNode.read_memory (LinearNode.read_register c) dict_offset
          (.Collection .Dict))
        (.VariableLocation temp_key_id) 0 key_ty entry_size (c + 1) (c + 2))
      [
        LinearNode.write_memory (LinearNode.read_register (c + 1)) key_size
          value_ty value,
        LinearNode.kill_register (c + 1)
      ]
      (some [
        LinearNode.write_register (c + 1)
          (array_alloc_space_to_push (LinearNode.read_register c)
            dict_offset entry_size pointer_size (c + 5)),
        LinearNode.write_memory (LinearNode.read_register (c + 1)) 0
          (.Primitive key_ty) key,
        LinearNode.write_memory (LinearNode.read_register (c + 1)) key_size
          value_ty value
      ]),
    .VariableDestroy temp_key_id,
    LinearNode.kill_register (c + 1),
    LinearNode.kill_register c
  ]

/-- The `GeneratorCreate` arm of `lower_expression` (lines 1211-1220):
allocate a 64-byte stack region, push resume point 0 and the function id. -/
def lower_generator_create (generator_function : Nat) : LinearNode :=
  .Sequence [
    LinearNode.heap_alloc_const 64,
    LinearNode.size 0,
    .FunctionID generator_function
  ]

/-- The `GeneratorSuspend` arm of `lower_expression` (lines 1197-1205):
write the label into the resume slot, one pointer past the generator's
location. -/
def lower_generator_suspend (generator : LinearNode) (label : Nat)
    (pointer_size : Nat) : LinearNode :=
  .WriteMemory generator pointer_size (.Primitive .PointerSize)
    (LinearNode.size label)

/-- The `GeneratorResume` arm of `lower_expression`: jump to the stored
resume point. -/
def lower_generator_resume (resume_point : LinearNode) : LinearNode :=
  .Goto resume_point

/-! ## Execution semantics of the linear IR

The VM that executes `LinearNode`s is deliberately excluded from the
repository's core sources (the spec lists the interpreter among the
external collaborators), so the semantics below is modelled from the
spec's description of the LIR: nodes push mathematical integer values on
an abstract stack, memory is read and written at (pointer, offset, type),
`Alloc` is a bump allocator, `Memcpy` copies a byte range, loops run
until `Break`, and `Abort` terminates the program. -/

/-- Modelled from the spec: the state of the abstract machine executing
LIR.  `regs` are the SSA-like scratch registers, `vars` maps a live
variable id to the address of its stack slot, `mem` is a sparse memory
(one stored word per written address; aliasing of differently-sized
overlapping writes is not modelled), `heapNext` is the bump allocator's
frontier, also used to place variable slots. -/
structure MachineState where
  regs : Nat → Option Int
  vars : Nat → Option Int
  mem : Int → Option Int
  heapNext : Int

/-- Pointwise update of a register or variable file. -/
def setReg (f : Nat → Option Int) (k : Nat) (v : Option Int) :
    Nat → Option Int :=
  fun r => if r = k then v else f r

/-- Pointwise update of the sparse memory. -/
def setMem (f : Int → Option Int) (k : Int) (v : Option Int) :
    Int → Option Int :=
  fun a => if a = k then v else f a

@[simp] theorem setReg_same (f : Nat → Option Int) (k : Nat)
    (v : Option Int) : setReg f k v k = v := by
  simp [setReg]

theorem setReg_other (f : Nat → Option Int) {r k : Nat} (v : Option Int)
    (h : r ≠ k) : setReg f k v r = f r := by
  simp [setReg, h]

@[simp] theorem setMem_same (f : Int → Option Int) (k : Int)
    (v : Option Int) : setMem f k v k = v := by
  simp [setMem]

theorem setMem_other (f : Int → Option Int) {a k : Int} (v : Option Int)
    (h : a ≠ k) : setMem f k v a = f a := by
  simp [setMem, h]

/-- Modelled from the spec: the byte offsets of the machine words making
up one value of a physical type.  Primitives and function pointers are a
single word; per the spec's layout section, Array and Dict are (buffer,
length, capacity), String is two words, Generator is (function id, resume
point, stack pointer).  `Referenced`/`Nullable` would need the layout
table and are left unmodelled (`none`). -/
def type_slots (ty : PhysicalType) (pointer_size : Nat) :
    Option (List Nat) :=
  match ty with
  | .Primitive _ => some [0]
  | .FunctionPointer => some [0]
  | .Collection .Array => some [0, pointer_size, 2 * pointer_size]
  | .Collection .Dict => some [0, pointer_size, 2 * pointer_size]
  | .Collection .String => some [0, pointer_size]
  | .Generator => some [0, pointer_size, 2 * pointer_size]
  | .Referenced _ => none
  | .Nullable _ => none

/-- Write the words `vals` of a value at the slot offsets `offs` past
`base`. -/
def writeSlots (mem : Int → Option Int) (base : Int) :
    List Nat → List Int → (Int → Option Int)
  | o :: offs, v :: vals =>
    writeSlots (setMem mem (base + (o : Int)) (some v)) base offs vals
  | _, _ => mem

/-- Read the words of a value from the slot offsets `offs` past `base`;
`none` when any slot is unwritten memory. -/
def readSlots (mem : Int → Option Int) (base : Int) :
    List Nat → Option (List Int)
  | [] => some []
  | o :: offs =>
    (mem (base + (o : Int))).bind
      (fun v => (readSlots mem base offs).map (fun vs => v :: vs))

/-- Assign the split words `vals` to the (optional) register ids `ids`,
in order; a `none` id discards its word. -/
def writeRegs (regs : Nat → Option Int) :
    List (Option Nat) → List Int → (Nat → Option Int)
  | some id :: ids, v :: vals => writeRegs (setReg regs id (some v)) ids vals
  | none :: ids, _ :: vals => writeRegs regs ids vals
  | _, _ => regs

/-- Modelled from the spec: `Memcpy(dest, src, n)` replaces the `n` bytes
from `dest` with those from `src`. -/
def copyRange (mem : Int → Option Int) (dest src n : Int) :
    Int → Option Int :=
  fun a => if dest ≤ a ∧ a < dest + n then mem (src + (a - dest)) else mem a

/-- Modelled from the spec: arithmetic on the abstract machine's integer
values. -/
def arith_eval : ArithmeticOp → Int → Int → Int
  | .Add, a, b => a + b
  | .Subtract, a, b => a - b
  | .Multiply, a, b => a * b
  | .Divide, a, b => a / b

/-- Modelled from the spec: comparisons yield 1 (true) or 0 (false). -/
def cmp_eval : ComparisonOp → Int → Int → Int
  | .LessThan, a, b => if a < b then 1 else 0
  | .GreaterThan, a, b => if b < a then 1 else 0
  | .LessEqualThan, a, b => if a ≤ b then 1 else 0
  | .GreaterEqualThan, a, b => if b ≤ a then 1 else 0
  | .EqualTo, a, b => if a = b then 1 else 0
  | .NotEquals, a, b => if a = b then 0 else 1

/-- Modelled from the spec: the result of running a node or node list —
normal completion with the values pushed, an escaping `Break`, or a
program-terminating `Abort`. -/
inductive Outcome where
  | ok (vals : List Int) (s : MachineState)
  | broke (vals : List Int) (s : MachineState)
  | aborted

mutual

/-- Modelled from the spec: big-step evaluation of one LIR node under
pointer size `ps`.  Rules exist only for the node forms the spec gives a
meaning to; an out-of-rules situation (reading unwritten memory, a dead
register, `Goto`, `Call`) simply has no derivation. -/
inductive EvalNode (ps : Nat) : MachineState → LinearNode → Outcome → Prop where
  | size (s : MachineState) (n : Nat) :
      EvalNode ps s (.Size n) (.ok [(n : Int)] s)
  | intlit (s : MachineState) (i : Int) :
      EvalNode ps s (.IntLit i) (.ok [i] s)
  | byte (s : MachineState) (b : Nat) :
      EvalNode ps s (.Byte b) (.ok [(b : Int)] s)
  | fn_id (s : MachineState) (f : Nat) :
      EvalNode ps s (.FunctionID f) (.ok [(f : Int)] s)
  | goto_label (s : MachineState) (l : Nat) :
      EvalNode ps s (.GotoLabel l) (.ok [] s)
  | var_init {s : MachineState} {id : Nat} {ty : PhysicalType}
      {offs : List Nat} :
      type_slots ty ps = some offs →
      EvalNode ps s (.VariableInit id ty)
        (.ok [] { s with
          vars := setReg s.vars id (some s.heapNext),
          heapNext := s.heapNext + ((offs.foldr Nat.max 0 + ps : Nat) : Int) })
  | var_destroy (s : MachineState) (id : Nat) :
      EvalNode ps s (.VariableDestroy id)
        (.ok [] { s with vars := setReg s.vars id none })
  | var_loc {s : MachineState} {id : Nat} {a : Int} :
      s.vars id = some a →
      EvalNode ps s (.VariableLocation id) (.ok [a] s)
  | read_reg {s : MachineState} {id : Nat} {v : Int} :
      s.regs id = some v →
      EvalNode ps s (.ReadRegister id) (.ok [v] s)
  | write_reg {s s1 : MachineState} {id : Nat} {v : LinearNode} {x : Int} :
      EvalNode ps s v (.ok [x] s1) →
      EvalNode ps s (.WriteRegister id v)
        (.ok [] { s1 with regs := setReg s1.regs id (some x) })
  | write_reg_abort {s : MachineState} {id : Nat} {v : LinearNode} :
      EvalNode ps s v .aborted →
      EvalNode ps s (.WriteRegister id v) .aborted
  | kill_reg (s : MachineState) (id : Nat) :
      EvalNode ps s (.KillRegister id)
        (.ok [] { s with regs := setReg s.regs id none })
  | write_split {s s1 : MachineState} {v : LinearNode} {vals : List Int}
      {ids : List (Option Nat)} :
      EvalNode ps s v (.ok vals s1) →
      vals.length = ids.length →
      EvalNode ps s (.WriteRegistersSplitting v ids)
        (.ok [] { s1 with regs := writeRegs s1.regs ids vals })
  | write_split_abort {s : MachineState} {v : LinearNode}
      {ids : List (Option Nat)} :
      EvalNode ps s v .aborted →
      EvalNode ps s (.WriteRegistersSplitting v ids) .aborted
  | read_mem {s s1 : MachineState} {loc : LinearNode} {off : Nat}
      {ty : PhysicalType} {a : Int} {offs : List Nat} {vals : List Int} :
      EvalNode ps s loc (.ok [a] s1) →
      type_slots ty ps = some offs →
      readSlots s1.mem (a + (off : Int)) offs = some vals →
      EvalNode ps s (.ReadMemory loc off ty) (.ok vals s1)
  | read_mem_abort {s : MachineState} {loc : LinearNode} {off : Nat}
      {ty : PhysicalType} :
      EvalNode ps s loc .aborted →
      EvalNode ps s (.ReadMemory loc off ty) .aborted
  | write_mem {s s1 s2 : MachineState} {loc v : LinearNode} {off : Nat}
      {ty : PhysicalType} {a : Int} {offs : List Nat} {vals : List Int} :
      EvalNode ps s loc (.ok [a] s1) →
      EvalNode ps s1 v (.ok vals s2) →
      type_slots ty ps = some offs →
      vals.length = offs.length →
      EvalNode ps s (.WriteMemory loc off ty v)
        (.ok [] { s2 with
          mem := writeSlots s2.mem (a + (off : Int)) offs vals })
  | write_mem_abort_loc {s : MachineState} {loc v : LinearNode} {off : Nat}
      {ty : PhysicalType} :
      EvalNode ps s loc .aborted →
      EvalNode ps s (.WriteMemory loc off ty v) .aborted
  | write_mem_abort_val {s s1 : MachineState} {loc v : LinearNode}
      {off : Nat} {ty : PhysicalType} {a : Int} :
      EvalNode ps s loc (.ok [a] s1) →
      EvalNode ps s1 v .aborted →
      EvalNode ps s (.WriteMemory loc off ty v) .aborted
  | arith {s s1 s2 : MachineState} {op : ArithmeticOp}
      {pt : PhysicalPrimitive} {lhs rhs : LinearNode} {a b : Int} :
      EvalNode ps s lhs (.ok [a] s1) →
      EvalNode ps s1 rhs (.ok [b] s2) →
      EvalNode ps s (.Arithmetic op pt lhs rhs)
        (.ok [arith_eval op a b] s2)
  | arith_abort_l {s : MachineState} {op : ArithmeticOp}
      {pt : PhysicalPrimitive} {lhs rhs : LinearNode} :
      EvalNode ps s lhs .aborted →
      EvalNode ps s (.Arithmetic op pt lhs rhs) .aborted
  | arith_abort_r {s s1 : MachineState} {op : ArithmeticOp}
      {pt : PhysicalPrimitive} {lhs rhs : LinearNode} {a : Int} :
      EvalNode ps s lhs (.ok [a] s1) →
      EvalNode ps s1 rhs .aborted →
      EvalNode ps s (.Arithmetic op pt lhs rhs) .aborted
  | cmp {s s1 s2 : MachineState} {op : ComparisonOp}
      {pt : PhysicalPrimitive} {lhs rhs : LinearNode} {a b : Int} :
      EvalNode ps s lhs (.ok [a] s1) →
      EvalNode ps s1 rhs (.ok [b] s2) →
      EvalNode ps s (.Comparison op pt lhs rhs) (.ok [cmp_eval op a b] s2)
  | cmp_abort_l {s : MachineState} {op : ComparisonOp}
      {pt : PhysicalPrimitive} {lhs rhs : LinearNode} :
      EvalNode ps s lhs .aborted →
      EvalNode ps s (.Comparison op pt lhs rhs) .aborted
  | cmp_abort_r {s s1 : MachineState} {op : ComparisonOp}
      {pt : PhysicalPrimitive} {lhs rhs : LinearNode} {a : Int} :
      EvalNode ps s lhs (.ok [a] s1) →
      EvalNode ps s1 rhs .aborted →
      EvalNode ps s (.Comparison op pt lhs rhs) .aborted
  | if_true {s s1 : MachineState} {cond : LinearNode}
      {thn : List LinearNode} {els : Option (List LinearNode)} {c : Int}
      {out : Outcome} :
      EvalNode ps s cond (.ok [c] s1) →
      c ≠ 0 →
      EvalList ps s1 thn out →
      EvalNode ps s (.If cond thn els) out
  | if_false_some {s s1 : MachineState} {cond : LinearNode}
      {thn els_blk : List LinearNode} {c : Int} {out : Outcome} :
      EvalNode ps s cond (.ok [c] s1) →
      c = 0 →
      EvalList ps s1 els_blk out →
      EvalNode ps s (.If cond thn (some els_blk)) out
  | if_false_none {s s1 : MachineState} {cond : LinearNode}
      {thn : List LinearNode} {c : Int} :
      EvalNode ps s cond (.ok [c] s1) →
      c = 0 →
      EvalNode ps s (.If cond thn none) (.ok [] s1)
  | if_abort {s : MachineState} {cond : LinearNode}
      {thn : List LinearNode} {els : Option (List LinearNode)} :
      EvalNode ps s cond .aborted →
      EvalNode ps s (.If cond thn els) .aborted
  | brk (s : MachineState) : EvalNode ps s .Break (.broke [] s)
  | loop_break {s s1 : MachineState} {body : List LinearNode}
      {vals : List Int} :
      EvalList ps s body (.broke vals s1) →
      EvalNode ps s (.Loop body) (.ok vals s1)
  | loop_step {s s1 s2 : MachineState} {body : List LinearNode}
      {vals vals2 : List Int} :
      EvalList ps s body (.ok vals s1) →
      EvalNode ps s1 (.Loop body) (.ok vals2 s2) →
      EvalNode ps s (.Loop body) (.ok (vals ++ vals2) s2)
  | loop_step_abort {s s1 : MachineState} {body : List LinearNode}
      {vals : List Int} :
      EvalList ps s body (.ok vals s1) →
      EvalNode ps s1 (.Loop body) .aborted →
      EvalNode ps s (.Loop body) .aborted
  | loop_abort {s : MachineState} {body : List LinearNode} :
      EvalList ps s body .aborted →
      EvalNode ps s (.Loop body) .aborted
  | abort (s : MachineState) : EvalNode ps s .Abort .aborted
  | seq {s : MachineState} {nodes : List LinearNode} {out : Outcome} :
      EvalList ps s nodes out →
      EvalNode ps s (.Sequence nodes) out
  | alloc {s s1 : MachineState} {sz : LinearNode} {n : Int} :
      EvalNode ps s sz (.ok [n] s1) →
      0 ≤ n →
      EvalNode ps s (.RuntimeCall .Alloc [sz])
        (.ok [s1.heapNext] { s1 with heapNext := s1.heapNext + n })
  | alloc_abort {s : MachineState} {sz : LinearNode} :
      EvalNode ps s sz .aborted →
      EvalNode ps s (.RuntimeCall .Alloc [sz]) .aborted
  | memcpy {s s1 s2 s3 : MachineState} {d sc szn : LinearNode}
      {dest src n : Int} :
      EvalNode ps s d (.ok [dest] s1) →
      EvalNode ps s1 sc (.ok [src] s2) →
      EvalNode ps s2 szn (.ok [n] s3) →
      0 ≤ n →
      EvalNode ps s (.RuntimeCall .Memcpy [d, sc, szn])
        (.ok [] { s3 with mem := copyRange s3.mem dest src n })

/-- Modelled from the spec: evaluation of a node list; values pushed by
the nodes concatenate, a `Break` or `Abort` cuts the list short. -/
inductive EvalList (ps : Nat) : MachineState → List LinearNode → Outcome → Prop where
  | nil (s : MachineState) : EvalList ps s [] (.ok [] s)
  | cons_ok_ok {s s1 s2 : MachineState} {n : LinearNode}
      {ns : List LinearNode} {vals vals2 : List Int} :
      EvalNode ps s n (.ok vals s1) →
      EvalList ps s1 ns (.ok vals2 s2) →
      EvalList ps s (n :: ns) (.ok (vals ++ vals2) s2)
  | cons_ok_broke {s s1 s2 : MachineState} {n : LinearNode}
      {ns : List LinearNode} {vals vals2 : List Int} :
      EvalNode ps s n (.ok vals s1) →
      EvalList ps s1 ns (.broke vals2 s2) →
      EvalList ps s (n :: ns) (.broke (vals ++ vals2) s2)
  | cons_ok_abort {s s1 : MachineState} {n : LinearNode}
      {ns : List LinearNode} {vals : List Int} :
      EvalNode ps s n (.ok vals s1) →
      EvalList ps s1 ns .aborted →
      EvalList ps s (n :: ns) .aborted
  | cons_broke {s s1 : MachineState} {n : LinearNode}
      {ns : List LinearNode} {vals : List Int} :
      EvalNode ps s n (.broke vals s1) →
      EvalList ps s (n :: ns) (.broke vals s1)
  | cons_abort {s : MachineState} {n : LinearNode}
      {ns : List LinearNode} :
      EvalNode ps s n .aborted →
      EvalList ps s (n :: ns) .aborted

end

/-! ### Explicit-argument wrappers around the evaluation rules

Lean makes an inductive's parameters implicit in its constructors; these
wrappers re-expose the arguments that inference cannot recover when a
derivation is built bottom-up. -/

theorem evalSeq (ps : Nat) {s : MachineState} {nodes : List LinearNode}
    {out : Outcome} (h : EvalList ps s nodes out) :
    EvalNode ps s (.Sequence nodes) out :=
  EvalNode.seq h

theorem evalWriteMem (ps : Nat) {s s1 s2 : MachineState}
    {loc v : LinearNode} (off : Nat) (ty : PhysicalType) {a : Int}
    {offs : List Nat} {vals : List Int}
    (h1 : EvalNode ps s loc (.ok [a] s1))
    (h2 : EvalNode ps s1 v (.ok vals s2))
    (h3 : type_slots ty ps = some offs)
    (h4 : vals.length = offs.length) :
    EvalNode ps s (.WriteMemory loc off ty v)
      (.ok [] { s2 with mem := writeSlots s2.mem (a + (off : Int)) offs vals }) :=
  EvalNode.write_mem h1 h2 h3 h4

theorem evalReadMem (ps : Nat) {s s1 : MachineState} {loc : LinearNode}
    (off : Nat) (ty : PhysicalType) {a : Int} {offs : List Nat}
    {vals : List Int}
    (h1 : EvalNode ps s loc (.ok [a] s1))
    (h2 : type_slots ty ps = some offs)
    (h3 : readSlots s1.mem (a + (off : Int)) offs = some vals) :
    EvalNode ps s (.ReadMemory loc off ty) (.ok vals s1) :=
  EvalNode.read_mem h1 h2 h3

theorem evalCmp (ps : Nat) (op : ComparisonOp) (pt : PhysicalPrimitive)
    {s s1 s2 : MachineState} {lhs rhs : LinearNode} {a b : Int}
    (h1 : EvalNode ps s lhs (.ok [a] s1))
    (h2 : EvalNode ps s1 rhs (.ok [b] s2)) :
    EvalNode ps s (.Comparison op pt lhs rhs) (.ok [cmp_eval op a b] s2) :=
  EvalNode.cmp h1 h2

theorem evalArith (ps : Nat) (op : ArithmeticOp) (pt : PhysicalPrimitive)
    {s s1 s2 : MachineState} {lhs rhs : LinearNode} {a b : Int}
    (h1 : EvalNode ps s lhs (.ok [a] s1))
    (h2 : EvalNode ps s1 rhs (.ok [b] s2)) :
    EvalNode ps s (.Arithmetic op pt lhs rhs) (.ok [arith_eval op a b] s2) :=
  EvalNode.arith h1 h2

theorem evalIfTrue (ps : Nat) (els : Option (List LinearNode))
    {s s1 : MachineState} {cond : LinearNode} {thn : List LinearNode}
    {c : Int} {out : Outcome}
    (h1 : EvalNode ps s cond (.ok [c] s1)) (h2 : c ≠ 0)
    (h3 : EvalList ps s1 thn out) :
    EvalNode ps s (.If cond thn els) out :=
  EvalNode.if_true h1 h2 h3

theorem evalIfFalseSome (ps : Nat) (thn : List LinearNode)
    {s s1 : MachineState} {cond : LinearNode} {els_blk : List LinearNode}
    {c : Int} {out : Outcome}
    (h1 : EvalNode ps s cond (.ok [c] s1)) (h2 : c = 0)
    (h3 : EvalList ps s1 els_blk out) :
    EvalNode ps s (.If cond thn (some els_blk)) out :=
  EvalNode.if_false_some h1 h2 h3

theorem evalIfFalseNone (ps : Nat) (thn : List LinearNode)
    {s s1 : MachineState} {cond : LinearNode} {c : Int}
    (h1 : EvalNode ps s cond (.ok [c] s1)) (h2 : c = 0) :
    EvalNode ps s (.If cond thn none) (.ok [] s1) :=
  EvalNode.if_false_none h1 h2

theorem evalWriteReg (ps : Nat) (id : Nat) {s s1 : MachineState}
    {v : LinearNode} {x : Int} (h : EvalNode ps s v (.ok [x] s1)) :
    EvalNode ps s (.WriteRegister id v)
      (.ok [] { s1 with regs := setReg s1.regs id (some x) }) :=
  EvalNode.write_reg h

theorem evalWriteSplit (ps : Nat) (ids : List (Option Nat))
    {s s1 : MachineState} {v : LinearNode} {vals : List Int}
    (h1 : EvalNode ps s v (.ok vals s1)) (h2 : vals.length = ids.length) :
    EvalNode ps s (.WriteRegistersSplitting v ids)
      (.ok [] { s1 with regs := writeRegs s1.regs ids vals }) :=
  EvalNode.write_split h1 h2

theorem evalKillReg (ps : Nat) (s : MachineState) (id : Nat) :
    EvalNode ps s (.KillRegister id)
      (.ok [] { s with regs := setReg s.regs id none }) :=
  EvalNode.kill_reg s id

theorem evalReadReg (ps : Nat) (id : Nat) {s : MachineState} {v : Int}
    (h : s.regs id = some v) :
    EvalNode ps s (.ReadRegister id) (.ok [v] s) :=
  EvalNode.read_reg h

theorem evalSize (ps : Nat) (s : MachineState) (n : Nat) :
    EvalNode ps s (.Size n) (.ok [(n : Int)] s) :=
  EvalNode.size s n

theorem evalCons (ps : Nat) {s s1 s2 : MachineState} {n : LinearNode}
    {ns : List LinearNode} {vals vals2 : List Int}
    (h1 : EvalNode ps s n (.ok vals s1))
    (h2 : EvalList ps s1 ns (.ok vals2 s2)) :
    EvalList ps s (n :: ns) (.ok (vals ++ vals2) s2) :=
  EvalList.cons_ok_ok h1 h2

theorem evalNil (ps : Nat) (s : MachineState) : EvalList ps s [] (.ok [] s) :=
  EvalList.nil s

theorem evalByte (ps : Nat) (s : MachineState) (b : Nat) :
    EvalNode ps s (.Byte b) (.ok [(b : Int)] s) :=
  EvalNode.byte s b

/-! ### Facts about the layout pass (claim C5) -/

/-- Every entry of `l` is still found, with the same value, in `l'`. -/
def LayoutsPreserved (l l' : List (Nat × DeclaredTypeLayout)) : Prop :=
  ∀ id layout, l.lookup id = some layout → l'.lookup id = some layout

theorem LayoutsPreserved.rfl (l : List (Nat × DeclaredTypeLayout)) :
    LayoutsPreserved l l := fun _ _ h => h

theorem LayoutsPreserved.trans {l1 l2 l3 : List (Nat × DeclaredTypeLayout)}
    (h1 : LayoutsPreserved l1 l2) (h2 : LayoutsPreserved l2 l3) :
    LayoutsPreserved l1 l3 := fun id layout h => h2 id layout (h1 id layout h)

theorem lookup_cons_of_ne {β : Type} (k id : Nat) (v : β)
    (l : List (Nat × β)) (h : id ≠ k) :
    List.lookup id ((k, v) :: l) = List.lookup id l := by
  rw [List.lookup, show (id == k) = false from beq_eq_false_iff_ne.mpr h]

theorem LayoutsPreserved.cons {l l' : List (Nat × DeclaredTypeLayout)}
    (k : Nat) (v : DeclaredTypeLayout) (hk : l.lookup k = none)
    (h : LayoutsPreserved l l') : LayoutsPreserved l ((k, v) :: l') := by
  intro id layout hid
  by_cases hik : id = k
  · rw [hik] at hid; rw [hk] at hid; cases hid
  · rw [lookup_cons_of_ne k id v l' hik]
    exact h id layout hid

/-- The layout functions only extend the layout table: every entry present
before a (successful) call is still present, unchanged, afterwards. -/
theorem layout_preserves :
    ∀ fuel : Nat,
      (∀ declarations layouts decl byte_size pointer_size out,
        layout_static_decl fuel declarations layouts decl byte_size pointer_size
          = some out → LayoutsPreserved layouts out.2)
      ∧ (∀ declarations layouts fields size byte_size pointer_size out,
        layout_struct_fields fuel declarations layouts fields size byte_size pointer_size
          = some out → LayoutsPreserved layouts out.2.2)
      ∧ (∀ declarations layouts names variants idx largest byte_size pointer_size out,
        layout_union_variants fuel declarations layouts names variants idx largest
            byte_size pointer_size
          = some out → LayoutsPreserved layouts out.2.2)
      ∧ (∀ declarations layouts exports byte_size pointer_size out,
        layout_module_exports fuel declarations layouts exports byte_size pointer_size
          = some out → LayoutsPreserved layouts out)
      ∧ (∀ declarations layouts ty byte_size pointer_size out,
        layout_type fuel declarations layouts ty byte_size pointer_size
          = some out → LayoutsPreserved layouts out.2) := by
  intro fuel
  induction fuel with
  | zero =>
    refine ⟨?_, ?_, ?_, ?_, ?_⟩ <;>
      (intros
       rename_i h
       simp only [layout_static_decl, layout_struct_fields, layout_union_variants,
         layout_module_exports, layout_type] at h
       cases h)
  | succ fuel ih =>
    obtain ⟨ihD, ihF, ihU, ihM, ihT⟩ := ih
    refine ⟨?_, ?_, ?_, ?_, ?_⟩
    · intro declarations layouts decl byte_size pointer_size out h
      cases hcache : layouts.lookup decl.declId with
      | some layout =>
        simp only [layout_static_decl, hcache, Option.some.injEq] at h
        rw [← h]
        exact LayoutsPreserved.rfl layouts
      | none =>
        cases decl with
        | Struct struct_ty =>
          simp only [StaticDeclaration.declId] at hcache
          cases hf : layout_struct_fields fuel declarations layouts struct_ty.fields 0
              byte_size pointer_size with
          | none =>
            simp only [layout_static_decl, StaticDeclaration.declId, hcache, hf,
              Option.map_none', reduceCtorEq] at h
          | some fout =>
            simp only [layout_static_decl, StaticDeclaration.declId, hcache, hf,
              Option.map_some', Option.some.injEq] at h
            rw [← h]
            exact LayoutsPreserved.cons _ _ hcache
              (ihF declarations layouts struct_ty.fields 0 byte_size pointer_size fout hf)
        | Func fid =>
          simp only [StaticDeclaration.declId] at hcache
          simp only [layout_static_decl, StaticDeclaration.declId, hcache,
            Option.some.injEq] at h
          rw [← h]
          exact LayoutsPreserved.rfl layouts
        | Interface iid assoc =>
          simp only [StaticDeclaration.declId] at hcache
          cases hi : interface_fn_ids assoc with
          | none =>
            simp only [layout_static_decl, StaticDeclaration.declId, hcache, hi,
              Option.map_none', reduceCtorEq] at h
          | some fields =>
            simp only [layout_static_decl, StaticDeclaration.declId, hcache, hi,
              Option.map_some', Option.some.injEq] at h
            rw [← h]
            exact LayoutsPreserved.cons _ _ hcache (LayoutsPreserved.rfl layouts)
        | Union union_ty =>
          simp only [StaticDeclaration.declId] at hcache
          cases hu : layout_union_variants fuel declarations layouts union_ty.variant_order
              union_ty.variants 0 0 byte_size pointer_size with
          | none =>
            simp only [layout_static_decl, StaticDeclaration.declId, hcache, hu,
              Option.map_none', reduceCtorEq] at h
          | some uout =>
            simp only [layout_static_decl, StaticDeclaration.declId, hcache, hu,
              Option.map_some', Option.some.injEq] at h
            rw [← h]
            exact LayoutsPreserved.cons _ _ hcache
              (ihU declarations layouts union_ty.variant_order union_ty.variants 0 0
                byte_size pointer_size uout hu)
        | Module mid exports =>
          simp only [StaticDeclaration.declId] at hcache
          cases hm : layout_module_exports fuel declarations layouts exports
              byte_size pointer_size with
          | none =>
            simp only [layout_static_decl, StaticDeclaration.declId, hcache, hm,
              Option.map_none', reduceCtorEq] at h
          | some mout =>
            simp only [layout_static_decl, StaticDeclaration.declId, hcache, hm,
              Option.map_some', Option.some.injEq] at h
            rw [← h]
            exact ihM declarations layouts exports byte_size pointer_size mout hm
    · intro declarations layouts fields size byte_size pointer_size out h
      cases fields with
      | nil =>
        rw [layout_struct_fields] at h
        simp only [Option.some.injEq] at h
        rw [← h]
        exact LayoutsPreserved.rfl layouts
      | cons head rest =>
        obtain ⟨name, field⟩ := head
        rw [layout_struct_fields] at h
        cases ht : layout_type fuel declarations layouts field byte_size pointer_size with
        | none => rw [ht] at h; cases h
        | some tout =>
          rw [ht] at h
          simp only [Option.some_bind] at h
          cases hs : size_from_decls tout.2 byte_size pointer_size tout.1 with
          | none =>
            obtain ⟨fty, l1⟩ := tout
            rw [hs] at h; cases h
          | some field_size =>
            obtain ⟨fty, l1⟩ := tout
            simp only [] at hs
            rw [hs] at h
            simp only [Option.some_bind] at h
            cases hrest : layout_struct_fields fuel declarations l1 rest (size + field_size)
                byte_size pointer_size with
            | none => rw [hrest] at h; cases h
            | some rout =>
              rw [hrest] at h
              simp only [Option.map_some', Option.some.injEq] at h
              rw [← h]
              exact LayoutsPreserved.trans
                (ihT declarations layouts field byte_size pointer_size (fty, l1) ht)
                (ihF declarations l1 rest (size + field_size) byte_size pointer_size
                  rout hrest)
    · intro declarations layouts names variants idx largest byte_size pointer_size out h
      cases names with
      | nil =>
        rw [layout_union_variants] at h
        simp only [Option.some.injEq] at h
        rw [← h]
        exact LayoutsPreserved.rfl layouts
      | cons name rest =>
        rw [layout_union_variants] at h
        cases hv : variants.lookup name with
        | none => rw [hv] at h; cases h
        | some ty =>
          rw [hv] at h
          simp only [Option.some_bind] at h
          have step :
              ∀ variant l1,
                (match ty with
                  | none => some (none, layouts)
                  | some payload_ty =>
                    (layout_type fuel declarations layouts payload_ty byte_size
                        pointer_size).map
                      (fun (o : PhysicalType × List (Nat × DeclaredTypeLayout)) =>
                        (some o.1, o.2))) = some (variant, l1) →
                LayoutsPreserved layouts l1 := by
            intro variant l1 hstep
            cases ty with
            | none =>
              simp only [] at hstep
              simp only [Option.some.injEq, Prod.mk.injEq] at hstep
              rw [← hstep.2]
              exact LayoutsPreserved.rfl layouts
            | some payload_ty =>
              simp only [] at hstep
              cases ht : layout_type fuel declarations layouts payload_ty byte_size
                  pointer_size with
              | none => rw [ht] at hstep; cases hstep
              | some tout =>
                rw [ht] at hstep
                simp only [Option.map_some', Option.some.injEq, Prod.mk.injEq] at hstep
                have := ihT declarations layouts payload_ty byte_size pointer_size tout ht
                rw [hstep.2] at this
                exact this
          cases hstep : (match ty with
              | none => some (none, layouts)
              | some payload_ty =>
                (layout_type fuel declarations layouts payload_ty byte_size
                    pointer_size).map
                  (fun (o : PhysicalType × List (Nat × DeclaredTypeLayout)) =>
                    (some o.1, o.2))) with
          | none => rw [hstep] at h; cases h
          | some vout =>
            rw [hstep] at h
            obtain ⟨variant, l1⟩ := vout
            simp only [Option.some_bind] at h
            cases hsz : (match variant with
                | none => some 0
                | some payload => size_from_decls l1 byte_size pointer_size payload) with
            | none => rw [hsz] at h; cases h
            | some variant_size =>
              rw [hsz] at h
              simp only [Option.some_bind] at h
              cases hrest : layout_union_variants fuel declarations l1 rest variants
                  (idx + 1) (Nat.max largest variant_size) byte_size pointer_size with
              | none => rw [hrest] at h; cases h
              | some rout =>
                rw [hrest] at h
                simp only [Option.map_some', Option.some.injEq] at h
                rw [← h]
                exact LayoutsPreserved.trans (step variant l1 hstep)
                  (ihU declarations l1 rest variants (idx + 1)
                    (Nat.max largest variant_size) byte_size pointer_size rout hrest)
    · intro declarations layouts exports byte_size pointer_size out h
      cases exports with
      | nil =>
        rw [layout_module_exports] at h
        simp only [Option.some.injEq] at h
        rw [← h]
        exact LayoutsPreserved.rfl layouts
      | cons head rest =>
        obtain ⟨name, decl⟩ := head
        rw [layout_module_exports] at h
        cases hd : layout_static_decl fuel declarations layouts decl byte_size
            pointer_size with
        | none => rw [hd] at h; cases h
        | some dout =>
          rw [hd] at h
          simp only [Option.some_bind] at h
          exact LayoutsPreserved.trans
            (ihD declarations layouts decl byte_size pointer_size dout hd)
            (ihM declarations dout.2 rest byte_size pointer_size out h)
    · intro declarations layouts ty byte_size pointer_size out h
      cases ty with
      | InstanceOf id =>
        cases hd : declarations.lookup id with
        | none => simp only [layout_type, hd, Option.none_bind, reduceCtorEq] at h
        | some decl =>
          simp only [layout_type, hd, Option.some_bind] at h
          cases hs : layout_static_decl fuel declarations layouts decl byte_size
              pointer_size with
          | none => rw [hs] at h; cases h
          | some dout =>
            rw [hs] at h
            simp only [Option.map_some', Option.some.injEq] at h
            rw [← h]
            exact ihD declarations layouts decl byte_size pointer_size dout hs
      | Nullable inner =>
        cases ht : layout_type fuel declarations layouts inner byte_size pointer_size with
        | none => simp only [layout_type, ht, Option.map_none', reduceCtorEq] at h
        | some tout =>
          simp only [layout_type, ht, Option.map_some', Option.some.injEq] at h
          rw [← h]
          exact ihT declarations layouts inner byte_size pointer_size tout ht
      | Collection c =>
        cases c <;> simp only [layout_type, reduceCtorEq, Option.some.injEq] at h <;>
          (rw [← h]; exact LayoutsPreserved.rfl layouts)
      | _ =>
        simp only [layout_type, reduceCtorEq, Option.some.injEq] at h <;>
          (rw [← h]; exact LayoutsPreserved.rfl layouts)

/-- `size_from_decls` is stable under extending the layout table. -/
theorem size_from_decls_preserved {l l' : List (Nat × DeclaredTypeLayout)}
    (hp : LayoutsPreserved l l') (byte_size pointer_size : Nat) :
    ∀ p s, size_from_decls l byte_size pointer_size p = some s →
      size_from_decls l' byte_size pointer_size p = some s := by
  intro p
  induction p with
  | Referenced id =>
    intro s h
    rw [size_from_decls] at h ⊢
    cases hl : l.lookup id with
    | none => rw [hl] at h; cases h
    | some layout =>
      rw [hl] at h
      rw [hp id layout hl]
      exact h
  | Nullable inner ih =>
    intro s h
    rw [size_from_decls] at h ⊢
    cases hs : size_from_decls l byte_size pointer_size inner with
    | none => rw [hs] at h; cases h
    | some si =>
      rw [hs] at h
      rw [ih si hs]
      exact h
  | Collection c => intro s h; cases c <;> exact h
  | Primitive p => intro s h; exact h
  | FunctionPointer => intro s h; exact h
  | Generator => intro s h; exact h

/-- Characterization of the union-variant fold: variant `k` of the order is
recorded under tag index `idx + k`, and the accumulated largest size is the
max of the individual payload sizes (0 for payload-less variants), each of
which `size_from_decls` reproduces on the final layout table. -/
theorem layout_union_variants_spec :
    ∀ (names : List String) fuel declarations layouts variants idx largest
      byte_size pointer_size entries final_largest layouts_out,
      layout_union_variants fuel declarations layouts names variants idx largest
          byte_size pointer_size = some (entries, final_largest, layouts_out) →
      ∃ sizes : List Nat,
        sizes.length = names.length
        ∧ entries.length = names.length
        ∧ final_largest = sizes.foldl Nat.max largest
        ∧ ∀ k name, names[k]? = some name →
            ∃ payload szk, entries[k]? = some (name, idx + k, payload)
              ∧ sizes[k]? = some szk
              ∧ (payload = none → szk = 0)
              ∧ (∀ p, payload = some p →
                  size_from_decls layouts_out byte_size pointer_size p = some szk) := by
  intro names
  induction names with
  | nil =>
    intro fuel declarations layouts variants idx largest byte_size pointer_size
      entries final_largest layouts_out h
    cases fuel with
    | zero => cases h
    | succ fuel =>
      rw [layout_union_variants] at h
      simp only [Option.some.injEq, Prod.mk.injEq] at h
      obtain ⟨h1, h2, h3⟩ := h
      refine ⟨[], rfl, by simp [← h1], by simp [← h2], ?_⟩
      intro k name hk
      simp at hk
  | cons name rest ih =>
    intro fuel declarations layouts variants idx largest byte_size pointer_size
      entries final_largest layouts_out h
    cases fuel with
    | zero => cases h
    | succ fuel =>
      rw [layout_union_variants] at h
      cases hv : variants.lookup name with
      | none => rw [hv] at h; cases h
      | some ty =>
        rw [hv] at h
        simp only [Option.some_bind] at h
        cases hstep : (match ty with
            | none => some (none, layouts)
            | some payload_ty =>
              (layout_type fuel declarations layouts payload_ty byte_size
                  pointer_size).map
                (fun (o : PhysicalType × List (Nat × DeclaredTypeLayout)) =>
                  (some o.1, o.2))) with
        | none => rw [hstep] at h; cases h
        | some vout =>
          rw [hstep] at h
          obtain ⟨variant, l1⟩ := vout
          simp only [Option.some_bind] at h
          cases hsz : (match variant with
              | none => some 0
              | some payload => size_from_decls l1 byte_size pointer_size payload) with
          | none => rw [hsz] at h; cases h
          | some variant_size =>
            rw [hsz] at h
            simp only [Option.some_bind] at h
            cases hrest : layout_union_variants fuel declarations l1 rest variants
                (idx + 1) (Nat.max largest variant_size) byte_size pointer_size with
            | none => rw [hrest] at h; cases h
            | some rout =>
              rw [hrest] at h
              obtain ⟨entries1, largest1, lout1⟩ := rout
              simp only [Option.map_some', Option.some.injEq, Prod.mk.injEq] at h
              obtain ⟨he, hl, hout⟩ := h
              subst he
              subst hl
              subst hout
              obtain ⟨sizes1, hslen, helen, hlargest, hpoint⟩ :=
                ih fuel declarations l1 variants (idx + 1)
                  (Nat.max largest variant_size) byte_size pointer_size entries1
                  largest1 lout1 hrest
              have hpres : LayoutsPreserved l1 lout1 :=
                (layout_preserves fuel).2.2.1 declarations l1 rest variants
                  (idx + 1) (Nat.max largest variant_size) byte_size pointer_size
                  (entries1, largest1, lout1) hrest
              refine ⟨variant_size :: sizes1, by simp [hslen], by simp [helen],
                ?_, ?_⟩
              · rw [hlargest]
                simp [List.foldl_cons]
              · intro k name2 hk
                cases k with
                | zero =>
                  simp only [List.getElem?_cons_zero, Option.some.injEq] at hk
                  refine ⟨variant, variant_size, ?_, by simp, ?_, ?_⟩
                  · simp [hk]
                  · intro hnone
                    rw [hnone] at hsz
                    simp only [Option.some.injEq] at hsz
                    omega
                  · intro p hp
                    rw [hp] at hsz
                    simp only [] at hsz
                    exact size_from_decls_preserved hpres byte_size pointer_size p
                      variant_size hsz
                | succ k =>
                  simp only [List.getElem?_cons_succ] at hk
                  obtain ⟨payload, szk, hent, hszk, hz, hs⟩ := hpoint k name2 hk
                  refine ⟨payload, szk, ?_, by simpa using hszk, hz, hs⟩
                  simp only [List.getElem?_cons_succ]
                  rw [hent]
                  have : idx + 1 + k = idx + (k + 1) := by omega
                  rw [this]

/-- C5: for every Union declaration (with a cache miss for its id), the
computed layout's size equals the union tag size plus the maximum over all
variants of the payload size (payload-less variants counting as 0), and the
tag recorded for each variant equals its position in `variant_order`. -/
theorem union_layout_size_and_tags
    (fuel : Nat) (declarations : List (Nat × StaticDeclaration))
    (layouts : List (Nat × DeclaredTypeLayout)) (u : UnionTypeS)
    (byte_size pointer_size : Nat) (sz : Nat)
    (out_layouts : List (Nat × DeclaredTypeLayout))
    (hmiss : layouts.lookup u.id = none)
    (hrun : layout_static_decl (fuel + 1) declarations layouts (.Union u)
        byte_size pointer_size = some (sz, out_layouts)) :
    ∃ entries largest layouts_pre, ∃ sizes : List Nat,
      out_layouts
          = (u.id, ⟨.Union entries, UNION_TAG_SIZE.size pointer_size + largest⟩)
            :: layouts_pre
      ∧ sz = UNION_TAG_SIZE.size pointer_size + largest
      ∧ largest = sizes.foldl Nat.max 0
      ∧ sizes.length = u.variant_order.length
      ∧ entries.length = u.variant_order.length
      ∧ ∀ (k : Nat) name, u.variant_order[k]? = some name →
          ∃ payload szk, entries[k]? = some (name, k, payload)
            ∧ sizes[k]? = some szk
            ∧ (payload = none → szk = 0)
            ∧ (∀ p, payload = some p →
                size_from_decls layouts_pre byte_size pointer_size p = some szk) := by
  rw [layout_static_decl] at hrun
  rw [show (StaticDeclaration.Union u).declId = u.id from rfl, hmiss] at hrun
  simp only [] at hrun
  cases hu : layout_union_variants fuel declarations layouts u.variant_order
      u.variants 0 0 byte_size pointer_size with
  | none => rw [hu] at hrun; cases hrun
  | some uout =>
    rw [hu] at hrun
    obtain ⟨entries, largest, lout⟩ := uout
    simp only [Option.map_some', Option.some.injEq, Prod.mk.injEq] at hrun
    obtain ⟨hsz, hout⟩ := hrun
    obtain ⟨sizes, hslen, helen, hlargest, hpoint⟩ :=
      layout_union_variants_spec u.variant_order fuel declarations layouts
        u.variants 0 0 byte_size pointer_size entries largest lout hu
    refine ⟨entries, largest, lout, sizes, by rw [← hout], by rw [← hsz], ?_,
      hslen, helen, ?_⟩
    · rw [hlargest]
    · intro k name hk
      obtain ⟨payload, szk, hent, hszk, hz, hs⟩ := hpoint k name hk
      exact ⟨payload, szk, by simpa using hent, hszk, hz, hs⟩

/-- Witness for C5's theorem: a concrete two-variant union (`A` without
payload, `B` with an `i32` payload) on a 64-bit target has size 8 + 4. -/
theorem union_layout_size_and_tags_witness :
    ∃ entries largest layouts_pre, ∃ sizes : List Nat,
      ([(7, ⟨.Union [("A", 0, none), ("B", 1, some (.Primitive .Int32))], 12⟩)]
          : List (Nat × DeclaredTypeLayout))
          = (7, ⟨.Union entries, UNION_TAG_SIZE.size 8 + largest⟩) :: layouts_pre
      ∧ (12 : Nat) = UNION_TAG_SIZE.size 8 + largest
      ∧ largest = sizes.foldl Nat.max 0
      ∧ sizes.length = (["A", "B"] : List String).length
      ∧ entries.length = (["A", "B"] : List String).length
      ∧ ∀ (k : Nat) name, (["A", "B"] : List String)[k]? = some name →
          ∃ payload szk, entries[k]? = some (name, k, payload)
            ∧ sizes[k]? = some szk
            ∧ (payload = none → szk = 0)
            ∧ (∀ p, payload = some p →
                size_from_decls layouts_pre 1 8 p = some szk) :=
  union_layout_size_and_tags 9 [] []
    ⟨7, ["A", "B"], [("A", none), ("B", some (.Primitive .Int32))]⟩ 1 8 12
    [(7, ⟨.Union [("A", 0, none), ("B", 1, some (.Primitive .Int32))], 12⟩)]
    rfl rfl

/-- C8: integer literals are typed `Int32` exactly when the value fits in
32 bits (else `Int64`); float literals are typed `Float32` exactly when the
value round-trips through f32 to within 1e-7 (else `Float64`). -/
theorem literal_typing (n : Int) (f32_round_trip : ℚ → ℚ) (c : ℚ) :
    (typecheck_int_literal n = .Primitive .Int32
      ↔ -(2 ^ 31) ≤ n ∧ n < 2 ^ 31)
    ∧ (typecheck_int_literal n = .Primitive .Int64
      ↔ ¬(-(2 ^ 31) ≤ n ∧ n < 2 ^ 31))
    ∧ (typecheck_float_literal f32_round_trip c = .Primitive .Float32
      ↔ |f32_round_trip c - c| ≤ 1 / 10 ^ 7)
    ∧ (typecheck_float_literal f32_round_trip c = .Primitive .Float64
      ↔ ¬(|f32_round_trip c - c| ≤ 1 / 10 ^ 7)) := by
  refine ⟨?_, ?_, ?_, ?_⟩ <;>
    · first
        | (unfold typecheck_int_literal; split <;> simp_all)
        | (unfold typecheck_float_literal; split <;> simp_all)

/-! ## Claim C9: generator create / suspend / resume -/

/-- C9: lowering `GeneratorCreate` yields LIR that allocates a 64-byte
region with the bump allocator and pushes (region pointer, resume point 0,
function id); lowering `GeneratorSuspend(label)` yields LIR that writes
`label` one pointer size into the generator record, changing nothing else,
and a subsequent resume lowers to a `Goto` whose target — the stored
resume point — then evaluates to `label`. -/
theorem generator_create_and_suspend (ps fid label : Nat)
    (s : MachineState) (gen : LinearNode) (G : Int)
    (hgen : ∀ t, EvalNode ps t gen (.ok [G] t)) :
    EvalNode ps s (lower_generator_create fid)
      (.ok [s.heapNext, 0, (fid : Int)] { s with heapNext := s.heapNext + 64 })
    ∧ ∃ s', EvalNode ps s (lower_generator_suspend gen label ps) (.ok [] s')
        ∧ s'.mem (G + (ps : Int)) = some (label : Int)
        ∧ (∀ a, a ≠ G + (ps : Int) → s'.mem a = s.mem a)
        ∧ s'.regs = s.regs ∧ s'.vars = s.vars ∧ s'.heapNext = s.heapNext
        ∧ ∃ target, lower_generator_resume
              (.ReadMemory gen ps (.Primitive .PointerSize)) = .Goto target
            ∧ EvalNode ps s' target (.ok [(label : Int)] s') := by
  constructor
  · have D := evalSeq ps (EvalList.cons_ok_ok
      (EvalNode.alloc (EvalNode.size s 64) (by norm_num))
      (EvalList.cons_ok_ok (EvalNode.size _ 0)
        (EvalList.cons_ok_ok (EvalNode.fn_id _ fid) (EvalList.nil _))))
    simpa using D
  · have hts : type_slots (.Primitive .PointerSize) ps = some [0] := rfl
    have D := evalWriteMem ps ps (.Primitive .PointerSize) (hgen s)
      (EvalNode.size s label) hts rfl
    refine ⟨_, D, ?_, ?_, rfl, rfl, rfl, ?_⟩
    · simp [writeSlots, setMem]
    · intro a ha
      simp only [writeSlots, setMem]
      rw [if_neg (by push_cast at ha ⊢; omega)]
    · refine ⟨_, rfl, ?_⟩
      refine EvalNode.read_mem (hgen _) hts ?_
      simp [readSlots, writeSlots, setMem]

/-- Witness for C9's theorem at pointer size 8, function id 3, label 5,
the generator record at address 7. -/
theorem generator_create_and_suspend_witness :
    EvalNode 8 ⟨fun _ => none, fun _ => none, fun _ => none, 100⟩
      (lower_generator_create 3)
      (.ok [100, 0, 3] { (⟨fun _ => none, fun _ => none, fun _ => none, 100⟩
        : MachineState) with heapNext := 100 + 64 })
    ∧ ∃ s', EvalNode 8 ⟨fun _ => none, fun _ => none, fun _ => none, 100⟩
        (lower_generator_suspend (.IntLit 7) 5 8) (.ok [] s')
        ∧ s'.mem (7 + (8 : Int)) = some 5
        ∧ (∀ a, a ≠ 7 + (8 : Int) →
            s'.mem a = (⟨fun _ => none, fun _ => none, fun _ => none, 100⟩
              : MachineState).mem a)
        ∧ s'.regs = (⟨fun _ => none, fun _ => none, fun _ => none, 100⟩
            : MachineState).regs
        ∧ s'.vars = (⟨fun _ => none, fun _ => none, fun _ => none, 100⟩
            : MachineState).vars
        ∧ s'.heapNext = 100
        ∧ ∃ target, lower_generator_resume
              (.ReadMemory (.IntLit 7) 8 (.Primitive .PointerSize))
              = .Goto target
            ∧ EvalNode 8 s' target (.ok [5] s') :=
  generator_create_and_suspend 8 3 5
    ⟨fun _ => none, fun _ => none, fun _ => none, 100⟩ (.IntLit 7) 7
    (fun t => EvalNode.intlit t 7)

/-! ## Claim C3: union variant access -/

/-- C3 (amended): the lowered union access compares the stored tag with
the variant's index; on a match it reads the payload at the union's
location plus the tag size and pushes it under a true flag, and on a
mismatch it pushes only a false flag (Byte 0) and completes normally —
no Abort is executed. -/
theorem union_access_tag_check (ps : Nat) (loc : LinearNode) (P : Int)
    (off variant_idx : Nat) (vty : PhysicalType) (offs : List Nat)
    (tag : Int) (s : MachineState)
    (hloc : ∀ t, EvalNode ps t loc (.ok [P] t))
    (hty : type_slots vty ps = some offs)
    (htag : s.mem (P + (off : Int)) = some tag) :
    (tag ≠ (variant_idx : Int) →
      EvalNode ps s (lower_union_access loc off variant_idx vty ps)
        (.ok [0] s))
    ∧ ∀ payload,
      tag = (variant_idx : Int) →
      readSlots s.mem (P + ((off + UNION_TAG_SIZE.size ps : Nat) : Int))
          offs = some payload →
      EvalNode ps s (lower_union_access loc off variant_idx vty ps)
        (.ok (payload ++ [1]) s) := by
  have hcmp : EvalNode ps s
      (LinearNode.ptr_comparison .NotEquals (LinearNode.size variant_idx)
        (LinearNode.read_memory loc off (.Primitive .PointerSize)))
      (.ok [cmp_eval .NotEquals (variant_idx : Int) tag] s) :=
    EvalNode.cmp (EvalNode.size s variant_idx)
      (EvalNode.read_mem (hloc s) rfl (by simp [readSlots, htag]))
  constructor
  · intro hne
    have hbr := evalCons ps (evalByte ps s 0) (evalNil ps s)
    have hif := evalIfTrue ps
      (some [LinearNode.read_memory loc (off + UNION_TAG_SIZE.size ps) vty,
        LinearNode.bool_value true])
      hcmp (by simp [cmp_eval]; omega) hbr
    have D := evalSeq ps (EvalList.cons_ok_ok hif (EvalList.nil s))
    simpa using D
  · intro payload heq hread
    have hbr := EvalList.cons_ok_ok
      (EvalNode.read_mem (hloc s) hty hread)
      (evalCons ps (evalByte ps s 1) (evalNil ps s))
    have hif := evalIfFalseSome ps [LinearNode.bool_value false] hcmp
      (by simp [cmp_eval, heq]) hbr
    have D := evalSeq ps (EvalList.cons_ok_ok hif (EvalList.nil s))
    simpa using D

/-- The machine state of C3's counterexample: the union lives at address
100 and its stored tag is 0. -/
def unionAccessState : MachineState :=
  ⟨fun _ => none, fun _ => none, fun a => if a = 100 then some 0 else none,
    1000⟩

/-- Counterexample to C3 as claimed: accessing variant index 1 of a union
whose stored tag is 0 completes normally, pushing the false flag 0 — and
no execution of the lowered access aborts, contradicting "when the tag
differs the program terminates via an Abort node". -/
theorem union_access_mismatch_no_abort :
    EvalNode 8 unionAccessState
      (lower_union_access (.IntLit 100) 0 1 (.Primitive .Int32) 8)
      (.ok [0] unionAccessState)
    ∧ ¬ EvalNode 8 unionAccessState
      (lower_union_access (.IntLit 100) 0 1 (.Primitive .Int32) 8)
      .aborted := by
  constructor
  · have hcmp := evalCmp 8 .NotEquals .PointerSize
      (EvalNode.size unionAccessState 1)
      (evalReadMem 8 0 (.Primitive .PointerSize)
        (EvalNode.intlit _ 100) rfl
        (rfl : readSlots unionAccessState.mem (100 + ((0 : Nat) : Int)) [0]
          = some [0]))
    have hif := evalIfTrue 8
      (some [LinearNode.read_memory (.IntLit 100)
        (0 + UNION_TAG_SIZE.size 8) (.Primitive .Int32),
        LinearNode.bool_value true])
      hcmp (by simp [cmp_eval])
      (evalCons 8 (evalByte 8 unionAccessState 0) (evalNil 8 unionAccessState))
    have D := evalSeq 8 (EvalList.cons_ok_ok hif (EvalList.nil _))
    simpa [cmp_eval] using D
  · intro h
    cases h with
    | seq h =>
      cases h with
      | cons_ok_abort h1 h2 => cases h2
      | cons_abort h1 =>
        cases h1 with
        | if_true hc hne hb =>
          cases hb with
          | cons_ok_abort h1 h2 => cases h2
          | cons_abort h1 => cases h1
        | if_false_some hc hz hb =>
          cases hb with
          | cons_ok_abort h1 h2 =>
            cases h2 with
            | cons_ok_abort h3 h4 => cases h4
            | cons_abort h3 => cases h3
          | cons_abort h1 =>
            cases h1 with
            | read_mem_abort h2 => cases h2
        | if_abort hc =>
          cases hc with
          | cmp_abort_l h1 => cases h1
          | cmp_abort_r h1 h2 =>
            cases h2 with
            | read_mem_abort h3 => cases h3

/-- Witness for C3's amended theorem: a mismatching tag (0 vs variant 1)
yields the false flag, a matching tag (variant 0) yields payload and true
flag, at the concrete state of `unionAccessState` (payload cell unwritten
is irrelevant for the mismatch part; the match part reads the tag cell
itself for variant 0 and offset-8 payload of the single-slot Int32). -/
theorem union_access_tag_check_witness :
    ((0 : Int) ≠ ((1 : Nat) : Int) →
      EvalNode 8 unionAccessState
        (lower_union_access (.IntLit 100) 0 1 (.Primitive .Int32) 8)
        (.ok [0] unionAccessState))
    ∧ ∀ payload,
      (0 : Int) = ((1 : Nat) : Int) →
      readSlots unionAccessState.mem
          (100 + (((0 + UNION_TAG_SIZE.size 8 : Nat)) : Int)) [0]
          = some payload →
      EvalNode 8 unionAccessState
        (lower_union_access (.IntLit 100) 0 1 (.Primitive .Int32) 8)
        (.ok (payload ++ [1]) unionAccessState) :=
  union_access_tag_check 8 (.IntLit 100) 100 0 1 (.Primitive .Int32) [0] 0
    unionAccessState (fun t => EvalNode.intlit t 100) rfl
    (by simp [unionAccessState])

/-! ## Claim C6: bounds-checked array indexing -/

/-- C6: the lowered array index loads the index into register `c`,
split-reads the array value into pointer/length registers `c + 1` /
`c + 2`, aborts when index ≥ length, and otherwise yields the address
`elem_size * index + pointer`, leaving memory, variables and the heap
untouched and every register below `c` unchanged. -/
theorem array_index_bounds_check (ps : Nat) (idxN arrN : LinearNode)
    (esz c : Nat) (I B L Cap : Int) (s : MachineState)
    (hidx : ∀ t, EvalNode ps t idxN (.ok [I] t))
    (harr : ∀ t, EvalNode ps t arrN (.ok [B, L, Cap] t)) :
    (L ≤ I →
      EvalNode ps s (array_index_location idxN arrN esz c).1 .aborted)
    ∧ (I < L → ∃ s', EvalNode ps s (array_index_location idxN arrN esz c).1
        (.ok [(esz : Int) * I + B] s')
        ∧ s'.mem = s.mem ∧ s'.vars = s.vars ∧ s'.heapNext = s.heapNext
        ∧ ∀ r, r < c → s'.regs r = s.regs r) := by
  have h1 : EvalNode ps s (LinearNode.write_register c idxN)
      (.ok [] { s with regs := setReg s.regs c (some I) }) :=
    evalWriteReg ps c (hidx s)
  have h2 : EvalNode ps { s with regs := setReg s.regs c (some I) }
      (LinearNode.write_multi_register arrN [some (c + 1), some (c + 2), none])
      (.ok [] { s with
        regs := setReg (setReg (setReg s.regs c (some I))
          (c + 1) (some B)) (c + 2) (some L) }) :=
    evalWriteSplit ps [some (c + 1), some (c + 2), none] (harr _) rfl
  have hrc : (setReg (setReg (setReg s.regs c (some I)) (c + 1) (some B))
      (c + 2) (some L)) c = some I := by
    simp [setReg]
  have hrl : (setReg (setReg (setReg s.regs c (some I)) (c + 1) (some B))
      (c + 2) (some L)) (c + 2) = some L := by
    simp [setReg]
  have hcmp : EvalNode ps { s with
      regs := setReg (setReg (setReg s.regs c (some I))
        (c + 1) (some B)) (c + 2) (some L) }
      (LinearNode.ptr_comparison .GreaterEqualThan
        (LinearNode.read_register c) (LinearNode.read_register (c + 2)))
      (.ok [cmp_eval .GreaterEqualThan I L] { s with
        regs := setReg (setReg (setReg s.regs c (some I))
          (c + 1) (some B)) (c + 2) (some L) }) :=
    evalCmp ps .GreaterEqualThan .PointerSize
      (evalReadReg ps c hrc) (evalReadReg ps (c + 2) hrl)
  constructor
  · intro hLe
    refine EvalNode.seq ?_
    refine EvalList.cons_ok_abort h1 ?_
    refine EvalList.cons_ok_abort h2 ?_
    refine EvalList.cons_abort ?_
    exact evalIfTrue ps none hcmp (by simp [cmp_eval]; omega)
      (EvalList.cons_abort (EvalNode.abort _))
  · intro hLt
    have h3 := evalIfFalseNone ps [LinearNode.abort] hcmp
      (by simp [cmp_eval]; omega)
    have h4 := evalKillReg ps { s with
      regs := setReg (setReg (setReg s.regs c (some I)) (c + 1) (some B))
        (c + 2) (some L) } (c + 2)
    have hrc2 : (setReg (setReg (setReg (setReg s.regs c (some I))
        (c + 1) (some B)) (c + 2) (some L)) (c + 2) none) c = some I := by
      simp [setReg]
    have hrb2 : (setReg (setReg (setReg (setReg s.regs c (some I))
        (c + 1) (some B)) (c + 2) (some L)) (c + 2) none) (c + 1)
        = some B := by
      simp [setReg]
    have h5 : EvalNode ps { s with
        regs := setReg (setReg (setReg (setReg s.regs c (some I))
          (c + 1) (some B)) (c + 2) (some L)) (c + 2) none }
        (LinearNode.ptr_arithmetic .Add
          (LinearNode.ptr_arithmetic .Multiply (LinearNode.size esz)
            (LinearNode.read_register c))
          (LinearNode.read_register (c + 1)))
        (.ok [arith_eval .Add (arith_eval .Multiply (esz : Int) I) B]
          { s with
            regs := setReg (setReg (setReg (setReg s.regs c (some I))
              (c + 1) (some B)) (c + 2) (some L)) (c + 2) none }) :=
      evalArith ps .Add .PointerSize
        (evalArith ps .Multiply .PointerSize (evalSize ps _ esz)
          (evalReadReg ps c hrc2))
        (evalReadReg ps (c + 1) hrb2)
    have h6 := evalKillReg ps { s with
      regs := setReg (setReg (setReg (setReg s.regs c (some I))
        (c + 1) (some B)) (c + 2) (some L)) (c + 2) none } c
    have h7 := evalKillReg ps { s with
      regs := setReg (setReg (setReg (setReg (setReg s.regs c (some I))
        (c + 1) (some B)) (c + 2) (some L)) (c + 2) none) c none } (c + 1)
    have D := evalSeq ps (evalCons ps h1 (evalCons ps h2 (evalCons ps h3
      (evalCons ps h4 (evalCons ps h5 (evalCons ps h6 (evalCons ps h7
        (evalNil ps _))))))))
    refine ⟨{ s with
      regs := setReg (setReg (setReg (setReg (setReg (setReg s.regs c
        (some I)) (c + 1) (some B)) (c + 2) (some L)) (c + 2) none)
        c none) (c + 1) none },
      by simpa [arith_eval] using D, rfl, rfl, rfl, ?_⟩
    intro r hr
    simp only [setReg]
    iterate 6 rw [if_neg (by omega)]

/-- Witness for C6's theorem: index 2 against an array at pointer 500 of
length 10 (capacity 16), element size 4, pointer size 8, registers from
40. -/
theorem array_index_bounds_check_witness :
    ((10 : Int) ≤ 2 →
      EvalNode 8 ⟨fun _ => none, fun _ => none, fun _ => none, 1000⟩
        (array_index_location (.IntLit 2)
          (.Sequence [.IntLit 500, .IntLit 10, .IntLit 16]) 4 40).1
        .aborted)
    ∧ ((2 : Int) < 10 → ∃ s',
        EvalNode 8 ⟨fun _ => none, fun _ => none, fun _ => none, 1000⟩
          (array_index_location (.IntLit 2)
            (.Sequence [.IntLit 500, .IntLit 10, .IntLit 16]) 4 40).1
          (.ok [((4 : Nat) : Int) * 2 + 500] s')
        ∧ s'.mem = (⟨fun _ => none, fun _ => none, fun _ => none, 1000⟩
            : MachineState).mem
        ∧ s'.vars = (⟨fun _ => none, fun _ => none, fun _ => none, 1000⟩
            : MachineState).vars
        ∧ s'.heapNext = 1000
        ∧ ∀ r, r < 40 → s'.regs r
            = (⟨fun _ => none, fun _ => none, fun _ => none, 1000⟩
              : MachineState).regs r) :=
  array_index_bounds_check 8 (.IntLit 2)
    (.Sequence [.IntLit 500, .IntLit 10, .IntLit 16]) 4 40 2 500 10 16
    ⟨fun _ => none, fun _ => none, fun _ => none, 1000⟩
    (fun t => EvalNode.intlit t 2)
    (fun t => by
      have D := evalSeq 8 (evalCons 8 (EvalNode.intlit t 500)
        (evalCons 8 (EvalNode.intlit t 10)
          (evalCons 8 (EvalNode.intlit t 16) (evalNil 8 t))))
      simpa using D)

/-! ## Execution of `array_alloc_space_to_push` (shared by C4 and C7) -/

set_option maxHeartbeats 3200000 in
/-- Running `array_alloc_space_to_push` on an array record at `P + off`
holding (buffer `B`, length `L`, capacity `C`): the length cell becomes
`L + 1`, the capacity cell is unchanged when `(L + 1) * 2 ≤ C` and becomes
`(L + 1) * 2` (with the old `L * esz` bytes copied to a fresh allocation
at the old heap frontier) otherwise, the buffer cell stays `B`, and the
returned value is `B + L * esz`.  Registers `c .. c + 3` are scratch;
everything below `c` survives. -/
theorem array_alloc_space_exec (ps esz c : Nat) (off : Nat)
    (loc : LinearNode) (P B L C : Int) (s : MachineState)
    (hps : 0 < ps)
    (hloc : EvalNode ps s loc (.ok [P] s))
    (hB : s.mem (P + (off : Int)) = some B)
    (hL : s.mem (P + (off : Int) + (ps : Int)) = some L)
    (hC : s.mem (P + (off : Int) + 2 * (ps : Int)) = some C)
    (hLpos : 0 ≤ L)
    (hfresh : P + (off : Int) + 2 * (ps : Int) < s.heapNext) :
    ∃ s', EvalNode ps s (array_alloc_space_to_push loc off esz ps c)
        (.ok [B + L * (esz : Int)] s')
      ∧ s'.vars = s.vars
      ∧ s'.mem (P + (off : Int)) = some B
      ∧ s'.mem (P + (off : Int) + (ps : Int)) = some (L + 1)
      ∧ ((L + 1) * 2 ≤ C →
          s'.mem (P + (off : Int) + 2 * (ps : Int)) = some C
          ∧ s'.heapNext = s.heapNext
          ∧ ∀ a : Int, a ≠ P + (off : Int) + (ps : Int) → s'.mem a = s.mem a)
      ∧ (C < (L + 1) * 2 →
          s'.mem (P + (off : Int) + 2 * (ps : Int)) = some ((L + 1) * 2)
          ∧ s'.heapNext = s.heapNext + (L + 1) * 2 * (esz : Int)
          ∧ (∀ k : Int, 0 ≤ k → k < L * (esz : Int) →
              s'.mem (s.heapNext + k) = s.mem (B + k))
          ∧ ∀ a : Int, a ≠ P + (off : Int) + (ps : Int) →
              a ≠ P + (off : Int) + 2 * (ps : Int) → a < s.heapNext →
              s'.mem a = s.mem a)
      ∧ (∀ r, r < c → s'.regs r = s.regs r) := by
  have e0 : P + ((off : Nat) : Int) + ((0 : Nat) : Int) = P + (off : Int) := by
    push_cast; ring
  have e1 : P + ((off + ps : Nat) : Int) + ((0 : Nat) : Int)
      = P + (off : Int) + (ps : Int) := by
    push_cast; ring
  have e2 : P + ((off + ps + ps : Nat) : Int) + ((0 : Nat) : Int)
      = P + (off : Int) + 2 * (ps : Int) := by
    push_cast; ring
  have hLr : readSlots s.mem (P + ((off + ps : Nat) : Int)) [0]
      = some [L] := by
    simp only [readSlots, e1, hL]; rfl
  have hCr : readSlots s.mem (P + ((off + ps + ps : Nat) : Int)) [0]
      = some [C] := by
    simp only [readSlots, e2, hC]; rfl
  have hBr : readSlots s.mem (P + ((off : Nat) : Int)) [0] = some [B] := by
    simp only [readSlots, e0, hB]; rfl
  set g1 := setReg s.regs c (some P) with hg1
  set s1 : MachineState := { s with regs := g1 } with hs1
  set g2 := setReg g1 (c + 1) (some L) with hg2
  set s2 : MachineState := { s with regs := g2 } with hs2
  have h1 : EvalNode ps s (LinearNode.write_register c loc) (.ok [] s1) :=
    evalWriteReg ps c hloc
  have hs1c : s1.regs c = some P := by simp [hs1, hg1, setReg]
  have h2 : EvalNode ps s1
      (LinearNode.write_register (c + 1)
        (LinearNode.read_memory (LinearNode.read_register c) (off + ps)
          (.Primitive .PointerSize)))
      (.ok [] s2) :=
    evalWriteReg ps (c + 1)
      (evalReadMem ps (off + ps) (.Primitive .PointerSize)
        (evalReadReg ps c hs1c) rfl hLr)
  have hs2c : s2.regs c = some P := by simp [hs2, hg2, hg1, setReg]
  have hs2l : s2.regs (c + 1) = some L := by simp [hs2, hg2, setReg]
  have hcmp : EvalNode ps s2
      (LinearNode.ptr_comparison .GreaterThan
        (LinearNode.ptr_arithmetic .Multiply
          (LinearNode.ptr_arithmetic .Add
            (LinearNode.read_register (c + 1)) (LinearNode.size 1))
          (LinearNode.size 2))
        (LinearNode.read_memory (LinearNode.read_register c)
          (off + ps + ps) (.Primitive .PointerSize)))
      (.ok [cmp_eval .GreaterThan ((L + 1) * 2) C] s2) :=
    evalCmp ps .GreaterThan .PointerSize
      (evalArith ps .Multiply .PointerSize
        (evalArith ps .Add .PointerSize (evalReadReg ps (c + 1) hs2l)
          (evalSize ps s2 1))
        (evalSize ps s2 2))
      (evalReadMem ps (off + ps + ps) (.Primitive .PointerSize)
        (evalReadReg ps c hs2c) rfl hCr)
  rcases le_or_lt ((L + 1) * 2) C with hle | hltC
  · -- capacity suffices: no realloc
    have h3 : EvalNode ps s2
        (LinearNode.if_node
          (LinearNode.ptr_comparison .GreaterThan
            (LinearNode.ptr_arithmetic .Multiply
              (LinearNode.ptr_arithmetic .Add
                (LinearNode.read_register (c + 1)) (LinearNode.size 1))
              (LinearNode.size 2))
            (LinearNode.read_memory (LinearNode.read_register c)
              (off + ps + ps) (.Primitive .PointerSize)))
          [LinearNode.write_register (c + 2)
            (LinearNode.ptr_arithmetic .Multiply
              (LinearNode.ptr_arithmetic .Add
                (LinearNode.read_register (c + 1)) (LinearNode.size 1))
              (LinearNode.size 2)),
           LinearNode.write_register (c + 3)
            (LinearNode.heap_alloc_var (LinearNode.ptr_arithmetic .Multiply
              (LinearNode.read_register (c + 2)) (LinearNode.size esz))),
           .RuntimeCall .Memcpy [
            LinearNode.read_register (c + 3),
            LinearNode.read_memory (LinearNode.read_register c) off
              (.Primitive .PointerSize),
            LinearNode.ptr_arithmetic .Multiply
              (LinearNode.read_register (c + 1)) (LinearNode.size esz)],
           LinearNode.write_memory (LinearNode.read_register c)
            (off + ps + ps) (.Primitive .PointerSize)
            (LinearNode.read_register (c + 2))]
          none)
        (.ok [] s2) :=
      evalIfFalseNone ps _ hcmp (by simp [cmp_eval]; omega)
    set mA := writeSlots s.mem (P + ((off + ps : Nat) : Int)) [0] [L + 1]
      with hmA
    set s4A : MachineState := { s with regs := g2, mem := mA } with hs4A
    have h4 : EvalNode ps s2
        (LinearNode.write_memory (LinearNode.read_register c) (off + ps)
          (.Primitive .PointerSize)
          (LinearNode.ptr_arithmetic .Add
            (LinearNode.read_register (c + 1)) (LinearNode.size 1)))
        (.ok [] s4A) :=
      evalWriteMem ps (off + ps) (.Primitive .PointerSize)
        (evalReadReg ps c hs2c)
        (evalArith ps .Add .PointerSize (evalReadReg ps (c + 1) hs2l)
          (evalSize ps s2 1))
        rfl rfl
    have hs4c : s4A.regs c = some P := by simp [hs4A, hg2, hg1, setReg]
    have hs4l : s4A.regs (c + 1) = some L := by simp [hs4A, hg2, setReg]
    have hM4B : readSlots s4A.mem (P + ((off : Nat) : Int)) [0]
        = some [B] := by
      simp only [hs4A, hmA]
      simp only [readSlots, writeSlots]
      rw [setMem_other _ _ (by push_cast; omega), e0, hB]
      rfl
    have h5 : EvalNode ps s4A
        (LinearNode.ptr_arithmetic .Add
          (LinearNode.read_memory (LinearNode.read_register c) off
            (.Primitive .PointerSize))
          (LinearNode.ptr_arithmetic .Multiply
            (LinearNode.read_register (c + 1)) (LinearNode.size esz)))
        (.ok [B + L * (esz : Int)] s4A) :=
      evalArith ps .Add .PointerSize
        (evalReadMem ps off (.Primitive .PointerSize)
          (evalReadReg ps c hs4c) rfl hM4B)
        (evalArith ps .Multiply .PointerSize (evalReadReg ps (c + 1) hs4l)
          (evalSize ps s4A esz))
    set gK1 := setReg g2 c none with hgK1
    set gK2 := setReg gK1 (c + 1) none with hgK2
    set gK3 := setReg gK2 (c + 2) none with hgK3
    set gK4 := setReg gK3 (c + 3) none with hgK4
    have h6 : EvalNode ps s4A (LinearNode.kill_register c)
        (.ok [] { s with regs := gK1, mem := mA }) :=
      evalKillReg ps s4A c
    have h7 : EvalNode ps { s with regs := gK1, mem := mA }
        (LinearNode.kill_register (c + 1))
        (.ok [] { s with regs := gK2, mem := mA }) :=
      evalKillReg ps _ (c + 1)
    have h8 : EvalNode ps { s with regs := gK2, mem := mA }
        (LinearNode.kill_register (c + 2))
        (.ok [] { s with regs := gK3, mem := mA }) :=
      evalKillReg ps _ (c + 2)
    have h9 : EvalNode ps { s with regs := gK3, mem := mA }
        (LinearNode.kill_register (c + 3))
        (.ok [] { s with regs := gK4, mem := mA }) :=
      evalKillReg ps _ (c + 3)
    have D := evalSeq ps (evalCons ps h1 (evalCons ps h2 (evalCons ps h3
      (evalCons ps h4 (evalCons ps h5 (evalCons ps h6 (evalCons ps h7
        (evalCons ps h8 (evalCons ps h9 (evalNil ps _))))))))))
    refine ⟨{ s with regs := gK4, mem := mA }, by simpa using D, rfl,
      ?_, ?_, ?_, ?_, ?_⟩
    · show mA (P + (off : Int)) = some B
      rw [hmA]
      simp only [writeSlots]
      rw [setMem_other _ _ (by push_cast; omega), hB]
    · show mA (P + (off : Int) + (ps : Int)) = some (L + 1)
      rw [hmA]
      simp only [writeSlots, e1]
      rw [setMem_same]
    · intro _
      refine ⟨?_, rfl, ?_⟩
      · show mA (P + (off : Int) + 2 * (ps : Int)) = some C
        rw [hmA]
        simp only [writeSlots]
        rw [setMem_other _ _ (by push_cast; omega), hC]
      · intro a ha
        show mA a = s.mem a
        rw [hmA]
        simp only [writeSlots]
        rw [setMem_other _ _ (by push_cast; push_cast at ha; omega)]
    · intro hcon
      omega
    · intro r hr
      show gK4 r = s.regs r
      rw [hgK4, hgK3, hgK2, hgK1, hg2, hg1]
      simp only [setReg]
      iterate 6 rw [if_neg (by omega)]
  · -- must realloc
    set g3 := setReg g2 (c + 2) (some ((L + 1) * 2)) with hg3
    set s3 : MachineState := { s with regs := g3 } with hs3
    have m1 : EvalNode ps s2
        (LinearNode.write_register (c + 2)
          (LinearNode.ptr_arithmetic .Multiply
            (LinearNode.ptr_arithmetic .Add
              (LinearNode.read_register (c + 1)) (LinearNode.size 1))
            (LinearNode.size 2)))
        (.ok [] s3) :=
      evalWriteReg ps (c + 2)
        (evalArith ps .Multiply .PointerSize
          (evalArith ps .Add .PointerSize (evalReadReg ps (c + 1) hs2l)
            (evalSize ps s2 1))
          (evalSize ps s2 2))
    have hs3x : s3.regs (c + 2) = some ((L + 1) * 2) := by
      simp [hs3, hg3, setReg]
    set g4 := setReg g3 (c + 3) (some s.heapNext) with hg4
    set HN := s.heapNext + (L + 1) * 2 * (esz : Int) with hHN
    set s4 : MachineState := { s with regs := g4, heapNext := HN } with hs4
    have m2 : EvalNode ps s3
        (LinearNode.write_register (c + 3)
          (LinearNode.heap_alloc_var (LinearNode.ptr_arithmetic .Multiply
            (LinearNode.read_register (c + 2)) (LinearNode.size esz))))
        (.ok [] s4) :=
      evalWriteReg ps (c + 3)
        (EvalNode.alloc
          (evalArith ps .Multiply .PointerSize (evalReadReg ps (c + 2) hs3x)
            (evalSize ps s3 esz))
          (mul_nonneg (mul_nonneg (by omega) (by norm_num))
            (Int.natCast_nonneg esz)))
    have hs4c : s4.regs c = some P := by simp [hs4, hg4, hg3, hg2, hg1, setReg]
    have hs4l : s4.regs (c + 1) = some L := by simp [hs4, hg4, hg3, hg2, setReg]
    have hs4x : s4.regs (c + 2) = some ((L + 1) * 2) := by
      simp [hs4, hg4, hg3, setReg]
    have hs4b : s4.regs (c + 3) = some s.heapNext := by simp [hs4, hg4, setReg]
    set mCopy := copyRange s.mem s.heapNext B (L * (esz : Int)) with hmCopy
    set s5 : MachineState := { s with
      regs := g4, mem := mCopy, heapNext := HN } with hs5
    have m3 : EvalNode ps s4
        (.RuntimeCall .Memcpy [
          LinearNode.read_register (c + 3),
          LinearNode.read_memory (LinearNode.read_register c) off
            (.Primitive .PointerSize),
          LinearNode.ptr_arithmetic .Multiply
            (LinearNode.read_register (c + 1)) (LinearNode.size esz)])
        (.ok [] s5) :=
      EvalNode.memcpy (evalReadReg ps (c + 3) hs4b)
        (evalReadMem ps off (.Primitive .PointerSize)
          (evalReadReg ps c hs4c) rfl hBr)
        (evalArith ps .Multiply .PointerSize (evalReadReg ps (c + 1) hs4l)
          (evalSize ps s4 esz))
        (mul_nonneg hLpos (Int.natCast_nonneg esz))
    have hs5c : s5.regs c = some P := by simp [hs5, hg4, hg3, hg2, hg1, setReg]
    have hs5l : s5.regs (c + 1) = some L := by simp [hs5, hg4, hg3, hg2, setReg]
    have hs5x : s5.regs (c + 2) = some ((L + 1) * 2) := by
      simp [hs5, hg4, hg3, setReg]
    set mCap := writeSlots mCopy (P + ((off + ps + ps : Nat) : Int)) [0]
      [(L + 1) * 2] with hmCap
    set s6 : MachineState := { s with
      regs := g4, mem := mCap, heapNext := HN } with hs6
    have m4 : EvalNode ps s5
        (LinearNode.write_memory (LinearNode.read_register c)
          (off + ps + ps) (.Primitive .PointerSize)
          (LinearNode.read_register (c + 2)))
        (.ok [] s6) :=
      evalWriteMem ps (off + ps + ps) (.Primitive .PointerSize)
        (evalReadReg ps c hs5c) (evalReadReg ps (c + 2) hs5x) rfl rfl
    have hthen : EvalList ps s2
        [LinearNode.write_register (c + 2)
          (LinearNode.ptr_arithmetic .Multiply
            (LinearNode.ptr_arithmetic .Add
              (LinearNode.read_register (c + 1)) (LinearNode.size 1))
            (LinearNode.size 2)),
         LinearNode.write_register (c + 3)
          (LinearNode.heap_alloc_var (LinearNode.ptr_arithmetic .Multiply
            (LinearNode.read_register (c + 2)) (LinearNode.size esz))),
         .RuntimeCall .Memcpy [
          LinearNode.read_register (c + 3),
          LinearNode.read_memory (LinearNode.read_register c) off
            (.Primitive .PointerSize),
          LinearNode.ptr_arithmetic .Multiply
            (LinearNode.read_register (c + 1)) (LinearNode.size esz)],
         LinearNode.write_memory (LinearNode.read_register c)
          (off + ps + ps) (.Primitive .PointerSize)
          (LinearNode.read_register (c + 2))]
        (.ok [] s6) :=
      evalCons ps m1 (evalCons ps m2 (evalCons ps m3
        (evalCons ps m4 (evalNil ps s6))))
    have h3 := evalIfTrue ps none hcmp (by simp [cmp_eval]; omega) hthen
    have hs6c : s6.regs c = some P := by simp [hs6, hg4, hg3, hg2, hg1, setReg]
    have hs6l : s6.regs (c + 1) = some L := by simp [hs6, hg4, hg3, hg2, setReg]
    set mLen := writeSlots mCap (P + ((off + ps : Nat) : Int)) [0] [L + 1]
      with hmLen
    set s7 : MachineState := { s with
      regs := g4, mem := mLen, heapNext := HN } with hs7
    have h4 : EvalNode ps s6
        (LinearNode.write_memory (LinearNode.read_register c) (off + ps)
          (.Primitive .PointerSize)
          (LinearNode.ptr_arithmetic .Add
            (LinearNode.read_register (c + 1)) (LinearNode.size 1)))
        (.ok [] s7) :=
      evalWriteMem ps (off + ps) (.Primitive .PointerSize)
        (evalReadReg ps c hs6c)
        (evalArith ps .Add .PointerSize (evalReadReg ps (c + 1) hs6l)
          (evalSize ps s6 1))
        rfl rfl
    have hs7c : s7.regs c = some P := by simp [hs7, hg4, hg3, hg2, hg1, setReg]
    have hs7l : s7.regs (c + 1) = some L := by simp [hs7, hg4, hg3, hg2, setReg]
    have hM7B : readSlots s7.mem (P + ((off : Nat) : Int)) [0]
        = some [B] := by
      simp only [hs7, hmLen, hmCap, hmCopy]
      simp only [readSlots, writeSlots]
      rw [setMem_other _ _ (by push_cast; omega),
        setMem_other _ _ (by push_cast; omega)]
      simp only [copyRange]
      rw [if_neg (fun hcon => absurd hcon.1 (by push_cast; omega)), e0, hB]
      rfl
    have h5 : EvalNode ps s7
        (LinearNode.ptr_arithmetic .Add
          (LinearNode.read_memory (LinearNode.read_register c) off
            (.Primitive .PointerSize))
          (LinearNode.ptr_arithmetic .Multiply
            (LinearNode.read_register (c + 1)) (LinearNode.size esz)))
        (.ok [B + L * (esz : Int)] s7) :=
      evalArith ps .Add .PointerSize
        (evalReadMem ps off (.Primitive .PointerSize)
          (evalReadReg ps c hs7c) rfl hM7B)
        (evalArith ps .Multiply .PointerSize (evalReadReg ps (c + 1) hs7l)
          (evalSize ps s7 esz))
    set gB5 := setReg g4 c none with hgB5
    set gB6 := setReg gB5 (c + 1) none with hgB6
    set gB7 := setReg gB6 (c + 2) none with hgB7
    set gB8 := setReg gB7 (c + 3) none with hgB8
    have h6 : EvalNode ps s7 (LinearNode.kill_register c)
        (.ok [] { s with regs := gB5, mem := mLen, heapNext := HN }) :=
      evalKillReg ps s7 c
    have h7 : EvalNode ps { s with regs := gB5, mem := mLen, heapNext := HN }
        (LinearNode.kill_register (c + 1))
        (.ok [] { s with regs := gB6, mem := mLen, heapNext := HN }) :=
      evalKillReg ps _ (c + 1)
    have h8 : EvalNode ps { s with regs := gB6, mem := mLen, heapNext := HN }
        (LinearNode.kill_register (c + 2))
        (.ok [] { s with regs := gB7, mem := mLen, heapNext := HN }) :=
      evalKillReg ps _ (c + 2)
    have h9 : EvalNode ps { s with regs := gB7, mem := mLen, heapNext := HN }
        (LinearNode.kill_register (c + 3))
        (.ok [] { s with regs := gB8, mem := mLen, heapNext := HN }) :=
      evalKillReg ps _ (c + 3)
    have D := evalSeq ps (evalCons ps h1 (evalCons ps h2 (evalCons ps h3
      (evalCons ps h4 (evalCons ps h5 (evalCons ps h6 (evalCons ps h7
        (evalCons ps h8 (evalCons ps h9 (evalNil ps _))))))))))
    refine ⟨{ s with regs := gB8, mem := mLen, heapNext := HN },
      by simpa using D, rfl, ?_, ?_, ?_, ?_, ?_⟩
    · show mLen (P + (off : Int)) = some B
      rw [hmLen, hmCap, hmCopy]
      simp only [writeSlots]
      rw [setMem_other _ _ (by push_cast; omega),
        setMem_other _ _ (by push_cast; omega)]
      simp only [copyRange]
      rw [if_neg (fun hcon => absurd hcon.1 (by push_cast; omega)), hB]
    · show mLen (P + (off : Int) + (ps : Int)) = some (L + 1)
      rw [hmLen]
      simp only [writeSlots, e1]
      rw [setMem_same]
    · intro hcon
      omega
    · intro _
      refine ⟨?_, rfl, ?_, ?_⟩
      · show mLen (P + (off : Int) + 2 * (ps : Int)) = some ((L + 1) * 2)
        rw [hmLen, hmCap]
        simp only [writeSlots, e1, e2]
        rw [setMem_other _ _ (by push_cast; omega), setMem_same]
      · intro k hk0 hk2
        show mLen (s.heapNext + k) = s.mem (B + k)
        rw [hmLen, hmCap, hmCopy]
        simp only [writeSlots]
        rw [setMem_other _ _ (by push_cast; omega),
          setMem_other _ _ (by push_cast; omega)]
        simp only [copyRange]
        rw [if_pos ⟨by linarith, by linarith⟩]
        congr 1
        ring
      · intro a ha1 ha2 halow
        show mLen a = s.mem a
        rw [hmLen, hmCap, hmCopy]
        simp only [writeSlots]
        rw [setMem_other _ _ (by push_cast; push_cast at ha1; omega),
          setMem_other _ _ (by push_cast; push_cast at ha2; omega)]
        simp only [copyRange]
        rw [if_neg (fun hcon => absurd hcon.1 (by omega))]
    · intro r hr
      show gB8 r = s.regs r
      rw [hgB8, hgB7, hgB6, hgB5, hg4, hg3, hg2, hg1]
      simp only [setReg]
      iterate 8 rw [if_neg (by omega)]

/-! ## Claim C4: Array push -/

/-- C4: executing the lowered Array `push` on an array record (buffer `B`,
length `L`, capacity `C`) bumps the length cell to `L + 1`; the capacity
cell is unchanged when `(L + 1) * 2 ≤ C` and becomes `(L + 1) * 2` with
the old `L * esz` buffer bytes copied into a fresh allocation otherwise;
and the pushed value is written at `buffer + L * esz`. -/
theorem array_push_semantics (ps esz c : Nat) (off : Nat)
    (loc inserted : LinearNode) (elem_ty : PhysicalType)
    (P B L C V : Int) (s : MachineState)
    (hps : 0 < ps) (hesz : 0 < esz)
    (hty : type_slots elem_ty ps = some [0])
    (hloc : ∀ t, EvalNode ps t loc (.ok [P] t))
    (hins : ∀ t, EvalNode ps t inserted (.ok [V] t))
    (hB : s.mem (P + (off : Int)) = some B)
    (hL : s.mem (P + (off : Int) + (ps : Int)) = some L)
    (hC : s.mem (P + (off : Int) + 2 * (ps : Int)) = some C)
    (hLpos : 0 ≤ L)
    (hhdr : P + (off : Int) + 2 * (ps : Int) < B)
    (hbuf : B + (L + 1) * (esz : Int) ≤ s.heapNext) :
    ∃ s', EvalNode ps s
        (lower_array_push loc off elem_ty esz inserted ps c) (.ok [] s')
      ∧ s'.mem (P + (off : Int) + (ps : Int)) = some (L + 1)
      ∧ s'.mem (B + L * (esz : Int)) = some V
      ∧ ((L + 1) * 2 ≤ C →
          s'.mem (P + (off : Int) + 2 * (ps : Int)) = some C)
      ∧ (C < (L + 1) * 2 →
          s'.mem (P + (off : Int) + 2 * (ps : Int)) = some ((L + 1) * 2)
          ∧ ∀ k : Int, 0 ≤ k → k < L * (esz : Int) →
              s'.mem (s.heapNext + k) = s.mem (B + k)) := by
  have hezpos : (0 : Int) < (esz : Int) := by exact_mod_cast hesz
  have hprod : (0 : Int) < (L + 1) * (esz : Int) := mul_pos (by omega) hezpos
  have hfresh : P + (off : Int) + 2 * (ps : Int) < s.heapNext := by linarith
  obtain ⟨s1, hD, hvars, hBc, hLc, hNoR, hR, hregs⟩ :=
    array_alloc_space_exec ps esz c off loc P B L C s hps (hloc s) hB hL hC
      hLpos hfresh
  have hw := evalWriteMem ps 0 elem_ty hD (hins s1) hty rfl
  have hLmul : (0 : Int) ≤ L * (esz : Int) :=
    mul_nonneg hLpos hezpos.le
  have hring : (L + 1) * (esz : Int) = L * (esz : Int) + (esz : Int) := by
    ring
  refine ⟨_, hw, ?_, ?_, ?_, ?_⟩
  · show writeSlots s1.mem (B + L * (esz : Int) + ((0 : Nat) : Int)) [0] [V]
      (P + (off : Int) + (ps : Int)) = some (L + 1)
    simp only [writeSlots]
    rw [setMem_other _ _ (by
      intro hcon
      push_cast at hcon
      linarith [hLmul, Int.natCast_nonneg ps])]
    exact hLc
  · show writeSlots s1.mem (B + L * (esz : Int) + ((0 : Nat) : Int)) [0] [V]
      (B + L * (esz : Int)) = some V
    simp only [writeSlots]
    rw [show B + L * (esz : Int) + ((0 : Nat) : Int) + ((0 : Nat) : Int)
      = B + L * (esz : Int) from by push_cast; ring]
    rw [setMem_same]
  · intro hcase
    show writeSlots s1.mem (B + L * (esz : Int) + ((0 : Nat) : Int)) [0] [V]
      (P + (off : Int) + 2 * (ps : Int)) = some C
    simp only [writeSlots]
    rw [setMem_other _ _ (by
      intro hcon
      push_cast at hcon
      linarith [hLmul])]
    exact (hNoR hcase).1
  · intro hcase
    obtain ⟨hcap, _, hcopy, _⟩ := hR hcase
    constructor
    · show writeSlots s1.mem (B + L * (esz : Int) + ((0 : Nat) : Int)) [0]
        [V] (P + (off : Int) + 2 * (ps : Int)) = some ((L + 1) * 2)
      simp only [writeSlots]
      rw [setMem_other _ _ (by
        intro hcon
        push_cast at hcon
        linarith [hLmul])]
      exact hcap
    · intro k hk0 hk2
      show writeSlots s1.mem (B + L * (esz : Int) + ((0 : Nat) : Int)) [0]
        [V] (s.heapNext + k) = s.mem (B + k)
      simp only [writeSlots]
      rw [setMem_other _ _ (by
        intro hcon
        push_cast at hcon
        linarith [hring, hezpos])]
      exact hcopy k hk0 hk2

/-- Witness for C4's theorem: an array record at address 100 with buffer
200, length 1, capacity 4 and a pushed Int64 value 7, pointer size 8,
element size 4, registers from 20. -/
theorem array_push_semantics_witness :
    ∃ s', EvalNode 8
        ⟨fun _ => none, fun _ => none,
          fun a => if a = 100 then some 200 else if a = 108 then some 1
            else if a = 116 then some 4 else none, 1000⟩
        (lower_array_push (.IntLit 100) 0 (.Primitive .Int64) 4 (.IntLit 7)
          8 20) (.ok [] s')
      ∧ s'.mem (100 + ((0 : Nat) : Int) + ((8 : Nat) : Int)) = some (1 + 1)
      ∧ s'.mem (200 + 1 * ((4 : Nat) : Int)) = some 7
      ∧ (((1 : Int) + 1) * 2 ≤ 4 →
          s'.mem (100 + ((0 : Nat) : Int) + 2 * ((8 : Nat) : Int)) = some 4)
      ∧ ((4 : Int) < (1 + 1) * 2 →
          s'.mem (100 + ((0 : Nat) : Int) + 2 * ((8 : Nat) : Int))
            = some ((1 + 1) * 2)
          ∧ ∀ k : Int, 0 ≤ k → k < 1 * ((4 : Nat) : Int) →
              s'.mem (1000 + k)
                = (⟨fun _ => none, fun _ => none,
                    fun a => if a = 100 then some 200
                      else if a = 108 then some 1
                      else if a = 116 then some 4 else none, 1000⟩
                  : MachineState).mem (200 + k)) :=
  array_push_semantics 8 4 20 0 (.IntLit 100) (.IntLit 7)
    (.Primitive .Int64) 100 200 1 4 7
    ⟨fun _ => none, fun _ => none,
      fun a => if a = 100 then some 200 else if a = 108 then some 1
        else if a = 116 then some 4 else none, 1000⟩
    (by norm_num) (by norm_num) rfl
    (fun t => EvalNode.intlit t 100) (fun t => EvalNode.intlit t 7)
    (by norm_num) (by norm_num) (by norm_num) (by norm_num) (by norm_num)
    (by norm_num)

/-! ## Claim C7: Dict insert — the probe loop -/

/-- The body of `dict_get_entry_for_key`'s probe loop, abstracted over its
four register ids (`e` = entry pointer output, `k` = key pointer, `l` =
dict length, `i` = index). -/
def dict_probe_body (e k l i koff : Nat) (kt : PhysicalPrimitive)
    (esz : Nat) : List LinearNode :=
  [LinearNode.if_node
    (.Comparison .EqualTo kt
      (LinearNode.read_memory (LinearNode.read_register e) 0
        (.Primitive kt))
      (LinearNode.read_memory (LinearNode.read_register k) koff
        (.Primitive kt)))
    [.Byte 1, .Break]
    none,
   LinearNode.write_register i
    (LinearNode.ptr_arithmetic .Add
      (LinearNode.read_register i) (LinearNode.size 1)),
   LinearNode.write_register e
    (LinearNode.ptr_arithmetic .Add
      (LinearNode.read_register e) (LinearNode.size esz)),
   LinearNode.if_node
    (LinearNode.ptr_comparison .EqualTo
      (LinearNode.read_register l) (LinearNode.read_register i))
    [.Byte 0, .Break]
    none]

/-- `dict_get_entry_for_key`'s loop is `dict_probe_body` at registers
`entry_pointer_output`, `c`, `c + 1`, `c + 2`. -/
theorem dict_get_entry_for_key_eq (dict_pointer key_location : LinearNode)
    (key_offset : Nat) (key_ty : PhysicalPrimitive) (entry_size : Nat)
    (e c : Nat) :
    dict_get_entry_for_key dict_pointer key_location key_offset key_ty
      entry_size e c
    = .Sequence [
        LinearNode.write_register c key_location,
        LinearNode.write_multi_register dict_pointer
          [some e, some (c + 1), none],
        LinearNode.write_register (c + 2) (LinearNode.size 0),
        .Loop (dict_probe_body e c (c + 1) (c + 2) key_offset key_ty
          entry_size),
        LinearNode.kill_register c,
        LinearNode.kill_register (c + 1),
        LinearNode.kill_register (c + 2)] := rfl

/-- One non-final probe iteration: the entry's key differs from the
sought key and the incremented index has not reached the length, so the
body completes normally having bumped the index and entry registers. -/
theorem probe_body_step (ps koff esz : Nat) (kt : PhysicalPrimitive)
    (e k l i : Nat) (j : Nat) (s : MachineState) (A B K n km : Int)
    (hek : e ≠ k) (hel : e ≠ l) (hei : e ≠ i) (hkl : k ≠ l) (hki : k ≠ i)
    (hli : l ≠ i)
    (hre : s.regs e = some (B + (j : Int) * (esz : Int)))
    (hrk : s.regs k = some A)
    (hrl : s.regs l = some n)
    (hri : s.regs i = some (j : Int))
    (hkey : s.mem (A + (koff : Int)) = some K)
    (hentry : s.mem (B + (j : Int) * (esz : Int)) = some km)
    (hne : km ≠ K)
    (hn : n ≠ (j : Int) + 1) :
    EvalList ps s (dict_probe_body e k l i koff kt esz)
      (.ok [] { s with
        regs := setReg (setReg s.regs i (some ((j : Int) + 1))) e
          (some (B + (j : Int) * (esz : Int) + (esz : Int))) }) := by
  have hEr : readSlots s.mem (B + (j : Int) * (esz : Int)
      + ((0 : Nat) : Int)) [0] = some [km] := by
    simp only [readSlots]
    rw [show B + (j : Int) * (esz : Int) + ((0 : Nat) : Int)
      + ((0 : Nat) : Int) = B + (j : Int) * (esz : Int) from by
        push_cast; ring]
    rw [hentry]; rfl
  have hKr : readSlots s.mem (A + ((koff : Nat) : Int)) [0]
      = some [K] := by
    simp only [readSlots]
    rw [show A + ((koff : Nat) : Int) + ((0 : Nat) : Int)
      = A + (koff : Int) from by push_cast; ring]
    rw [hkey]; rfl
  have hcond1 : EvalNode ps s
      (.Comparison .EqualTo kt
        (LinearNode.read_memory (LinearNode.read_register e) 0
          (.Primitive kt))
        (LinearNode.read_memory (LinearNode.read_register k) koff
          (.Primitive kt)))
      (.ok [cmp_eval .EqualTo km K] s) :=
    evalCmp ps .EqualTo kt
      (evalReadMem ps 0 (.Primitive kt) (evalReadReg ps e hre) rfl hEr)
      (evalReadMem ps koff (.Primitive kt) (evalReadReg ps k hrk) rfl hKr)
  have hIf1 : EvalNode ps s
      (LinearNode.if_node
        (.Comparison .EqualTo kt
          (LinearNode.read_memory (LinearNode.read_register e) 0
            (.Primitive kt))
          (LinearNode.read_memory (LinearNode.read_register k) koff
            (.Primitive kt)))
        [.Byte 1, .Break] none)
      (.ok [] s) :=
    evalIfFalseNone ps [.Byte 1, .Break] hcond1 (by simp [cmp_eval, hne])
  have hw1 : EvalNode ps s
      (LinearNode.write_register i
        (LinearNode.ptr_arithmetic .Add
          (LinearNode.read_register i) (LinearNode.size 1)))
      (.ok [] { s with regs := setReg s.regs i (some ((j : Int) + 1)) }) :=
    evalWriteReg ps i
      (evalArith ps .Add .PointerSize (evalReadReg ps i hri)
        (evalSize ps s 1))
  have hre1 : ({ s with regs := setReg s.regs i (some ((j : Int) + 1)) }
      : MachineState).regs e = some (B + (j : Int) * (esz : Int)) := by
    show setReg s.regs i (some ((j : Int) + 1)) e = _
    rw [setReg_other _ _ hei, hre]
  have hw2 : EvalNode ps
      { s with regs := setReg s.regs i (some ((j : Int) + 1)) }
      (LinearNode.write_register e
        (LinearNode.ptr_arithmetic .Add
          (LinearNode.read_register e) (LinearNode.size esz)))
      (.ok [] { s with
        regs := setReg (setReg s.regs i (some ((j : Int) + 1))) e
          (some (B + (j : Int) * (esz : Int) + (esz : Int))) }) :=
    evalWriteReg ps e
      (evalArith ps .Add .PointerSize (evalReadReg ps e hre1)
        (evalSize ps _ esz))
  have hrl2 : ({ s with
      regs := setReg (setReg s.regs i (some ((j : Int) + 1))) e
        (some (B + (j : Int) * (esz : Int) + (esz : Int))) }
      : MachineState).regs l = some n := by
    show setReg (setReg s.regs i (some ((j : Int) + 1))) e _ l = _
    rw [setReg_other _ _ (Ne.symm hel), setReg_other _ _ hli, hrl]
  have hri2 : ({ s with
      regs := setReg (setReg s.regs i (some ((j : Int) + 1))) e
        (some (B + (j : Int) * (esz : Int) + (esz : Int))) }
      : MachineState).regs i = some ((j : Int) + 1) := by
    show setReg (setReg s.regs i (some ((j : Int) + 1))) e _ i = _
    rw [setReg_other _ _ (Ne.symm hei), setReg_same]
  have hIf2 : EvalNode ps
      { s with
        regs := setReg (setReg s.regs i (some ((j : Int) + 1))) e
          (some (B + (j : Int) * (esz : Int) + (esz : Int))) }
      (LinearNode.if_node
        (LinearNode.ptr_comparison .EqualTo
          (LinearNode.read_register l) (LinearNode.read_register i))
        [.Byte 0, .Break] none)
      (.ok [] { s with
        regs := setReg (setReg s.regs i (some ((j : Int) + 1))) e
          (some (B + (j : Int) * (esz : Int) + (esz : Int))) }) :=
    evalIfFalseNone ps [.Byte 0, .Break]
      (evalCmp ps .EqualTo .PointerSize (evalReadReg ps l hrl2)
        (evalReadReg ps i hri2))
      (by simp [cmp_eval, hn])
  have D := evalCons ps hIf1 (evalCons ps hw1 (evalCons ps hw2
    (evalCons ps hIf2 (evalNil ps _))))
  simpa [dict_probe_body] using D

/-- The probe iteration that finds the key: the body breaks out pushing
the found flag `1`, leaving the registers as they are. -/
theorem probe_body_found (ps koff esz : Nat) (kt : PhysicalPrimitive)
    (e k l i : Nat) (j : Nat) (s : MachineState) (A B K : Int)
    (hre : s.regs e = some (B + (j : Int) * (esz : Int)))
    (hrk : s.regs k = some A)
    (hkey : s.mem (A + (koff : Int)) = some K)
    (hentry : s.mem (B + (j : Int) * (esz : Int)) = some K) :
    EvalList ps s (dict_probe_body e k l i koff kt esz) (.broke [1] s) := by
  have hEr : readSlots s.mem (B + (j : Int) * (esz : Int)
      + ((0 : Nat) : Int)) [0] = some [K] := by
    simp only [readSlots]
    rw [show B + (j : Int) * (esz : Int) + ((0 : Nat) : Int)
      + ((0 : Nat) : Int) = B + (j : Int) * (esz : Int) from by
        push_cast; ring]
    rw [hentry]; rfl
  have hKr : readSlots s.mem (A + ((koff : Nat) : Int)) [0]
      = some [K] := by
    simp only [readSlots]
    rw [show A + ((koff : Nat) : Int) + ((0 : Nat) : Int)
      = A + (koff : Int) from by push_cast; ring]
    rw [hkey]; rfl
  have hcond1 : EvalNode ps s
      (.Comparison .EqualTo kt
        (LinearNode.read_memory (LinearNode.read_register e) 0
          (.Primitive kt))
        (LinearNode.read_memory (LinearNode.read_register k) koff
          (.Primitive kt)))
      (.ok [cmp_eval .EqualTo K K] s) :=
    evalCmp ps .EqualTo kt
      (evalReadMem ps 0 (.Primitive kt) (evalReadReg ps e hre) rfl hEr)
      (evalReadMem ps koff (.Primitive kt) (evalReadReg ps k hrk) rfl hKr)
  have hbr : EvalList ps s ([.Byte 1, .Break] : List LinearNode)
      (.broke [(1 : Int)] s) := by
    have h0 : EvalList ps s [.Byte 1, .Break]
        (.broke ([((1 : Nat) : Int)] ++ []) s) :=
      EvalList.cons_ok_broke (evalByte ps s 1)
        (EvalList.cons_broke (EvalNode.brk s))
    simpa using h0
  have hIf1 := evalIfTrue ps none hcond1 (by simp [cmp_eval]) hbr
  exact EvalList.cons_broke hIf1

/-- The probe iteration that exhausts the dictionary: the entry's key
differs but the incremented index reaches the length, so the body breaks
out pushing the not-found flag `0`. -/
theorem probe_body_exit (ps koff esz : Nat) (kt : PhysicalPrimitive)
    (e k l i : Nat) (j : Nat) (s : MachineState) (A B K n km : Int)
    (hek : e ≠ k) (hel : e ≠ l) (hei : e ≠ i) (hkl : k ≠ l) (hki : k ≠ i)
    (hli : l ≠ i)
    (hre : s.regs e = some (B + (j : Int) * (esz : Int)))
    (hrk : s.regs k = some A)
    (hrl : s.regs l = some n)
    (hri : s.regs i = some (j : Int))
    (hkey : s.mem (A + (koff : Int)) = some K)
    (hentry : s.mem (B + (j : Int) * (esz : Int)) = some km)
    (hne : km ≠ K)
    (hn : n = (j : Int) + 1) :
    EvalList ps s (dict_probe_body e k l i koff kt esz)
      (.broke [0] { s with
        regs := setReg (setReg s.regs i (some ((j : Int) + 1))) e
          (some (B + (j : Int) * (esz : Int) + (esz : Int))) }) := by
  have hEr : readSlots s.mem (B + (j : Int) * (esz : Int)
      + ((0 : Nat) : Int)) [0] = some [km] := by
    simp only [readSlots]
    rw [show B + (j : Int) * (esz : Int) + ((0 : Nat) : Int)
      + ((0 : Nat) : Int) = B + (j : Int) * (esz : Int) from by
        push_cast; ring]
    rw [hentry]; rfl
  have hKr : readSlots s.mem (A + ((koff : Nat) : Int)) [0]
      = some [K] := by
    simp only [readSlots]
    rw [show A + ((koff : Nat) : Int) + ((0 : Nat) : Int)
      = A + (koff : Int) from by push_cast; ring]
    rw [hkey]; rfl
  have hcond1 : EvalNode ps s
      (.Comparison .EqualTo kt
        (LinearNode.read_memory (LinearNode.read_register e) 0
          (.Primitive kt))
        (LinearNode.read_memory (LinearNode.read_register k) koff
          (.Primitive kt)))
      (.ok [cmp_eval .EqualTo km K] s) :=
    evalCmp ps .EqualTo kt
      (evalReadMem ps 0 (.Primitive kt) (evalReadReg ps e hre) rfl hEr)
      (evalReadMem ps koff (.Primitive kt) (evalReadReg ps k hrk) rfl hKr)
  have hIf1 : EvalNode ps s
      (LinearNode.if_node
        (.Comparison .EqualTo kt
          (LinearNode.read_memory (LinearNode.read_register e) 0
            (.Primitive kt))
          (LinearNode.read_memory (LinearNode.read_register k) koff
            (.Primitive kt)))
        [.Byte 1, .Break] none)
      (.ok [] s) :=
    evalIfFalseNone ps [.Byte 1, .Break] hcond1 (by simp [cmp_eval, hne])
  have hw1 : EvalNode ps s
      (LinearNode.write_register i
        (LinearNode.ptr_arithmetic .Add
          (LinearNode.read_register i) (LinearNode.size 1)))
      (.ok [] { s with regs := setReg s.regs i (some ((j : Int) + 1)) }) :=
    evalWriteReg ps i
      (evalArith ps .Add .PointerSize (evalReadReg ps i hri)
        (evalSize ps s 1))
  have hre1 : ({ s with regs := setReg s.regs i (some ((j : Int) + 1)) }
      : MachineState).regs e = some (B + (j : Int) * (esz : Int)) := by
    show setReg s.regs i (some ((j : Int) + 1)) e = _
    rw [setReg_other _ _ hei, hre]
  have hw2 : EvalNode ps
      { s with regs := setReg s.regs i (some ((j : Int) + 1)) }
      (LinearNode.write_register e
        (LinearNode.ptr_arithmetic .Add
          (LinearNode.read_register e) (LinearNode.size esz)))
      (.ok [] { s with
        regs := setReg (setReg s.regs i (some ((j : Int) + 1))) e
          (some (B + (j : Int) * (esz : Int) + (esz : Int))) }) :=
    evalWriteReg ps e
      (evalArith ps .Add .PointerSize (evalReadReg ps e hre1)
        (evalSize ps _ esz))
  have hrl2 : ({ s with
      regs := setReg (setReg s.regs i (some ((j : Int) + 1))) e
        (some (B + (j : Int) * (esz : Int) + (esz : Int))) }
      : MachineState).regs l = some n := by
    show setReg (setReg s.regs i (some ((j : Int) + 1))) e _ l = _
    rw [setReg_other _ _ (Ne.symm hel), setReg_other _ _ hli, hrl]
  have hri2 : ({ s with
      regs := setReg (setReg s.regs i (some ((j : Int) + 1))) e
        (some (B + (j : Int) * (esz : Int) + (esz : Int))) }
      : MachineState).regs i = some ((j : Int) + 1) := by
    show setReg (setReg s.regs i (some ((j : Int) + 1))) e _ i = _
    rw [setReg_other _ _ (Ne.symm hei), setReg_same]
  have hbr : EvalList ps
      { s with
        regs := setReg (setReg s.regs i (some ((j : Int) + 1))) e
          (some (B + (j : Int) * (esz : Int) + (esz : Int))) }
      ([.Byte 0, .Break] : List LinearNode)
      (.broke [(0 : Int)] { s with
        regs := setReg (setReg s.regs i (some ((j : Int) + 1))) e
          (some (B + (j : Int) * (esz : Int) + (esz : Int))) }) := by
    have h0 : EvalList ps
        { s with
          regs := setReg (setReg s.regs i (some ((j : Int) + 1))) e
            (some (B + (j : Int) * (esz : Int) + (esz : Int))) }
        [.Byte 0, .Break]
        (.broke ([((0 : Nat) : Int)] ++ []) { s with
          regs := setReg (setReg s.regs i (some ((j : Int) + 1))) e
            (some (B + (j : Int) * (esz : Int) + (esz : Int))) }) :=
      EvalList.cons_ok_broke (evalByte ps _ 0)
        (EvalList.cons_broke (EvalNode.brk _))
    simpa using h0
  have hIf2 := evalIfTrue ps none
    (evalCmp ps .EqualTo .PointerSize (evalReadReg ps l hrl2)
      (evalReadReg ps i hri2))
    (by simp [cmp_eval, hn]) hbr
  have D : EvalList ps s (dict_probe_body e k l i koff kt esz)
      (.broke ([] ++ ([] ++ ([] ++ [(0 : Int)]))) { s with
        regs := setReg (setReg s.regs i (some ((j : Int) + 1))) e
          (some (B + (j : Int) * (esz : Int) + (esz : Int))) }) :=
    EvalList.cons_ok_broke hIf1 (EvalList.cons_ok_broke hw1
      (EvalList.cons_ok_broke hw2 (EvalList.cons_broke hIf2)))
  simpa using D

/-- Probe-loop run that finds the key at the `d`-th entry after the
starting index `j0`: yields the found flag `1` with the entry register
left pointing at the matching entry and all other registers (except the
index) untouched. -/
theorem probe_loop_found (ps koff esz : Nat) (kt : PhysicalPrimitive)
    (e k l i : Nat) (A B K n : Int)
    (hek : e ≠ k) (hel : e ≠ l) (hei : e ≠ i) (hkl : k ≠ l) (hki : k ≠ i)
    (hli : l ≠ i) (d : Nat) :
    ∀ (j0 : Nat) (s : MachineState),
    s.regs e = some (B + (j0 : Int) * (esz : Int)) →
    s.regs k = some A →
    s.regs l = some n →
    s.regs i = some (j0 : Int) →
    s.mem (A + (koff : Int)) = some K →
    ((j0 + d : Nat) : Int) < n →
    s.mem (B + ((j0 + d : Nat) : Int) * (esz : Int)) = some K →
    (∀ m : Nat, j0 ≤ m → m < j0 + d →
      ∃ km, s.mem (B + (m : Int) * (esz : Int)) = some km ∧ km ≠ K) →
    ∃ g, EvalNode ps s
        (.Loop (dict_probe_body e k l i koff kt esz))
        (.ok [1] { s with regs := g })
      ∧ g e = some (B + ((j0 + d : Nat) : Int) * (esz : Int))
      ∧ (∀ r, r ≠ e → r ≠ i → g r = s.regs r) := by
  induction d with
  | zero =>
    intro j0 s hre hrk hrl hri hkey hlt hmatch hnom
    refine ⟨s.regs, ?_, by simpa using hre, fun r _ _ => rfl⟩
    exact EvalNode.loop_break (probe_body_found ps koff esz kt e k l i j0 s
      A B K hre hrk hkey (by simpa using hmatch))
  | succ d ih =>
    intro j0 s hre hrk hrl hri hkey hlt hmatch hnom
    obtain ⟨km, hkm, hkmne⟩ := hnom j0 le_rfl (by omega)
    have hstep := probe_body_step ps koff esz kt e k l i j0 s A B K n km
      hek hel hei hkl hki hli hre hrk hrl hri hkey hkm hkmne
      (by push_cast at hlt ⊢; omega)
    have hre2 : (setReg (setReg s.regs i (some ((j0 : Int) + 1))) e
        (some (B + (j0 : Int) * (esz : Int) + (esz : Int)))) e
        = some (B + ((j0 + 1 : Nat) : Int) * (esz : Int)) := by
      rw [setReg_same]
      congr 1
      push_cast
      ring
    have hrk2 : (setReg (setReg s.regs i (some ((j0 : Int) + 1))) e
        (some (B + (j0 : Int) * (esz : Int) + (esz : Int)))) k = some A := by
      rw [setReg_other _ _ (Ne.symm hek), setReg_other _ _ hki, hrk]
    have hrl2 : (setReg (setReg s.regs i (some ((j0 : Int) + 1))) e
        (some (B + (j0 : Int) * (esz : Int) + (esz : Int)))) l = some n := by
      rw [setReg_other _ _ (Ne.symm hel), setReg_other _ _ hli, hrl]
    have hri2 : (setReg (setReg s.regs i (some ((j0 : Int) + 1))) e
        (some (B + (j0 : Int) * (esz : Int) + (esz : Int)))) i
        = some ((j0 + 1 : Nat) : Int) := by
      rw [setReg_other _ _ (Ne.symm hei), setReg_same]
      norm_cast
    obtain ⟨g3, hloop, hge, hgr⟩ := ih (j0 + 1)
      { s with
        regs := setReg (setReg s.regs i (some ((j0 : Int) + 1))) e
          (some (B + (j0 : Int) * (esz : Int) + (esz : Int))) }
      hre2 hrk2 hrl2 hri2 hkey
      (by push_cast at hlt ⊢; omega)
      (by
        have h : j0 + 1 + d = j0 + (d + 1) := by omega
        rw [h]
        exact hmatch)
      (fun m hm1 hm2 => hnom m (by omega) (by omega))
    have D := EvalNode.loop_step hstep hloop
    refine ⟨g3, by simpa using D, ?_, ?_⟩
    · rw [show j0 + (d + 1) = j0 + 1 + d from by omega]
      exact hge
    · intro r hr1 hr2
      rw [hgr r hr1 hr2]
      show setReg (setReg s.regs i (some ((j0 : Int) + 1))) e
        (some (B + (j0 : Int) * (esz : Int) + (esz : Int))) r = s.regs r
      rw [setReg_other _ _ hr1, setReg_other _ _ hr2]

/-- Probe-loop run over a dictionary that does not contain the key:
after scanning the `d + 1` remaining entries the loop yields the
not-found flag `0`, with the entry register one entry past the end. -/
theorem probe_loop_notfound (ps koff esz : Nat) (kt : PhysicalPrimitive)
    (e k l i : Nat) (A B K n : Int)
    (hek : e ≠ k) (hel : e ≠ l) (hei : e ≠ i) (hkl : k ≠ l) (hki : k ≠ i)
    (hli : l ≠ i) (d : Nat) :
    ∀ (j0 : Nat) (s : MachineState),
    s.regs e = some (B + (j0 : Int) * (esz : Int)) →
    s.regs k = some A →
    s.regs l = some n →
    s.regs i = some (j0 : Int) →
    s.mem (A + (koff : Int)) = some K →
    n = ((j0 + d + 1 : Nat) : Int) →
    (∀ m : Nat, j0 ≤ m → m < j0 + d + 1 →
      ∃ km, s.mem (B + (m : Int) * (esz : Int)) = some km ∧ km ≠ K) →
    ∃ g, EvalNode ps s
        (.Loop (dict_probe_body e k l i koff kt esz))
        (.ok [0] { s with regs := g })
      ∧ g e = some (B + ((j0 + d + 1 : Nat) : Int) * (esz : Int))
      ∧ (∀ r, r ≠ e → r ≠ i → g r = s.regs r) := by
  induction d with
  | zero =>
    intro j0 s hre hrk hrl hri hkey hn hnom
    obtain ⟨km, hkm, hkmne⟩ := hnom j0 le_rfl (by omega)
    have hexit := probe_body_exit ps koff esz kt e k l i j0 s A B K n km
      hek hel hei hkl hki hli hre hrk hrl hri hkey hkm hkmne
      (by rw [hn]; push_cast; ring)
    refine ⟨setReg (setReg s.regs i (some ((j0 : Int) + 1))) e
      (some (B + (j0 : Int) * (esz : Int) + (esz : Int))),
      EvalNode.loop_break hexit, ?_, ?_⟩
    · rw [setReg_same]
      congr 1
      push_cast
      ring
    · intro r hr1 hr2
      rw [setReg_other _ _ hr1, setReg_other _ _ hr2]
  | succ d ih =>
    intro j0 s hre hrk hrl hri hkey hn hnom
    obtain ⟨km, hkm, hkmne⟩ := hnom j0 le_rfl (by omega)
    have hstep := probe_body_step ps koff esz kt e k l i j0 s A B K n km
      hek hel hei hkl hki hli hre hrk hrl hri hkey hkm hkmne
      (by rw [hn]; push_cast; omega)
    have hre2 : (setReg (setReg s.regs i (some ((j0 : Int) + 1))) e
        (some (B + (j0 : Int) * (esz : Int) + (esz : Int)))) e
        = some (B + ((j0 + 1 : Nat) : Int) * (esz : Int)) := by
      rw [setReg_same]
      congr 1
      push_cast
      ring
    have hrk2 : (setReg (setReg s.regs i (some ((j0 : Int) + 1))) e
        (some (B + (j0 : Int) * (esz : Int) + (esz : Int)))) k = some A := by
      rw [setReg_other _ _ (Ne.symm hek), setReg_other _ _ hki, hrk]
    have hrl2 : (setReg (setReg s.regs i (some ((j0 : Int) + 1))) e
        (some (B + (j0 : Int) * (esz : Int) + (esz : Int)))) l = some n := by
      rw [setReg_other _ _ (Ne.symm hel), setReg_other _ _ hli, hrl]
    have hri2 : (setReg (setReg s.regs i (some ((j0 : Int) + 1))) e
        (some (B + (j0 : Int) * (esz : Int) + (esz : Int)))) i
        = some ((j0 + 1 : Nat) : Int) := by
      rw [setReg_other _ _ (Ne.symm hei), setReg_same]
      norm_cast
    obtain ⟨g3, hloop, hge, hgr⟩ := ih (j0 + 1)
      { s with
        regs := setReg (setReg s.regs i (some ((j0 : Int) + 1))) e
          (some (B + (j0 : Int) * (esz : Int) + (esz : Int))) }
      hre2 hrk2 hrl2 hri2 hkey
      (by rw [hn]; congr 1; omega)
      (fun m hm1 hm2 => hnom m (by omega) (by omega))
    have D := EvalNode.loop_step hstep hloop
    refine ⟨g3, by simpa using D, ?_, ?_⟩
    · rw [show j0 + (d + 1) = j0 + 1 + d from by omega]
      exact hge
    · intro r hr1 hr2
      rw [hgr r hr1 hr2]
      show setReg (setReg s.regs i (some ((j0 : Int) + 1))) e
        (some (B + (j0 : Int) * (esz : Int) + (esz : Int))) r = s.regs r
      rw [setReg_other _ _ hr1, setReg_other _ _ hr2]

/-- Full run of `dict_get_entry_for_key` when the key sits in entry `j`:
pushes the found flag `1` and leaves a pointer to entry `j` in register
`e`. -/
theorem dict_get_found (ps koff esz : Nat) (kt : PhysicalPrimitive)
    (e c : Nat) (dict_pointer key_location : LinearNode)
    (A B K Cap : Int) (N j : Nat) (s : MachineState)
    (he1 : e ≠ c) (he2 : e ≠ c + 1) (he3 : e ≠ c + 2)
    (hkeyloc : EvalNode ps s key_location (.ok [A] s))
    (hdict : EvalNode ps { s with regs := setReg s.regs c (some A) }
      dict_pointer (.ok [B, (N : Int), Cap]
        { s with regs := setReg s.regs c (some A) }))
    (hkey : s.mem (A + (koff : Int)) = some K)
    (hj : j < N)
    (hmatch : s.mem (B + (j : Int) * (esz : Int)) = some K)
    (hnom : ∀ m : Nat, m < j →
      ∃ km, s.mem (B + (m : Int) * (esz : Int)) = some km ∧ km ≠ K) :
    ∃ g, EvalNode ps s
        (dict_get_entry_for_key dict_pointer key_location koff kt esz e c)
        (.ok [1] { s with regs := g })
      ∧ g e = some (B + (j : Int) * (esz : Int))
      ∧ (∀ r, r ≠ e → r ≠ c → r ≠ c + 1 → r ≠ c + 2 →
          g r = s.regs r) := by
  set g1 := setReg s.regs c (some A) with hg1
  set g2 := setReg (setReg g1 e (some B)) (c + 1) (some (N : Int)) with hg2
  set g3 := setReg g2 (c + 2) (some ((0 : Nat) : Int)) with hg3
  have h1 : EvalNode ps s (LinearNode.write_register c key_location)
      (.ok [] { s with regs := g1 }) :=
    evalWriteReg ps c hkeyloc
  have h2 : EvalNode ps { s with regs := g1 }
      (LinearNode.write_multi_register dict_pointer
        [some e, some (c + 1), none])
      (.ok [] { s with regs := g2 }) :=
    evalWriteSplit ps [some e, some (c + 1), none] hdict rfl
  have h3 : EvalNode ps { s with regs := g2 }
      (LinearNode.write_register (c + 2) (LinearNode.size 0))
      (.ok [] { s with regs := g3 }) :=
    evalWriteReg ps (c + 2) (evalSize ps _ 0)
  have hre : ({ s with regs := g3 } : MachineState).regs e
      = some (B + ((0 : Nat) : Int) * (esz : Int)) := by
    show g3 e = _
    rw [hg3, hg2, hg1, setReg_other _ _ he3, setReg_other _ _ he2,
      setReg_same]
    congr 1
    push_cast
    ring
  have hrk : ({ s with regs := g3 } : MachineState).regs c = some A := by
    show g3 c = _
    rw [hg3, hg2, hg1, setReg_other _ _ (by omega : c ≠ c + 2),
      setReg_other _ _ (by omega : c ≠ c + 1),
      setReg_other _ _ (Ne.symm he1), setReg_same]
  have hrl : ({ s with regs := g3 } : MachineState).regs (c + 1)
      = some (N : Int) := by
    show g3 (c + 1) = _
    rw [hg3, hg2, setReg_other _ _ (by omega : c + 1 ≠ c + 2), setReg_same]
  have hri : ({ s with regs := g3 } : MachineState).regs (c + 2)
      = some ((0 : Nat) : Int) := by
    show g3 (c + 2) = _
    rw [hg3, setReg_same]
  obtain ⟨g4, hloop, hge, hgr⟩ := probe_loop_found ps koff esz kt e c
    (c + 1) (c + 2) A B K (N : Int) he1 he2 he3 (by omega) (by omega)
    (by omega) j 0 { s with regs := g3 } hre hrk hrl hri hkey
    (by simpa using hj) (by simpa using hmatch)
    (fun m _ hm => hnom m (by omega))
  have h5 : EvalNode ps { s with regs := g4 }
      (LinearNode.kill_register c)
      (.ok [] { s with regs := setReg g4 c none }) :=
    evalKillReg ps _ c
  have h6 : EvalNode ps { s with regs := setReg g4 c none }
      (LinearNode.kill_register (c + 1))
      (.ok [] { s with regs := setReg (setReg g4 c none) (c + 1) none }) :=
    evalKillReg ps _ (c + 1)
  have h7 : EvalNode ps
      { s with regs := setReg (setReg g4 c none) (c + 1) none }
      (LinearNode.kill_register (c + 2))
      (.ok [] { s with
        regs := setReg (setReg (setReg g4 c none) (c + 1) none)
          (c + 2) none }) :=
    evalKillReg ps _ (c + 2)
  have D := evalSeq ps (evalCons ps h1 (evalCons ps h2 (evalCons ps h3
    (evalCons ps hloop (evalCons ps h5 (evalCons ps h6 (evalCons ps h7
      (evalNil ps _))))))))
  refine ⟨setReg (setReg (setReg g4 c none) (c + 1) none) (c + 2) none,
    by simpa using D, ?_, ?_⟩
  · rw [setReg_other _ _ he3, setReg_other _ _ he2, setReg_other _ _ he1]
    simpa using hge
  · intro r hr1 hr2 hr3 hr4
    rw [setReg_other _ _ hr4, setReg_other _ _ hr3, setReg_other _ _ hr2,
      hgr r hr1 hr4]
    show g3 r = s.regs r
    rw [hg3, hg2, hg1, setReg_other _ _ hr4, setReg_other _ _ hr3,
      setReg_other _ _ hr1, setReg_other _ _ hr2]

/-- Full run of `dict_get_entry_for_key` on a non-empty dictionary that
does not contain the key: pushes the not-found flag `0`, with register
`e` pointing one entry past the end. -/
theorem dict_get_notfound (ps koff esz : Nat) (kt : PhysicalPrimitive)
    (e c : Nat) (dict_pointer key_location : LinearNode)
    (A B K Cap : Int) (N : Nat) (s : MachineState)
    (he1 : e ≠ c) (he2 : e ≠ c + 1) (he3 : e ≠ c + 2)
    (hkeyloc : EvalNode ps s key_location (.ok [A] s))
    (hdict : EvalNode ps { s with regs := setReg s.regs c (some A) }
      dict_pointer (.ok [B, (N : Int), Cap]
        { s with regs := setReg s.regs c (some A) }))
    (hkey : s.mem (A + (koff : Int)) = some K)
    (hN : 1 ≤ N)
    (hnom : ∀ m : Nat, m < N →
      ∃ km, s.mem (B + (m : Int) * (esz : Int)) = some km ∧ km ≠ K) :
    ∃ g, EvalNode ps s
        (dict_get_entry_for_key dict_pointer key_location koff kt esz e c)
        (.ok [0] { s with regs := g })
      ∧ g e = some (B + (N : Int) * (esz : Int))
      ∧ (∀ r, r ≠ e → r ≠ c → r ≠ c + 1 → r ≠ c + 2 →
          g r = s.regs r) := by
  set g1 := setReg s.regs c (some A) with hg1
  set g2 := setReg (setReg g1 e (some B)) (c + 1) (some (N : Int)) with hg2
  set g3 := setReg g2 (c + 2) (some ((0 : Nat) : Int)) with hg3
  have h1 : EvalNode ps s (LinearNode.write_register c key_location)
      (.ok [] { s with regs := g1 }) :=
    evalWriteReg ps c hkeyloc
  have h2 : EvalNode ps { s with regs := g1 }
      (LinearNode.write_multi_register dict_pointer
        [some e, some (c + 1), none])
      (.ok [] { s with regs := g2 }) :=
    evalWriteSplit ps [some e, some (c + 1), none] hdict rfl
  have h3 : EvalNode ps { s with regs := g2 }
      (LinearNode.write_register (c + 2) (LinearNode.size 0))
      (.ok [] { s with regs := g3 }) :=
    evalWriteReg ps (c + 2) (evalSize ps _ 0)
  have hre : ({ s with regs := g3 } : MachineState).regs e
      = some (B + ((0 : Nat) : Int) * (esz : Int)) := by
    show g3 e = _
    rw [hg3, hg2, hg1, setReg_other _ _ he3, setReg_other _ _ he2,
      setReg_same]
    congr 1
    push_cast
    ring
  have hrk : ({ s with regs := g3 } : MachineState).regs c = some A := by
    show g3 c = _
    rw [hg3, hg2, hg1, setReg_other _ _ (by omega : c ≠ c + 2),
      setReg_other _ _ (by omega : c ≠ c + 1),
      setReg_other _ _ (Ne.symm he1), setReg_same]
  have hrl : ({ s with regs := g3 } : MachineState).regs (c + 1)
      = some (N : Int) := by
    show g3 (c + 1) = _
    rw [hg3, hg2, setReg_other _ _ (by omega : c + 1 ≠ c + 2), setReg_same]
  have hri : ({ s with regs := g3 } : MachineState).regs (c + 2)
      = some ((0 : Nat) : Int) := by
    show g3 (c + 2) = _
    rw [hg3, setReg_same]
  obtain ⟨g4, hloop, hge, hgr⟩ := probe_loop_notfound ps koff esz kt e c
    (c + 1) (c + 2) A B K (N : Int) he1 he2 he3 (by omega) (by omega)
    (by omega) (N - 1) 0 { s with regs := g3 } hre hrk hrl hri hkey
    (by congr 1; omega)
    (fun m _ hm => hnom m (by omega))
  have h5 : EvalNode ps { s with regs := g4 }
      (LinearNode.kill_register c)
      (.ok [] { s with regs := setReg g4 c none }) :=
    evalKillReg ps _ c
  have h6 : EvalNode ps { s with regs := setReg g4 c none }
      (LinearNode.kill_register (c + 1))
      (.ok [] { s with regs := setReg (setReg g4 c none) (c + 1) none }) :=
    evalKillReg ps _ (c + 1)
  have h7 : EvalNode ps
      { s with regs := setReg (setReg g4 c none) (c + 1) none }
      (LinearNode.kill_register (c + 2))
      (.ok [] { s with
        regs := setReg (setReg (setReg g4 c none) (c + 1) none)
          (c + 2) none }) :=
    evalKillReg ps _ (c + 2)
  have D := evalSeq ps (evalCons ps h1 (evalCons ps h2 (evalCons ps h3
    (evalCons ps hloop (evalCons ps h5 (evalCons ps h6 (evalCons ps h7
      (evalNil ps _))))))))
  refine ⟨setReg (setReg (setReg g4 c none) (c + 1) none) (c + 2) none,
    by simpa using D, ?_, ?_⟩
  · rw [setReg_other _ _ he3, setReg_other _ _ he2, setReg_other _ _ he1]
    rw [show (0 + (N - 1) + 1 : Nat) = N from by omega] at hge
    exact hge
  · intro r hr1 hr2 hr3 hr4
    rw [setReg_other _ _ hr4, setReg_other _ _ hr3, setReg_other _ _ hr2,
      hgr r hr1 hr4]
    show g3 r = s.regs r
    rw [hg3, hg2, hg1, setReg_other _ _ hr4, setReg_other _ _ hr3,
      setReg_other _ _ hr1, setReg_other _ _ hr2]

set_option maxHeartbeats 3200000 in
/-- Executing the lowered `Dict.insert` when the key already sits in
entry `j`: the dictionary's buffer, length and capacity cells are
unchanged and the stored value for the key is overwritten with `V`. -/
theorem dict_insert_present (ps esz ks doff c tk : Nat)
    (kt : PhysicalPrimitive) (value_ty : PhysicalType)
    (dict_location key value : LinearNode)
    (P B K V Cap : Int) (N j : Nat) (s : MachineState)
    (hps : 0 < ps) (hesz : 0 < esz) (hks : 0 < ks) (hkse : ks < esz)
    (hvty : type_slots value_ty ps = some [0])
    (hloc : ∀ t, EvalNode ps t dict_location (.ok [P] t))
    (hkeyN : ∀ t, EvalNode ps t key (.ok [K] t))
    (hvalN : ∀ t, EvalNode ps t value (.ok [V] t))
    (hB : s.mem (P + (doff : Int)) = some B)
    (hL : s.mem (P + (doff : Int) + (ps : Int)) = some (N : Int))
    (hC : s.mem (P + (doff : Int) + 2 * (ps : Int)) = some Cap)
    (hhdrB : P + (doff : Int) + 2 * (ps : Int) < B)
    (hbufhn : B + ((N : Int) + 1) * (esz : Int) ≤ s.heapNext)
    (hjN : j < N)
    (hmatch : s.mem (B + (j : Int) * (esz : Int)) = some K)
    (hnom : ∀ m : Nat, m < j →
      ∃ km, s.mem (B + (m : Int) * (esz : Int)) = some km ∧ km ≠ K) :
    ∃ s', EvalNode ps s
        (lower_dict_insert dict_location doff key value kt value_ty ks esz
          tk ps c)
        (.ok [] s')
      ∧ s'.mem (P + (doff : Int)) = some B
      ∧ s'.mem (P + (doff : Int) + (ps : Int)) = some (N : Int)
      ∧ s'.mem (P + (doff : Int) + 2 * (ps : Int)) = some Cap
      ∧ s'.mem (B + (j : Int) * (esz : Int) + (ks : Int)) = some V := by
  have hezpos : (0 : Int) < (esz : Int) := by exact_mod_cast hesz
  have hNe : (0 : Int) ≤ ((N : Int) + 1) * (esz : Int) :=
    mul_nonneg (by positivity) hezpos.le
  have hjz : (0 : Int) ≤ (j : Int) * (esz : Int) :=
    mul_nonneg (Int.natCast_nonneg j) hezpos.le
  have hhdrA : P + (doff : Int) + 2 * (ps : Int) < s.heapNext := by linarith
  have hcellA : ∀ m : Nat, m ≤ N →
      B + (m : Int) * (esz : Int) < s.heapNext := by
    intro m hm
    have h1 : (m : Int) ≤ (N : Int) := by exact_mod_cast hm
    have h2 : (m : Int) * (esz : Int) ≤ (N : Int) * (esz : Int) :=
      mul_le_mul_of_nonneg_right h1 hezpos.le
    have h3 : ((N : Int) + 1) * (esz : Int)
        = (N : Int) * (esz : Int) + (esz : Int) := by ring
    linarith
  set HN := s.heapNext + ((0 + ps : Nat) : Int) with hHN
  set vtk := setReg s.vars tk (some s.heapNext) with hvtk
  set gI := setReg s.regs c (some P) with hgI
  set mK := setMem s.mem (s.heapNext + ((0 : Nat) : Int)
    + ((0 : Nat) : Int)) (some K) with hmK
  set s1 : MachineState := ⟨s.regs, vtk, s.mem, HN⟩ with hs1
  set s2 : MachineState := ⟨gI, vtk, s.mem, HN⟩ with hs2
  set s3 : MachineState := ⟨gI, vtk, mK, HN⟩ with hs3
  have i1 : EvalNode ps s (.VariableInit tk (.Primitive kt)) (.ok [] s1) :=
    EvalNode.var_init (show type_slots (.Primitive kt) ps = some [0]
      from rfl)
  have i2 : EvalNode ps s1 (LinearNode.write_register c dict_location)
      (.ok [] s2) :=
    evalWriteReg ps c (hloc s1)
  have hvtk2 : s2.vars tk = some s.heapNext := by
    simp [hs2, hvtk, setReg]
  have i3 : EvalNode ps s2
      (LinearNode.write_memory (.VariableLocation tk) 0 (.Primitive kt) key)
      (.ok [] s3) :=
    evalWriteMem ps 0 (.Primitive kt) (EvalNode.var_loc hvtk2) (hkeyN s2)
      rfl rfl
  have hmB : mK (P + (doff : Int)) = some B := by
    rw [hmK, setMem_other _ _ (by push_cast; omega)]
    exact hB
  have hmL : mK (P + (doff : Int) + (ps : Int)) = some (N : Int) := by
    rw [hmK, setMem_other _ _ (by push_cast; omega)]
    exact hL
  have hmC : mK (P + (doff : Int) + 2 * (ps : Int)) = some Cap := by
    rw [hmK, setMem_other _ _ (by push_cast; omega)]
    exact hC
  have hc0 : mK (P + (doff : Int) + ((0 : Nat) : Int)) = some B := by
    rw [show P + (doff : Int) + ((0 : Nat) : Int) = P + (doff : Int)
      from by push_cast; ring]
    exact hmB
  have hc1 : mK (P + (doff : Int) + ((ps : Nat) : Int))
      = some (N : Int) := hmL
  have hc2 : mK (P + (doff : Int) + ((2 * ps : Nat) : Int)) = some Cap := by
    rw [show P + (doff : Int) + ((2 * ps : Nat) : Int)
      = P + (doff : Int) + 2 * (ps : Int) from by push_cast; ring]
    exact hmC
  have hreadDict : readSlots mK (P + ((doff : Nat) : Int))
      [0, ps, 2 * ps] = some [B, (N : Int), Cap] := by
    simp only [readSlots, hc0, hc1, hc2]
    rfl
  have hvtk3 : s3.vars tk = some s.heapNext := by
    simp [hs3, hvtk, setReg]
  have hrc3 : (setReg s3.regs (c + 2) (some s.heapNext)) c = some P := by
    rw [setReg_other _ _ (by omega : c ≠ c + 2)]
    show gI c = some P
    rw [hgI, setReg_same]
  have hdict : EvalNode ps
      { s3 with regs := setReg s3.regs (c + 2) (some s.heapNext) }
      (LinearNode.read_memory (LinearNode.read_register c) doff
        (.Collection .Dict))
      (.ok [B, (N : Int), Cap]
        { s3 with regs := setReg s3.regs (c + 2) (some s.heapNext) }) :=
    evalReadMem ps doff (.Collection .Dict) (evalReadReg ps c hrc3) rfl
      hreadDict
  have hkeyA : s3.mem (s.heapNext + ((0 : Nat) : Int)) = some K := by
    show mK _ = some K
    simp only [hmK, setMem]
    rw [if_pos (by push_cast; omega)]
  have hmatchK : s3.mem (B + (j : Int) * (esz : Int)) = some K := by
    show mK _ = some K
    rw [hmK, setMem_other _ _ (by
      have h := hcellA j (by omega)
      push_cast
      omega)]
    exact hmatch
  have hnomK : ∀ m : Nat, m < j →
      ∃ km, s3.mem (B + (m : Int) * (esz : Int)) = some km ∧ km ≠ K := by
    intro m hm
    obtain ⟨km, hkm, hkmne⟩ := hnom m hm
    refine ⟨km, ?_, hkmne⟩
    show mK _ = some km
    rw [hmK, setMem_other _ _ (by
      have h := hcellA m (by omega)
      push_cast
      omega)]
    exact hkm
  obtain ⟨g, hget, hge, hgr⟩ := dict_get_found ps 0 esz kt (c + 1) (c + 2)
    (LinearNode.read_memory (LinearNode.read_register c) doff
      (.Collection .Dict))
    (.VariableLocation tk) s.heapNext B K Cap N j s3
    (by omega) (by omega) (by omega)
    (EvalNode.var_loc hvtk3) hdict hkeyA hjN hmatchK hnomK
  set mV := setMem mK (B + (j : Int) * (esz : Int) + ((ks : Nat) : Int)
    + ((0 : Nat) : Int)) (some V) with hmV
  have t1 : EvalNode ps { s3 with regs := g }
      (LinearNode.write_memory (LinearNode.read_register (c + 1)) ks
        value_ty value)
      (.ok [] (⟨g, vtk, mV, HN⟩ : MachineState)) :=
    evalWriteMem ps ks value_ty (evalReadReg ps (c + 1) hge)
      (hvalN _) hvty rfl
  have t2 : EvalNode ps (⟨g, vtk, mV, HN⟩ : MachineState)
      (LinearNode.kill_register (c + 1))
      (.ok [] (⟨setReg g (c + 1) none, vtk, mV, HN⟩ : MachineState)) :=
    evalKillReg ps _ (c + 1)
  have hthen : EvalList ps { s3 with regs := g }
      [LinearNode.write_memory (LinearNode.read_register (c + 1)) ks
        value_ty value,
       LinearNode.kill_register (c + 1)]
      (.ok [] (⟨setReg g (c + 1) none, vtk, mV, HN⟩ : MachineState)) :=
    evalCons ps t1 (evalCons ps t2 (evalNil ps _))
  have hIf := evalIfTrue ps
    (some [LinearNode.write_register (c + 1)
        (array_alloc_space_to_push (LinearNode.read_register c) doff esz ps
          (c + 5)),
      LinearNode.write_memory (LinearNode.read_register (c + 1)) 0
        (.Primitive kt) key,
      LinearNode.write_memory (LinearNode.read_register (c + 1)) ks
        value_ty value])
    hget (by norm_num) hthen
  have i5 : EvalNode ps
      (⟨setReg g (c + 1) none, vtk, mV, HN⟩ : MachineState)
      (.VariableDestroy tk)
      (.ok [] (⟨setReg g (c + 1) none, setReg vtk tk none, mV, HN⟩
        : MachineState)) :=
    EvalNode.var_destroy _ tk
  have i6 : EvalNode ps
      (⟨setReg g (c + 1) none, setReg vtk tk none, mV, HN⟩ : MachineState)
      (LinearNode.kill_register (c + 1))
      (.ok [] (⟨setReg (setReg g (c + 1) none) (c + 1) none,
        setReg vtk tk none, mV, HN⟩ : MachineState)) :=
    evalKillReg ps _ (c + 1)
  have i7 : EvalNode ps
      (⟨setReg (setReg g (c + 1) none) (c + 1) none,
        setReg vtk tk none, mV, HN⟩ : MachineState)
      (LinearNode.kill_register c)
      (.ok [] (⟨setReg (setReg (setReg g (c + 1) none) (c + 1) none) c none,
        setReg vtk tk none, mV, HN⟩ : MachineState)) :=
    evalKillReg ps _ c
  have D := evalSeq ps (evalCons ps i1 (evalCons ps i2 (evalCons ps i3
    (evalCons ps hIf (evalCons ps i5 (evalCons ps i6 (evalCons ps i7
      (evalNil ps _))))))))
  refine ⟨⟨setReg (setReg (setReg g (c + 1) none) (c + 1) none) c none,
    setReg vtk tk none, mV, HN⟩, by simpa using D, ?_, ?_, ?_, ?_⟩
  · show mV (P + (doff : Int)) = some B
    rw [hmV, setMem_other _ _ (by
      intro hcon
      push_cast at hcon
      linarith [Int.natCast_nonneg ks])]
    exact hmB
  · show mV (P + (doff : Int) + (ps : Int)) = some (N : Int)
    rw [hmV, setMem_other _ _ (by
      intro hcon
      push_cast at hcon
      linarith [Int.natCast_nonneg ks, Int.natCast_nonneg ps])]
    exact hmL
  · show mV (P + (doff : Int) + 2 * (ps : Int)) = some Cap
    rw [hmV, setMem_other _ _ (by
      intro hcon
      push_cast at hcon
      linarith [Int.natCast_nonneg ks, Int.natCast_nonneg ps])]
    exact hmC
  · show mV (B + (j : Int) * (esz : Int) + (ks : Int)) = some V
    rw [hmV, show B + (j : Int) * (esz : Int) + ((ks : Nat) : Int)
      + ((0 : Nat) : Int) = B + (j : Int) * (esz : Int) + (ks : Int)
      from by push_cast; ring]
    exact setMem_same _ _ _

set_option maxHeartbeats 3200000 in
/-- Executing the lowered `Dict.insert` on a non-empty dictionary that
does not contain the key: one more entry is made room for via the shared
`array_alloc_space_to_push` routine (the length cell becomes `N + 1`) and
both the key and the value are written into the new entry. -/
theorem dict_insert_absent (ps esz ks doff c tk : Nat)
    (kt : PhysicalPrimitive) (value_ty : PhysicalType)
    (dict_location key value : LinearNode)
    (P B K V Cap : Int) (N : Nat) (s : MachineState)
    (hps : 0 < ps) (hesz : 0 < esz) (hks : 0 < ks) (hkse : ks < esz)
    (hvty : type_slots value_ty ps = some [0])
    (hloc : ∀ t, EvalNode ps t dict_location (.ok [P] t))
    (hkeyN : ∀ t, EvalNode ps t key (.ok [K] t))
    (hvalN : ∀ t, EvalNode ps t value (.ok [V] t))
    (hB : s.mem (P + (doff : Int)) = some B)
    (hL : s.mem (P + (doff : Int) + (ps : Int)) = some (N : Int))
    (hC : s.mem (P + (doff : Int) + 2 * (ps : Int)) = some Cap)
    (hhdrB : P + (doff : Int) + 2 * (ps : Int) < B)
    (hbufhn : B + ((N : Int) + 1) * (esz : Int) ≤ s.heapNext)
    (hN : 1 ≤ N)
    (hnom : ∀ m : Nat, m < N →
      ∃ km, s.mem (B + (m : Int) * (esz : Int)) = some km ∧ km ≠ K) :
    ∃ s', EvalNode ps s
        (lower_dict_insert dict_location doff key value kt value_ty ks esz
          tk ps c)
        (.ok [] s')
      ∧ s'.mem (P + (doff : Int) + (ps : Int)) = some ((N : Int) + 1)
      ∧ s'.mem (B + (N : Int) * (esz : Int)) = some K
      ∧ s'.mem (B + (N : Int) * (esz : Int) + (ks : Int)) = some V := by
  have hezpos : (0 : Int) < (esz : Int) := by exact_mod_cast hesz
  have hksp : (1 : Int) ≤ (ks : Int) := by exact_mod_cast hks
  have hNe : (0 : Int) ≤ ((N : Int) + 1) * (esz : Int) :=
    mul_nonneg (by positivity) hezpos.le
  have hNz : (0 : Int) ≤ (N : Int) * (esz : Int) :=
    mul_nonneg (Int.natCast_nonneg N) hezpos.le
  have hhdrA : P + (doff : Int) + 2 * (ps : Int) < s.heapNext := by linarith
  have hcellA : ∀ m : Nat, m ≤ N →
      B + (m : Int) * (esz : Int) < s.heapNext := by
    intro m hm
    have h1 : (m : Int) ≤ (N : Int) := by exact_mod_cast hm
    have h2 : (m : Int) * (esz : Int) ≤ (N : Int) * (esz : Int) :=
      mul_le_mul_of_nonneg_right h1 hezpos.le
    have h3 : ((N : Int) + 1) * (esz : Int)
        = (N : Int) * (esz : Int) + (esz : Int) := by ring
    linarith
  set HN := s.heapNext + ((0 + ps : Nat) : Int) with hHN
  set vtk := setReg s.vars tk (some s.heapNext) with hvtk
  set gI := setReg s.regs c (some P) with hgI
  set mK := setMem s.mem (s.heapNext + ((0 : Nat) : Int)
    + ((0 : Nat) : Int)) (some K) with hmK
  set s1 : MachineState := ⟨s.regs, vtk, s.mem, HN⟩ with hs1
  set s2 : MachineState := ⟨gI, vtk, s.mem, HN⟩ with hs2
  set s3 : MachineState := ⟨gI, vtk, mK, HN⟩ with hs3
  have i1 : EvalNode ps s (.VariableInit tk (.Primitive kt)) (.ok [] s1) :=
    EvalNode.var_init (show type_slots (.Primitive kt) ps = some [0]
      from rfl)
  have i2 : EvalNode ps s1 (LinearNode.write_register c dict_location)
      (.ok [] s2) :=
    evalWriteReg ps c (hloc s1)
  have hvtk2 : s2.vars tk = some s.heapNext := by
    simp [hs2, hvtk, setReg]
  have i3 : EvalNode ps s2
      (LinearNode.write_memory (.VariableLocation tk) 0 (.Primitive kt) key)
      (.ok [] s3) :=
    evalWriteMem ps 0 (.Primitive kt) (EvalNode.var_loc hvtk2) (hkeyN s2)
      rfl rfl
  have hmB : mK (P + (doff : Int)) = some B := by
    rw [hmK, setMem_other _ _ (by push_cast; omega)]
    exact hB
  have hmL : mK (P + (doff : Int) + (ps : Int)) = some (N : Int) := by
    rw [hmK, setMem_other _ _ (by push_cast; omega)]
    exact hL
  have hmC : mK (P + (doff : Int) + 2 * (ps : Int)) = some Cap := by
    rw [hmK, setMem_other _ _ (by push_cast; omega)]
    exact hC
  have hc0 : mK (P + (doff : Int) + ((0 : Nat) : Int)) = some B := by
    rw [show P + (doff : Int) + ((0 : Nat) : Int) = P + (doff : Int)
      from by push_cast; ring]
    exact hmB
  have hc1 : mK (P + (doff : Int) + ((ps : Nat) : Int))
      = some (N : Int) := hmL
  have hc2 : mK (P + (doff : Int) + ((2 * ps : Nat) : Int)) = some Cap := by
    rw [show P + (doff : Int) + ((2 * ps : Nat) : Int)
      = P + (doff : Int) + 2 * (ps : Int) from by push_cast; ring]
    exact hmC
  have hreadDict : readSlots mK (P + ((doff : Nat) : Int))
      [0, ps, 2 * ps] = some [B, (N : Int), Cap] := by
    simp only [readSlots, hc0, hc1, hc2]
    rfl
  have hvtk3 : s3.vars tk = some s.heapNext := by
    simp [hs3, hvtk, setReg]
  have hrc3 : (setReg s3.regs (c + 2) (some s.heapNext)) c = some P := by
    rw [setReg_other _ _ (by omega : c ≠ c + 2)]
    show gI c = some P
    rw [hgI, setReg_same]
  have hdict : EvalNode ps
      { s3 with regs := setReg s3.regs (c + 2) (some s.heapNext) }
      (LinearNode.read_memory (LinearNode.read_register c) doff
        (.Collection .Dict))
      (.ok [B, (N : Int), Cap]
        { s3 with regs := setReg s3.regs (c + 2) (some s.heapNext) }) :=
    evalReadMem ps doff (.Collection .Dict) (evalReadReg ps c hrc3) rfl
      hreadDict
  have hkeyA : s3.mem (s.heapNext + ((0 : Nat) : Int)) = some K := by
    show mK _ = some K
    simp only [hmK, setMem]
    rw [if_pos (by push_cast; omega)]
  have hnomK : ∀ m : Nat, m < N →
      ∃ km, s3.mem (B + (m : Int) * (esz : Int)) = some km ∧ km ≠ K := by
    intro m hm
    obtain ⟨km, hkm, hkmne⟩ := hnom m hm
    refine ⟨km, ?_, hkmne⟩
    show mK _ = some km
    rw [hmK, setMem_other _ _ (by
      have h := hcellA m (by omega)
      push_cast
      omega)]
    exact hkm
  obtain ⟨g, hget, hge, hgr⟩ := dict_get_notfound ps 0 esz kt (c + 1)
    (c + 2)
    (LinearNode.read_memory (LinearNode.read_register c) doff
      (.Collection .Dict))
    (.VariableLocation tk) s.heapNext B K Cap N s3
    (by omega) (by omega) (by omega)
    (EvalNode.var_loc hvtk3) hdict hkeyA hN hnomK
  -- the else branch: allocate space and write key and value
  have hc4 : g c = some P := by
    rw [hgr c (by omega) (by omega) (by omega) (by omega)]
    show gI c = some P
    rw [hgI, setReg_same]
  have hloc1 : EvalNode ps (⟨g, vtk, mK, HN⟩ : MachineState)
      (.ReadRegister c) (.ok [P] (⟨g, vtk, mK, HN⟩ : MachineState)) :=
    evalReadReg ps c hc4
  have hfreshS : P + (doff : Int) + 2 * (ps : Int)
      < (⟨g, vtk, mK, HN⟩ : MachineState).heapNext := by
    show _ < HN
    rw [hHN]
    push_cast
    omega
  obtain ⟨sA, hDalloc, hAvars, hAbuf, hAlen, hANo, hARe, hAregs⟩ :=
    array_alloc_space_exec ps esz (c + 5) doff (.ReadRegister c) P B
      (N : Int) Cap (⟨g, vtk, mK, HN⟩ : MachineState) hps hloc1 hmB hmL hmC
      (Int.natCast_nonneg N) hfreshS
  set gU := setReg sA.regs (c + 1) (some (B + (N : Int) * (esz : Int)))
    with hgU
  have u1 : EvalNode ps (⟨g, vtk, mK, HN⟩ : MachineState)
      (LinearNode.write_register (c + 1)
        (array_alloc_space_to_push (LinearNode.read_register c) doff esz ps
          (c + 5)))
      (.ok [] { sA with regs := gU }) :=
    evalWriteReg ps (c + 1) hDalloc
  have hr5 : ({ sA with regs := gU } : MachineState).regs (c + 1)
      = some (B + (N : Int) * (esz : Int)) := by
    show gU (c + 1) = _
    rw [hgU, setReg_same]
  set mKey := setMem sA.mem (B + (N : Int) * (esz : Int)
    + ((0 : Nat) : Int) + ((0 : Nat) : Int)) (some K) with hmKey
  have u2 : EvalNode ps ({ sA with regs := gU } : MachineState)
      (LinearNode.write_memory (LinearNode.read_register (c + 1)) 0
        (.Primitive kt) key)
      (.ok [] { sA with regs := gU, mem := mKey }) :=
    evalWriteMem ps 0 (.Primitive kt) (evalReadReg ps (c + 1) hr5)
      (hkeyN _) rfl rfl
  have hr6 : ({ sA with regs := gU, mem := mKey } : MachineState).regs
      (c + 1) = some (B + (N : Int) * (esz : Int)) := by
    show gU (c + 1) = _
    rw [hgU, setReg_same]
  set mVal := setMem mKey (B + (N : Int) * (esz : Int)
    + ((ks : Nat) : Int) + ((0 : Nat) : Int)) (some V) with hmVal
  have u3 : EvalNode ps ({ sA with regs := gU, mem := mKey }
      : MachineState)
      (LinearNode.write_memory (LinearNode.read_register (c + 1)) ks
        value_ty value)
      (.ok [] { sA with regs := gU, mem := mVal }) :=
    evalWriteMem ps ks value_ty (evalReadReg ps (c + 1) hr6)
      (hvalN _) hvty rfl
  have hElse : EvalList ps (⟨g, vtk, mK, HN⟩ : MachineState)
      [LinearNode.write_register (c + 1)
        (array_alloc_space_to_push (LinearNode.read_register c) doff esz ps
          (c + 5)),
       LinearNode.write_memory (LinearNode.read_register (c + 1)) 0
        (.Primitive kt) key,
       LinearNode.write_memory (LinearNode.read_register (c + 1)) ks
        value_ty value]
      (.ok [] { sA with regs := gU, mem := mVal }) :=
    evalCons ps u1 (evalCons ps u2 (evalCons ps u3 (evalNil ps _)))
  have hIf := evalIfFalseSome ps
    [LinearNode.write_memory (LinearNode.read_register (c + 1)) ks
      value_ty value,
     LinearNode.kill_register (c + 1)]
    hget rfl hElse
  have i5 : EvalNode ps ({ sA with regs := gU, mem := mVal }
      : MachineState)
      (.VariableDestroy tk)
      (.ok [] { sA with
        regs := gU, mem := mVal, vars := setReg sA.vars tk none }) :=
    EvalNode.var_destroy _ tk
  have i6 : EvalNode ps ({ sA with
      regs := gU, mem := mVal, vars := setReg sA.vars tk none }
      : MachineState)
      (LinearNode.kill_register (c + 1))
      (.ok [] { sA with
        regs := setReg gU (c + 1) none, mem := mVal,
        vars := setReg sA.vars tk none }) :=
    evalKillReg ps _ (c + 1)
  have i7 : EvalNode ps ({ sA with
      regs := setReg gU (c + 1) none, mem := mVal,
      vars := setReg sA.vars tk none } : MachineState)
      (LinearNode.kill_register c)
      (.ok [] { sA with
        regs := setReg (setReg gU (c + 1) none) c none, mem := mVal,
        vars := setReg sA.vars tk none }) :=
    evalKillReg ps _ c
  have D := evalSeq ps (evalCons ps i1 (evalCons ps i2 (evalCons ps i3
    (evalCons ps hIf (evalCons ps i5 (evalCons ps i6 (evalCons ps i7
      (evalNil ps _))))))))
  refine ⟨{ sA with
    regs := setReg (setReg gU (c + 1) none) c none, mem := mVal,
    vars := setReg sA.vars tk none },
    by simpa using D, ?_, ?_, ?_⟩
  · show mVal (P + (doff : Int) + (ps : Int)) = some ((N : Int) + 1)
    rw [hmVal, setMem_other _ _ (by
      intro hcon
      push_cast at hcon
      linarith [Int.natCast_nonneg ps, Int.natCast_nonneg ks])]
    rw [hmKey, setMem_other _ _ (by
      intro hcon
      push_cast at hcon
      linarith [Int.natCast_nonneg ps])]
    exact hAlen
  · show mVal (B + (N : Int) * (esz : Int)) = some K
    rw [hmVal, setMem_other _ _ (by
      intro hcon
      push_cast at hcon
      linarith)]
    rw [hmKey]
    simp only [setMem]
    rw [if_pos (by push_cast; ring)]
  · show mVal (B + (N : Int) * (esz : Int) + (ks : Int)) = some V
    rw [hmVal]
    simp only [setMem]
    rw [if_pos (by push_cast; ring)]

/-- C7 (amended): for a `Dict.insert` whose key is already present in
entry `j`, executing the emitted LIR leaves the dictionary's buffer,
length and capacity unchanged and overwrites the stored value for that
key; when the key is absent and the dictionary is NON-EMPTY, one new
entry is made room for via the shared `array_alloc_space_to_push` routine
(the length becomes `N + 1`) and both key and value are written into it.
(On an empty dictionary the absent-key probe loop reads past the buffer
and never terminates — see the counterexample.) -/
theorem dict_insert_semantics (ps esz ks doff c tk : Nat)
    (kt : PhysicalPrimitive) (value_ty : PhysicalType)
    (dict_location key value : LinearNode)
    (P B K V Cap : Int) (N : Nat) (s : MachineState)
    (hps : 0 < ps) (hesz : 0 < esz) (hks : 0 < ks) (hkse : ks < esz)
    (hvty : type_slots value_ty ps = some [0])
    (hloc : ∀ t, EvalNode ps t dict_location (.ok [P] t))
    (hkeyN : ∀ t, EvalNode ps t key (.ok [K] t))
    (hvalN : ∀ t, EvalNode ps t value (.ok [V] t))
    (hB : s.mem (P + (doff : Int)) = some B)
    (hL : s.mem (P + (doff : Int) + (ps : Int)) = some (N : Int))
    (hC : s.mem (P + (doff : Int) + 2 * (ps : Int)) = some Cap)
    (hhdrB : P + (doff : Int) + 2 * (ps : Int) < B)
    (hbufhn : B + ((N : Int) + 1) * (esz : Int) ≤ s.heapNext) :
    (∀ j : Nat, j < N →
      s.mem (B + (j : Int) * (esz : Int)) = some K →
      (∀ m : Nat, m < j →
        ∃ km, s.mem (B + (m : Int) * (esz : Int)) = some km ∧ km ≠ K) →
      ∃ s', EvalNode ps s
          (lower_dict_insert dict_location doff key value kt value_ty ks
            esz tk ps c)
          (.ok [] s')
        ∧ s'.mem (P + (doff : Int)) = some B
        ∧ s'.mem (P + (doff : Int) + (ps : Int)) = some (N : Int)
        ∧ s'.mem (P + (doff : Int) + 2 * (ps : Int)) = some Cap
        ∧ s'.mem (B + (j : Int) * (esz : Int) + (ks : Int)) = some V)
    ∧ (1 ≤ N →
      (∀ m : Nat, m < N →
        ∃ km, s.mem (B + (m : Int) * (esz : Int)) = some km ∧ km ≠ K) →
      ∃ s', EvalNode ps s
          (lower_dict_insert dict_location doff key value kt value_ty ks
            esz tk ps c)
          (.ok [] s')
        ∧ s'.mem (P + (doff : Int) + (ps : Int)) = some ((N : Int) + 1)
        ∧ s'.mem (B + (N : Int) * (esz : Int)) = some K
        ∧ s'.mem (B + (N : Int) * (esz : Int) + (ks : Int)) = some V) :=
  ⟨fun j hjN hmatch hnom =>
    dict_insert_present ps esz ks doff c tk kt value_ty dict_location key
      value P B K V Cap N j s hps hesz hks hkse hvty hloc hkeyN hvalN hB
      hL hC hhdrB hbufhn hjN hmatch hnom,
   fun hN hnom =>
    dict_insert_absent ps esz ks doff c tk kt value_ty dict_location key
      value P B K V Cap N s hps hesz hks hkse hvty hloc hkeyN hvalN hB hL
      hC hhdrB hbufhn hN hnom⟩

/-- Concrete non-empty dictionary state for the C7 witness and the
insert lemmas: header at 100 holds buffer 200, length 2, capacity 4. -/
def dictInsertState : MachineState :=
  ⟨fun _ => none, fun _ => none,
    fun a => if a = 100 then some 200 else if a = 108 then some 2
      else if a = 116 then some 4 else none, 1000⟩

theorem dict_insert_semantics_witness :
    (∀ j : Nat, j < 2 →
      dictInsertState.mem (200 + (j : Int) * ((16 : Nat) : Int)) = some 5 →
      (∀ m : Nat, m < j →
        ∃ km, dictInsertState.mem (200 + (m : Int) * ((16 : Nat) : Int))
          = some km ∧ km ≠ 5) →
      ∃ s', EvalNode 8 dictInsertState
          (lower_dict_insert (.IntLit 100) 0 (.IntLit 5) (.IntLit 7)
            .Int64 (.Primitive .Int64) 8 16 0 8 30)
          (.ok [] s')
        ∧ s'.mem (100 + ((0 : Nat) : Int)) = some 200
        ∧ s'.mem (100 + ((0 : Nat) : Int) + ((8 : Nat) : Int))
            = some ((2 : Nat) : Int)
        ∧ s'.mem (100 + ((0 : Nat) : Int) + 2 * ((8 : Nat) : Int)) = some 4
        ∧ s'.mem (200 + (j : Int) * ((16 : Nat) : Int) + ((8 : Nat) : Int))
            = some 7)
    ∧ (1 ≤ 2 →
      (∀ m : Nat, m < 2 →
        ∃ km, dictInsertState.mem (200 + (m : Int) * ((16 : Nat) : Int))
          = some km ∧ km ≠ 5) →
      ∃ s', EvalNode 8 dictInsertState
          (lower_dict_insert (.IntLit 100) 0 (.IntLit 5) (.IntLit 7)
            .Int64 (.Primitive .Int64) 8 16 0 8 30)
          (.ok [] s')
        ∧ s'.mem (100 + ((0 : Nat) : Int) + ((8 : Nat) : Int))
            = some (((2 : Nat) : Int) + 1)
        ∧ s'.mem (200 + ((2 : Nat) : Int) * ((16 : Nat) : Int)) = some 5
        ∧ s'.mem (200 + ((2 : Nat) : Int) * ((16 : Nat) : Int)
            + ((8 : Nat) : Int)) = some 7) :=
  dict_insert_semantics 8 16 8 0 30 0 .Int64 (.Primitive .Int64)
    (.IntLit 100) (.IntLit 5) (.IntLit 7) 100 200 5 7 4 2 dictInsertState
    (by norm_num) (by norm_num) (by norm_num) (by norm_num) rfl
    (fun t => EvalNode.intlit t 100) (fun t => EvalNode.intlit t 5)
    (fun t => EvalNode.intlit t 7)
    (by decide) (by decide) (by decide) (by decide) (by decide)

/-! ### C7 counterexample: insert into an empty dictionary gets stuck -/

/-- Concrete machine state holding an EMPTY dictionary at address 100:
buffer pointer 200, length 0, capacity 0; the buffer itself (address 200)
is unwritten memory. -/
def dictEmptyState : MachineState :=
  ⟨fun _ => none, fun _ => none,
    fun a => if a = 100 then some 200 else if a = 101 then some 0
      else if a = 102 then some 0 else none, 1000⟩

/-- The probe loop's key read is stuck when the entry register points at
unwritten memory. -/
theorem dictStuckRead (ps : Nat) (t : MachineState) (out : Outcome)
    (hreg : t.regs 1 = some 200) (hmem : t.mem 200 = none) :
    ¬ EvalNode ps t (.ReadMemory (.ReadRegister 1) 0 (.Primitive .Byte))
      out := by
  intro h
  cases h with
  | read_mem hl hty hrs =>
    cases hl with
    | read_reg hr =>
      rw [hreg] at hr
      injection hr with hr
      subst hr
      simp only [type_slots] at hty
      injection hty with hty
      subst hty
      norm_num [readSlots, hmem] at hrs
      exact Option.noConfusion hrs
  | read_mem_abort hl => cases hl

/-- The probe loop's comparison is stuck (its left operand is the stuck
key read). -/
theorem dictStuckCmp (ps : Nat) (t : MachineState) (out : Outcome)
    (hreg : t.regs 1 = some 200) (hmem : t.mem 200 = none) :
    ¬ EvalNode ps t
      (.Comparison .EqualTo .Byte
        (.ReadMemory (.ReadRegister 1) 0 (.Primitive .Byte))
        (.ReadMemory (.ReadRegister 2) 0 (.Primitive .Byte))) out := by
  intro h
  cases h with
  | cmp h1 h2 => exact dictStuckRead ps t _ hreg hmem h1
  | cmp_abort_l h1 => exact dictStuckRead ps t _ hreg hmem h1
  | cmp_abort_r h1 h2 => exact dictStuckRead ps t _ hreg hmem h1

/-- The probe loop's key-match conditional is stuck. -/
theorem dictStuckMatchIf (ps : Nat) (t : MachineState) (out : Outcome)
    (thn : List LinearNode)
    (hreg : t.regs 1 = some 200) (hmem : t.mem 200 = none) :
    ¬ EvalNode ps t
      (.If (.Comparison .EqualTo .Byte
          (.ReadMemory (.ReadRegister 1) 0 (.Primitive .Byte))
          (.ReadMemory (.ReadRegister 2) 0 (.Primitive .Byte)))
        thn none) out := by
  intro h
  cases h with
  | if_true h1 hc h2 => exact dictStuckCmp ps t _ hreg hmem h1
  | if_false_none h1 hc => exact dictStuckCmp ps t _ hreg hmem h1
  | if_abort h1 => exact dictStuckCmp ps t _ hreg hmem h1

/-- The probe loop's body list is stuck at its first node. -/
theorem dictStuckBody (ps : Nat) (t : MachineState) (out : Outcome)
    (thn : List LinearNode) (rest : List LinearNode)
    (hreg : t.regs 1 = some 200) (hmem : t.mem 200 = none) :
    ¬ EvalList ps t
      (.If (.Comparison .EqualTo .Byte
          (.ReadMemory (.ReadRegister 1) 0 (.Primitive .Byte))
          (.ReadMemory (.ReadRegister 2) 0 (.Primitive .Byte)))
        thn none :: rest) out := by
  intro h
  cases h with
  | cons_ok_ok h1 h2 => exact dictStuckMatchIf ps t _ thn hreg hmem h1
  | cons_ok_broke h1 h2 => exact dictStuckMatchIf ps t _ thn hreg hmem h1
  | cons_ok_abort h1 h2 => exact dictStuckMatchIf ps t _ thn hreg hmem h1
  | cons_broke h1 => exact dictStuckMatchIf ps t _ thn hreg hmem h1
  | cons_abort h1 => exact dictStuckMatchIf ps t _ thn hreg hmem h1

/-- The probe loop itself has no evaluation. -/
theorem dictStuckLoop (ps : Nat) (t : MachineState) (out : Outcome)
    (thn : List LinearNode) (rest : List LinearNode)
    (hreg : t.regs 1 = some 200) (hmem : t.mem 200 = none) :
    ¬ EvalNode ps t
      (.Loop (.If (.Comparison .EqualTo .Byte
          (.ReadMemory (.ReadRegister 1) 0 (.Primitive .Byte))
          (.ReadMemory (.ReadRegister 2) 0 (.Primitive .Byte)))
        thn none :: rest)) out := by
  intro h
  cases h with
  | loop_break h1 => exact dictStuckBody ps t _ thn rest hreg hmem h1
  | loop_step h1 h2 => exact dictStuckBody ps t _ thn rest hreg hmem h1
  | loop_step_abort h1 h2 => exact dictStuckBody ps t _ thn rest hreg hmem h1
  | loop_abort h1 => exact dictStuckBody ps t _ thn rest hreg hmem h1

/-- The tail of `dict_get_entry_for_key`'s node list starting at the probe
loop is stuck. -/
theorem dictStuckGet4 (t : MachineState) (out : Outcome)
    (hreg : t.regs 1 = some 200) (hmem : t.mem 200 = none) :
    ¬ EvalList 1 t
      [.Loop [
          .If (.Comparison .EqualTo .Byte
              (.ReadMemory (.ReadRegister 1) 0 (.Primitive .Byte))
              (.ReadMemory (.ReadRegister 2) 0 (.Primitive .Byte)))
            [.Byte 1, .Break] none,
          .WriteRegister 4 (.Arithmetic .Add .PointerSize
            (.ReadRegister 4) (.Size 1)),
          .WriteRegister 1 (.Arithmetic .Add .PointerSize
            (.ReadRegister 1) (.Size 2)),
          .If (.Comparison .EqualTo .PointerSize (.ReadRegister 3)
              (.ReadRegister 4))
            [.Byte 0, .Break] none],
        .KillRegister 2, .KillRegister 3, .KillRegister 4] out := by
  intro h
  cases h with
  | cons_ok_ok h1 h2 => exact dictStuckLoop 1 t _ _ _ hreg hmem h1
  | cons_ok_broke h1 h2 => exact dictStuckLoop 1 t _ _ _ hreg hmem h1
  | cons_ok_abort h1 h2 => exact dictStuckLoop 1 t _ _ _ hreg hmem h1
  | cons_broke h1 => exact dictStuckLoop 1 t _ _ _ hreg hmem h1
  | cons_abort h1 => exact dictStuckLoop 1 t _ _ _ hreg hmem h1

/-- Adding the index-register initialisation in front stays stuck. -/
theorem dictStuckGet3 (t : MachineState) (out : Outcome)
    (hreg : t.regs 1 = some 200) (hmem : t.mem 200 = none) :
    ¬ EvalList 1 t
      (.WriteRegister 4 (.Size 0) :: [
        .Loop [
          .If (.Comparison .EqualTo .Byte
              (.ReadMemory (.ReadRegister 1) 0 (.Primitive .Byte))
              (.ReadMemory (.ReadRegister 2) 0 (.Primitive .Byte)))
            [.Byte 1, .Break] none,
          .WriteRegister 4 (.Arithmetic .Add .PointerSize
            (.ReadRegister 4) (.Size 1)),
          .WriteRegister 1 (.Arithmetic .Add .PointerSize
            (.ReadRegister 1) (.Size 2)),
          .If (.Comparison .EqualTo .PointerSize (.ReadRegister 3)
              (.ReadRegister 4))
            [.Byte 0, .Break] none],
        .KillRegister 2, .KillRegister 3, .KillRegister 4]) out := by
  intro h
  cases h with
  | cons_ok_ok h1 h2 =>
    cases h1 with
    | write_reg hv1 =>
      cases hv1 with
      | size =>
        exact dictStuckGet4
          { t with regs := setReg t.regs 4 (some ((0 : Nat) : Int)) } _
          (by simp [setReg, hreg]) hmem h2
  | cons_ok_broke h1 h2 =>
    cases h1 with
    | write_reg hv1 =>
      cases hv1 with
      | size =>
        exact dictStuckGet4
          { t with regs := setReg t.regs 4 (some ((0 : Nat) : Int)) } _
          (by simp [setReg, hreg]) hmem h2
  | cons_ok_abort h1 h2 =>
    cases h1 with
    | write_reg hv1 =>
      cases hv1 with
      | size =>
        exact dictStuckGet4
          { t with regs := setReg t.regs 4 (some ((0 : Nat) : Int)) } _
          (by simp [setReg, hreg]) hmem h2
  | cons_broke h1 => cases h1
  | cons_abort h1 =>
    cases h1 with
    | write_reg_abort hv1 => cases hv1

/-- Adding the split read of the dictionary header in front stays stuck:
the buffer pointer 200 lands in the entry register and points at
unwritten memory. -/
theorem dictStuckGet2 (t : MachineState) (out : Outcome)
    (hr0 : t.regs 0 = some 100)
    (h100 : t.mem 100 = some 200) (h101 : t.mem 101 = some 0)
    (h102 : t.mem 102 = some 0) (hmem : t.mem 200 = none) :
    ¬ EvalList 1 t
      (.WriteRegistersSplitting
          (.ReadMemory (.ReadRegister 0) 0 (.Collection .Dict))
          [some 1, some 3, none] ::
        .WriteRegister 4 (.Size 0) :: [
        .Loop [
          .If (.Comparison .EqualTo .Byte
              (.ReadMemory (.ReadRegister 1) 0 (.Primitive .Byte))
              (.ReadMemory (.ReadRegister 2) 0 (.Primitive .Byte)))
            [.Byte 1, .Break] none,
          .WriteRegister 4 (.Arithmetic .Add .PointerSize
            (.ReadRegister 4) (.Size 1)),
          .WriteRegister 1 (.Arithmetic .Add .PointerSize
            (.ReadRegister 1) (.Size 2)),
          .If (.Comparison .EqualTo .PointerSize (.ReadRegister 3)
              (.ReadRegister 4))
            [.Byte 0, .Break] none],
        .KillRegister 2, .KillRegister 3, .KillRegister 4]) out := by
  intro h
  cases h with
  | cons_ok_ok h1 h2 =>
    cases h1 with
    | write_split hv1 hlen =>
      cases hv1 with
      | read_mem hl hty hrs =>
        cases hl with
        | read_reg hr =>
          rw [hr0] at hr
          injection hr with hr
          subst hr
          simp only [type_slots] at hty
          injection hty with hty
          subst hty
          norm_num [readSlots, h100, h101, h102] at hrs
          subst hrs
          exact dictStuckGet3 { t with regs := writeRegs t.regs [some 1, some 3, none] [200, 0, 0] } _ (by simp [writeRegs, setReg]) hmem h2
  | cons_ok_broke h1 h2 =>
    cases h1 with
    | write_split hv1 hlen =>
      cases hv1 with
      | read_mem hl hty hrs =>
        cases hl with
        | read_reg hr =>
          rw [hr0] at hr
          injection hr with hr
          subst hr
          simp only [type_slots] at hty
          injection hty with hty
          subst hty
          norm_num [readSlots, h100, h101, h102] at hrs
          subst hrs
          exact dictStuckGet3 { t with regs := writeRegs t.regs [some 1, some 3, none] [200, 0, 0] } _ (by simp [writeRegs, setReg]) hmem h2
  | cons_ok_abort h1 h2 =>
    cases h1 with
    | write_split hv1 hlen =>
      cases hv1 with
      | read_mem hl hty hrs =>
        cases hl with
        | read_reg hr =>
          rw [hr0] at hr
          injection hr with hr
          subst hr
          simp only [type_slots] at hty
          injection hty with hty
          subst hty
          norm_num [readSlots, h100, h101, h102] at hrs
          subst hrs
          exact dictStuckGet3 { t with regs := writeRegs t.regs [some 1, some 3, none] [200, 0, 0] } _ (by simp [writeRegs, setReg]) hmem h2
  | cons_broke h1 => cases h1
  | cons_abort h1 =>
    cases h1 with
    | write_split_abort hv1 =>
      cases hv1 with
      | read_mem_abort hl => cases hl

/-- `dict_get_entry_for_key`'s whole node sequence is stuck on the empty
dictionary at address 100. -/
theorem dictStuckGet (t : MachineState) (out : Outcome)
    (hv : t.vars 0 = some 1000) (hr0 : t.regs 0 = some 100)
    (h100 : t.mem 100 = some 200) (h101 : t.mem 101 = some 0)
    (h102 : t.mem 102 = some 0) (hmem : t.mem 200 = none) :
    ¬ EvalNode 1 t
      (.Sequence
        (.WriteRegister 2 (.VariableLocation 0) ::
        .WriteRegistersSplitting
            (.ReadMemory (.ReadRegister 0) 0 (.Collection .Dict))
            [some 1, some 3, none] ::
          .WriteRegister 4 (.Size 0) :: [
          .Loop [
            .If (.Comparison .EqualTo .Byte
                (.ReadMemory (.ReadRegister 1) 0 (.Primitive .Byte))
                (.ReadMemory (.ReadRegister 2) 0 (.Primitive .Byte)))
              [.Byte 1, .Break] none,
            .WriteRegister 4 (.Arithmetic .Add .PointerSize
              (.ReadRegister 4) (.Size 1)),
            .WriteRegister 1 (.Arithmetic .Add .PointerSize
              (.ReadRegister 1) (.Size 2)),
            .If (.Comparison .EqualTo .PointerSize (.ReadRegister 3)
                (.ReadRegister 4))
              [.Byte 0, .Break] none],
          .KillRegister 2, .KillRegister 3, .KillRegister 4])) out := by
  intro h
  cases h with
  | seq hl =>
    cases hl with
    | cons_ok_ok h1 h2 =>
      cases h1 with
      | write_reg hv1 =>
        cases hv1 with
        | var_loc ha =>
          rw [hv] at ha
          injection ha with ha
          subst ha
          exact dictStuckGet2 { t with regs := setReg t.regs 2 (some 1000) } _ (by simp [setReg, hr0]) h100 h101 h102 hmem h2
    | cons_ok_broke h1 h2 =>
      cases h1 with
      | write_reg hv1 =>
        cases hv1 with
        | var_loc ha =>
          rw [hv] at ha
          injection ha with ha
          subst ha
          exact dictStuckGet2 { t with regs := setReg t.regs 2 (some 1000) } _ (by simp [setReg, hr0]) h100 h101 h102 hmem h2
    | cons_ok_abort h1 h2 =>
      cases h1 with
      | write_reg hv1 =>
        cases hv1 with
        | var_loc ha =>
          rw [hv] at ha
          injection ha with ha
          subst ha
          exact dictStuckGet2 { t with regs := setReg t.regs 2 (some 1000) } _ (by simp [setReg, hr0]) h100 h101 h102 hmem h2
    | cons_broke h1 => cases h1
    | cons_abort h1 =>
      cases h1 with
      | write_reg_abort hv1 => cases hv1

/-- The insert's key-found conditional is stuck: every rule for `If` needs
an evaluation of its condition, the `dict_get_entry_for_key` probe. -/
theorem dictStuckIf4 (t : MachineState) (out : Outcome)
    (thn els : List LinearNode)
    (hv : t.vars 0 = some 1000) (hr0 : t.regs 0 = some 100)
    (h100 : t.mem 100 = some 200) (h101 : t.mem 101 = some 0)
    (h102 : t.mem 102 = some 0) (hmem : t.mem 200 = none) :
    ¬ EvalNode 1 t
      (.If (.Sequence
        (.WriteRegister 2 (.VariableLocation 0) ::
        .WriteRegistersSplitting
            (.ReadMemory (.ReadRegister 0) 0 (.Collection .Dict))
            [some 1, some 3, none] ::
          .WriteRegister 4 (.Size 0) :: [
          .Loop [
            .If (.Comparison .EqualTo .Byte
                (.ReadMemory (.ReadRegister 1) 0 (.Primitive .Byte))
                (.ReadMemory (.ReadRegister 2) 0 (.Primitive .Byte)))
              [.Byte 1, .Break] none,
            .WriteRegister 4 (.Arithmetic .Add .PointerSize
              (.ReadRegister 4) (.Size 1)),
            .WriteRegister 1 (.Arithmetic .Add .PointerSize
              (.ReadRegister 1) (.Size 2)),
            .If (.Comparison .EqualTo .PointerSize (.ReadRegister 3)
                (.ReadRegister 4))
              [.Byte 0, .Break] none],
          .KillRegister 2, .KillRegister 3, .KillRegister 4]))
        thn (some els)) out := by
  intro h
  cases h with
  | if_true h1 hc h2 => exact dictStuckGet t _ hv hr0 h100 h101 h102 hmem h1
  | if_false_some h1 hc h2 =>
    exact dictStuckGet t _ hv hr0 h100 h101 h102 hmem h1
  | if_abort h1 => exact dictStuckGet t _ hv hr0 h100 h101 h102 hmem h1

/-- The node list from the key-found conditional on is stuck. -/
theorem dictStuckList4 (t : MachineState) (out : Outcome)
    (thn els rest : List LinearNode)
    (hv : t.vars 0 = some 1000) (hr0 : t.regs 0 = some 100)
    (h100 : t.mem 100 = some 200) (h101 : t.mem 101 = some 0)
    (h102 : t.mem 102 = some 0) (hmem : t.mem 200 = none) :
    ¬ EvalList 1 t
      (.If (.Sequence
        (.WriteRegister 2 (.VariableLocation 0) ::
        .WriteRegistersSplitting
            (.ReadMemory (.ReadRegister 0) 0 (.Collection .Dict))
            [some 1, some 3, none] ::
          .WriteRegister 4 (.Size 0) :: [
          .Loop [
            .If (.Comparison .EqualTo .Byte
                (.ReadMemory (.ReadRegister 1) 0 (.Primitive .Byte))
                (.ReadMemory (.ReadRegister 2) 0 (.Primitive .Byte)))
              [.Byte 1, .Break] none,
            .WriteRegister 4 (.Arithmetic .Add .PointerSize
              (.ReadRegister 4) (.Size 1)),
            .WriteRegister 1 (.Arithmetic .Add .PointerSize
              (.ReadRegister 1) (.Size 2)),
            .If (.Comparison .EqualTo .PointerSize (.ReadRegister 3)
                (.ReadRegister 4))
              [.Byte 0, .Break] none],
          .KillRegister 2, .KillRegister 3, .KillRegister 4]))
        thn (some els) :: rest) out := by
  intro h
  cases h with
  | cons_ok_ok h1 h2 =>
    exact dictStuckIf4 t _ thn els hv hr0 h100 h101 h102 hmem h1
  | cons_ok_broke h1 h2 =>
    exact dictStuckIf4 t _ thn els hv hr0 h100 h101 h102 hmem h1
  | cons_ok_abort h1 h2 =>
    exact dictStuckIf4 t _ thn els hv hr0 h100 h101 h102 hmem h1
  | cons_broke h1 =>
    exact dictStuckIf4 t _ thn els hv hr0 h100 h101 h102 hmem h1
  | cons_abort h1 =>
    exact dictStuckIf4 t _ thn els hv hr0 h100 h101 h102 hmem h1

/-- The node list from the temporary key's initialising write on is
stuck. -/
theorem dictStuckList3 (t : MachineState) (out : Outcome)
    (thn els rest : List LinearNode)
    (hv : t.vars 0 = some 1000) (hr0 : t.regs 0 = some 100)
    (h100 : t.mem 100 = some 200) (h101 : t.mem 101 = some 0)
    (h102 : t.mem 102 = some 0) (hmem : t.mem 200 = none) :
    ¬ EvalList 1 t
      (.WriteMemory (.VariableLocation 0) 0 (.Primitive .Byte)
          (.IntLit 5) ::
        .If (.Sequence
          (.WriteRegister 2 (.VariableLocation 0) ::
          .WriteRegistersSplitting
              (.ReadMemory (.ReadRegister 0) 0 (.Collection .Dict))
              [some 1, some 3, none] ::
            .WriteRegister 4 (.Size 0) :: [
            .Loop [
              .If (.Comparison .EqualTo .Byte
                  (.ReadMemory (.ReadRegister 1) 0 (.Primitive .Byte))
                  (.ReadMemory (.ReadRegister 2) 0 (.Primitive .Byte)))
                [.Byte 1, .Break] none,
              .WriteRegister 4 (.Arithmetic .Add .PointerSize
                (.ReadRegister 4) (.Size 1)),
              .WriteRegister 1 (.Arithmetic .Add .PointerSize
                (.ReadRegister 1) (.Size 2)),
              .If (.Comparison .EqualTo .PointerSize (.ReadRegister 3)
                  (.ReadRegister 4))
                [.Byte 0, .Break] none],
            .KillRegister 2, .KillRegister 3, .KillRegister 4]))
          thn (some els) :: rest) out := by
  intro h
  cases h with
  | cons_ok_ok h1 h2 =>
    cases h1 with
    | write_mem hl hval hty hlen =>
      cases hl with
      | var_loc ha =>
        rw [hv] at ha
        injection ha with ha
        subst ha
        cases hval with
        | intlit =>
          simp only [type_slots] at hty
          injection hty with hty
          subst hty
          exact dictStuckList4 { t with mem := writeSlots t.mem (1000 + ((0 : Nat) : Int)) [0] [5] } _ thn els rest hv hr0 (by norm_num [writeSlots, setMem, h100]) (by norm_num [writeSlots, setMem, h101]) (by norm_num [writeSlots, setMem, h102]) (by norm_num [writeSlots, setMem, hmem]) h2
  | cons_ok_broke h1 h2 =>
    cases h1 with
    | write_mem hl hval hty hlen =>
      cases hl with
      | var_loc ha =>
        rw [hv] at ha
        injection ha with ha
        subst ha
        cases hval with
        | intlit =>
          simp only [type_slots] at hty
          injection hty with hty
          subst hty
          exact dictStuckList4 { t with mem := writeSlots t.mem (1000 + ((0 : Nat) : Int)) [0] [5] } _ thn els rest hv hr0 (by norm_num [writeSlots, setMem, h100]) (by norm_num [writeSlots, setMem, h101]) (by norm_num [writeSlots, setMem, h102]) (by norm_num [writeSlots, setMem, hmem]) h2
  | cons_ok_abort h1 h2 =>
    cases h1 with
    | write_mem hl hval hty hlen =>
      cases hl with
      | var_loc ha =>
        rw [hv] at ha
        injection ha with ha
        subst ha
        cases hval with
        | intlit =>
          simp only [type_slots] at hty
          injection hty with hty
          subst hty
          exact dictStuckList4 { t with mem := writeSlots t.mem (1000 + ((0 : Nat) : Int)) [0] [5] } _ thn els rest hv hr0 (by norm_num [writeSlots, setMem, h100]) (by norm_num [writeSlots, setMem, h101]) (by norm_num [writeSlots, setMem, h102]) (by norm_num [writeSlots, setMem, hmem]) h2
  | cons_broke h1 => cases h1
  | cons_abort h1 =>
    cases h1 with
    | write_mem_abort_loc hl => cases hl
    | write_mem_abort_val hl hval =>
      cases hl with
      | var_loc ha => cases hval

/-- The node list from the pointer register's initialisation on is
stuck. -/
theorem dictStuckList2 (t : MachineState) (out : Outcome)
    (thn els rest : List LinearNode)
    (hv : t.vars 0 = some 1000)
    (h100 : t.mem 100 = some 200) (h101 : t.mem 101 = some 0)
    (h102 : t.mem 102 = some 0) (hmem : t.mem 200 = none) :
    ¬ EvalList 1 t
      (.WriteRegister 0 (.IntLit 100) ::
        .WriteMemory (.VariableLocation 0) 0 (.Primitive .Byte)
          (.IntLit 5) ::
        .If (.Sequence
          (.WriteRegister 2 (.VariableLocation 0) ::
          .WriteRegistersSplitting
              (.ReadMemory (.ReadRegister 0) 0 (.Collection .Dict))
              [some 1, some 3, none] ::
            .WriteRegister 4 (.Size 0) :: [
            .Loop [
              .If (.Comparison .EqualTo .Byte
                  (.ReadMemory (.ReadRegister 1) 0 (.Primitive .Byte))
                  (.ReadMemory (.ReadRegister 2) 0 (.Primitive .Byte)))
                [.Byte 1, .Break] none,
              .WriteRegister 4 (.Arithmetic .Add .PointerSize
                (.ReadRegister 4) (.Size 1)),
              .WriteRegister 1 (.Arithmetic .Add .PointerSize
                (.ReadRegister 1) (.Size 2)),
              .If (.Comparison .EqualTo .PointerSize (.ReadRegister 3)
                  (.ReadRegister 4))
                [.Byte 0, .Break] none],
            .KillRegister 2, .KillRegister 3, .KillRegister 4]))
          thn (some els) :: rest) out := by
  intro h
  cases h with
  | cons_ok_ok h1 h2 =>
    cases h1 with
    | write_reg hv1 =>
      cases hv1 with
      | intlit =>
        exact dictStuckList3 { t with regs := setReg t.regs 0 (some 100) } _ thn els rest hv (by simp [setReg]) h100 h101 h102 hmem h2
  | cons_ok_broke h1 h2 =>
    cases h1 with
    | write_reg hv1 =>
      cases hv1 with
      | intlit =>
        exact dictStuckList3 { t with regs := setReg t.regs 0 (some 100) } _ thn els rest hv (by simp [setReg]) h100 h101 h102 hmem h2
  | cons_ok_abort h1 h2 =>
    cases h1 with
    | write_reg hv1 =>
      cases hv1 with
      | intlit =>
        exact dictStuckList3 { t with regs := setReg t.regs 0 (some 100) } _ thn els rest hv (by simp [setReg]) h100 h101 h102 hmem h2
  | cons_broke h1 => cases h1
  | cons_abort h1 =>
    cases h1 with
    | write_reg_abort hv1 => cases hv1

/-- C7 counterexample on the original claim's absent-key half: inserting
key 5 into the CONCRETE EMPTY dictionary at address 100 (buffer 200,
length 0, capacity 0) admits no evaluation outcome at all.  The probe
loop emitted by `dict_get_entry_for_key` reads the entry key at the
buffer pointer BEFORE comparing the index against the length, and on an
empty dictionary that first read is past the buffer: no rule of the
evaluation relation applies, so no new entry is ever allocated or
written. -/
theorem dict_insert_empty_dict_stuck :
    ¬ ∃ out, EvalNode 1 dictEmptyState
      (lower_dict_insert (.IntLit 100) 0 (.IntLit 5) (.IntLit 7) .Byte
        (.Primitive .Byte) 1 2 0 1 0) out := by
  rintro ⟨out, h⟩
  simp only [lower_dict_insert, dict_get_entry_for_key,
    LinearNode.write_register, LinearNode.write_multi_register,
    LinearNode.read_register, LinearNode.read_memory,
    LinearNode.write_memory, LinearNode.kill_register, LinearNode.size,
    LinearNode.if_node, LinearNode.ptr_arithmetic,
    LinearNode.ptr_comparison, Nat.reduceAdd] at h
  cases h with
  | seq hl =>
    cases hl with
    | cons_ok_ok h1 h2 =>
      cases h1 with
      | var_init hty =>
        simp only [type_slots] at hty
        injection hty with hty
        subst hty
        exact dictStuckList2 _ _ _ _ _ (by decide) (by decide) (by decide)
          (by decide) (by decide) h2
    | cons_ok_broke h1 h2 =>
      cases h1 with
      | var_init hty =>
        simp only [type_slots] at hty
        injection hty with hty
        subst hty
        exact dictStuckList2 _ _ _ _ _ (by decide) (by decide) (by decide)
          (by decide) (by decide) h2
    | cons_ok_abort h1 h2 =>
      cases h1 with
      | var_init hty =>
        simp only [type_slots] at hty
        injection hty with hty
        subst hty
        exact dictStuckList2 _ _ _ _ _ (by decide) (by decide) (by decide)
          (by decide) (by decide) h2
    | cons_broke h1 => cases h1
    | cons_abort h1 => cases h1

end Brick
